import Mathlib

/-!
# Verification of the light-client verifier, the Merkle proof operators, the Ed25519 keys,
the key/value application and the genesis document

The development embeds the functions of `light/verifier.go`, of `crypto/merkle`, of
`crypto/ed25519/ed25519.go`, of `abci/example/kvstore` and of `types/genesis.go` as Lean
functions and proves the properties claimed about them. The first part holds the
definitions, namespace by namespace; the theorems follow.

Conventions of the embedding

* A Go `error` result is an `Option`: `none` is `nil`.
* `int64` values are integers; the one arithmetic operation the verifier performs on
  them, `trustedHeader.Height+1`, wraps as Go does (`addInt64`). `uint64` values are
  naturals and `Numerator*3` wraps modulo `2^64` (`mulUint64`).
* `time.Time` is the instant its wall clock shows, counted in nanoseconds from the Unix
  epoch; `time.Duration` is a number of nanoseconds. `After` and `Before` compare
  instants. `Add` follows the standard library: the seconds since January 1 of year 1
  are an `int64`, and a sum that leaves that range is replaced by the end of the range
  (`addSec`). The monotonic clock reading that `time.Now` attaches is not modelled:
  the standard library compares by it only when both times carry one, and the time of
  a header that was decoded carries none.
* Pointers are taken to be non-nil.
* The functions of package `types` that the verifier calls (`ValidateBasic`, `Hash`,
  the commit verifications, the signature cache) are not part of the sources. They are
  the fields of `TypesAPI`, and every theorem holds for every such implementation.
-/

namespace Light

/-! ## Machine integers, byte slices, time -/

/-- A Go byte slice. `bytes.Equal` is equality of the sequences (a nil slice and an
empty slice are both the empty list). -/
abbrev Bytes := List Nat

/-- The least `int64`. -/
def minInt64 : Int := -(2 ^ 63)

/-- The greatest `int64`. -/
def maxInt64 : Int := 2 ^ 63 - 1

/-- The greatest `uint64`. -/
def maxUint64 : Nat := 2 ^ 64 - 1

/-- The value is representable as an `int64`. -/
def isInt64 (x : Int) : Prop := minInt64 ≤ x ∧ x ≤ maxInt64

instance (x : Int) : Decidable (isInt64 x) := by
  unfold isInt64; exact inferInstance

/-- The value is representable as a `uint64`. -/
def isUint64 (x : Nat) : Prop := x ≤ maxUint64

instance (x : Nat) : Decidable (isUint64 x) := by
  unfold isUint64; exact inferInstance

/-- Two's complement reduction of an integer to the `int64` range. -/
def wrapInt64 (x : Int) : Int := (x + 2 ^ 63) % 2 ^ 64 - 2 ^ 63

/-- Go's `a + b` on `int64`. -/
def addInt64 (a b : Int) : Int := wrapInt64 (a + b)

/-- Go's `a * b` on `uint64`. -/
def mulUint64 (a b : Nat) : Nat := (a * b) % 2 ^ 64

/-- A `time.Duration`: a signed number of nanoseconds, an `int64`. -/
abbrev Duration := Int

/-- Constant `unixToInternal` of package `time`: the seconds from January 1 of year 1 to
the Unix epoch. -/
def unixToInternal : Int := 62135596800

/-- A `time.Time`, as the instant its wall clock denotes: the nanoseconds from the Unix
epoch, as an integer. -/
structure Time where
  unixNano : Int
deriving DecidableEq, Repr

/-- Go method `t.sec()`: the seconds since January 1 of year 1. -/
def Time.sec (t : Time) : Int := t.unixNano / 1000000000 + unixToInternal

/-- Go method `t.nsec()`: the nanoseconds within the second, in `[0, 999999999]`. -/
def Time.nsec (t : Time) : Int := t.unixNano % 1000000000

/-- The time of `sec` seconds since January 1 of year 1 and `nsec` nanoseconds. -/
def Time.ofSecNsec (sec nsec : Int) : Time :=
  ⟨(sec - unixToInternal) * 1000000000 + nsec⟩

/-- The value is a `time.Time`: its seconds since January 1 of year 1 are an `int64`. -/
def isTime (t : Time) : Prop := isInt64 t.sec

instance (t : Time) : Decidable (isTime t) := by
  unfold isTime; exact inferInstance

/-- Go's `a / b` on `int64` for a positive `b`: the quotient truncated toward zero. -/
def quoInt64 (a b : Int) : Int := if 0 ≤ a then a / b else -((-a) / b)

/-- Go's `a % b` on `int64` for a positive `b`: the remainder, of the sign of `a`. -/
def remInt64 (a b : Int) : Int := a - quoInt64 a b * b

/-- Method `addSec` of `time.Time`, for a time with no monotonic clock reading
(`sum := t.ext + d`, kept when `(sum > t.ext) == (d > 0)`): the `int64` sum, replaced by
`1<<63 - 1` or `-(1<<63 - 1)` when it overflowed. -/
def addSec (ext d : Int) : Int :=
  let sum := addInt64 ext d
  if (sum > ext ↔ d > 0) then sum
  else if d > 0 then maxInt64
  else -maxInt64

/-- Go method `t.Add(d)`: the nanoseconds of `d` are added to those of `t`, with a carry
into the seconds, and the seconds are added by `addSec`. -/
def Time.Add (t : Time) (d : Duration) : Time :=
  let dsec := quoInt64 d 1000000000
  let nsec := t.nsec + remInt64 d 1000000000
  if nsec ≥ 1000000000 then Time.ofSecNsec (addSec t.sec (dsec + 1)) (nsec - 1000000000)
  else if nsec < 0 then Time.ofSecNsec (addSec t.sec (dsec - 1)) (nsec + 1000000000)
  else Time.ofSecNsec (addSec t.sec dsec) nsec

/-- Go method `t.After(u)`: the instant `t` is strictly later than `u`. -/
def Time.After (t u : Time) : Bool := decide (u.unixNano < t.unixNano)

/-- Go method `t.Before(u)`: the instant `t` is strictly earlier than `u`. -/
def Time.Before (t u : Time) : Bool := decide (t.unixNano < u.unixNano)

/-- The last instant of `time.Time`, `time.Unix(1<<63-1-62135596800, 999999999)`. -/
def maxTime : Time := Time.ofSecNsec maxInt64 999999999

/-! ## Data model (package `types` and `libs/math`) -/

/-- Modelled from the spec: the trust level `(n, d)`. Its declaration, `cmtmath.Fraction`
of `libs/math`, is not among the sources; `Numerator` and `Denominator` are `uint64`
fields there. -/
structure Fraction where
  Numerator : Nat
  Denominator : Nat
deriving DecidableEq, Repr

/-- Modelled from the spec: `part_set_header = (total_parts, parts_root)`, the Go type
`types.PartSetHeader` (package `types` is not among the sources). -/
structure PartSetHeader where
  Total : Nat := 0
  Hash : Bytes := []
deriving DecidableEq, Repr

/-- Modelled from the spec: `BlockID = (block_hash, part_set_header)`, the Go type
`types.BlockID` (package `types` is not among the sources). -/
structure BlockID where
  Hash : Bytes := []
  PartSetHeader : PartSetHeader := {}
deriving DecidableEq, Repr

/-- Modelled from the spec: the header of the data model, the Go type `types.Header`
(package `types` is not among the sources). `Height` is an `int64`. -/
structure Header where
  ChainID : String
  Height : Int
  Time : Time
  LastBlockID : BlockID := {}
  LastCommitHash : Bytes := []
  DataHash : Bytes := []
  ValidatorsHash : Bytes := []
  NextValidatorsHash : Bytes := []
  ConsensusHash : Bytes := []
  AppHash : Bytes := []
  LastResultsHash : Bytes := []
  EvidenceHash : Bytes := []
  ProposerAddress : Bytes := []
deriving DecidableEq, Repr

/-- Modelled from the spec: one signature slot of a commit, absent (flag 1), commit
(flag 2) or nil (flag 3); the Go type `types.CommitSig` is not among the sources. -/
structure CommitSig where
  BlockIDFlag : Nat
  ValidatorAddress : Bytes := []
  Timestamp : Time := ⟨0⟩
  Signature : Bytes := []
deriving DecidableEq, Repr

/-- Modelled from the spec: `Commit = (height, round, block_id, signatures[])`, the Go type
`types.Commit` (package `types` is not among the sources). -/
structure Commit where
  Height : Int
  Round : Int := 0
  BlockID : BlockID := {}
  Signatures : List CommitSig := []
deriving DecidableEq, Repr

/-- Modelled from the spec: a header together with the commit that signs it, the Go type
`types.SignedHeader` (package `types` is not among the sources), which embeds the header,
so that `sh.Height`, `sh.Time`, `sh.ChainID` are the fields of the header. -/
structure SignedHeader extends Header where
  Commit : Commit
deriving DecidableEq, Repr

/-- Modelled from the spec: `Validator = (address, public_key, voting_power,
proposer_priority)`, the Go type `types.Validator` (package `types` is not among the
sources). -/
structure Validator where
  Address : Bytes
  PubKey : Bytes := []
  VotingPower : Int
  ProposerPriority : Int := 0
deriving DecidableEq, Repr

/-- Modelled from the spec: the ordered sequence of validators, the Go type
`types.ValidatorSet` (package `types` is not among the sources). -/
structure ValidatorSet where
  Validators : List Validator
deriving DecidableEq, Repr

/-- Modelled from the spec: the cache of verified signatures handed to the commit checks,
the Go type `types.SignatureCache` (package `types` is not among the sources). -/
structure SignatureCache where
  entries : List (Bytes × Bytes) := []
deriving DecidableEq, Repr

/-! ## Errors -/

/-- An error value produced by package `types` (not among the sources). The verifier
distinguishes only one dynamic type, `types.ErrNotEnoughVotingPowerSigned`; `other`
stands for an error of any other dynamic type. -/
inductive TypesError where
  | ErrNotEnoughVotingPowerSigned (Got Needed : Int)
  | other (msg : String)
deriving DecidableEq, Repr

/-- An argument of a `fmt.Errorf` call. -/
inductive FmtArg where
  | time (t : Time)
  | bytes (b : Bytes)
deriving DecidableEq, Repr

/-- The error values `light/verifier.go` returns. The error types are declared in
`light/errors.go`, which is not among the sources; each constructor carries the fields
that the composite literal in `verifier.go` sets. `ofTypes` is an error value of package
`types` returned as it is, `errorsNew` and `fmtErrorf` are the results of `errors.New`
and `fmt.Errorf`. -/
inductive Error where
  | ofTypes (e : TypesError)
  | errorsNew (text : String)
  | fmtErrorf (format : String) (args : List FmtArg)
  | ErrHeaderHeightAdjacent
  | ErrHeaderHeightNotAdjacent
  | ErrOldHeaderExpired (At Now : Time)
  | ErrInvalidHeader (Reason : Error)
  | ErrNewValSetCantBeTrusted (Reason : TypesError)
  | ErrValidatorHashMismatch (TrustedHash ValidatorHash : Bytes)
  | ErrHeaderValidateBasic (Err : TypesError)
  | ErrHeaderHeightNotMonotonic (GotHeight OldHeight : Int)
  | ErrHeaderTimeNotMonotonic (GotTime OldTime : Time)
  | ErrHeaderTimeExceedMaxClockDrift (Ti Now : Time) (Drift : Duration)
  | ErrValidatorsMismatch (HeaderHash ValidatorsHash : Bytes) (Height : Int)
  | ErrInvalidTrustLevel (Level : Fraction)
deriving DecidableEq, Repr

/-- The functions of package `types` called by the verifier. Package `types` is not among
the sources: the functions are parameters of the verifier. -/
structure TypesAPI where
  /-- Method `(sh SignedHeader).ValidateBasic(chainID)`. -/
  SignedHeaderValidateBasic : SignedHeader → String → Option TypesError
  /-- Method `(h *Header).ValidateBasic()`. -/
  HeaderValidateBasic : Header → Option TypesError
  /-- Method `(h *Header).Hash()`. -/
  HeaderHash : Header → Bytes
  /-- Method `(vals *ValidatorSet).Hash()`. -/
  ValidatorSetHash : ValidatorSet → Bytes
  /-- Function `types.NewSignatureCache()`. -/
  NewSignatureCache : SignatureCache
  /-- Method `vals.VerifyCommitLight(chainID, blockID, height, commit)`. -/
  VerifyCommitLight : ValidatorSet → String → BlockID → Int → Commit → Option TypesError
  /-- Method `vals.VerifyCommitLightWithCache(chainID, blockID, height, commit, cache)`: the
  error and the cache as the call leaves it. -/
  VerifyCommitLightWithCache :
    ValidatorSet → String → BlockID → Int → Commit → SignatureCache →
      Option TypesError × SignatureCache
  /-- Method `vals.VerifyCommitLightTrustingWithCache(chainID, commit, trustLevel, cache)`: the
  error and the cache as the call leaves it. -/
  VerifyCommitLightTrustingWithCache :
    ValidatorSet → String → Commit → Fraction → SignatureCache →
      Option TypesError × SignatureCache

/-! ## `light/verifier.go` -/

/-- Variable `DefaultTrustLevel` of `light/verifier.go`. -/
def DefaultTrustLevel : Fraction := { Numerator := 1, Denominator := 3 }

/-- Function `HeaderExpired` of `light/verifier.go`. -/
def HeaderExpired (h : SignedHeader) (trustingPeriod : Duration) (now : Time) : Bool :=
  let expirationTime := h.Time.Add trustingPeriod
  !expirationTime.After now

/-- Function `verifyNewHeaderAndVals` of `light/verifier.go`. -/
def verifyNewHeaderAndVals (T : TypesAPI)
    (untrustedHeader : SignedHeader) (untrustedVals : ValidatorSet)
    (trustedHeader : SignedHeader) (now : Time) (maxClockDrift : Duration) :
    Option Error :=
  match T.SignedHeaderValidateBasic untrustedHeader trustedHeader.ChainID with
  | some err => some (.ErrHeaderValidateBasic err)
  | none =>
    if untrustedHeader.Height ≤ trustedHeader.Height then
      some (.ErrHeaderHeightNotMonotonic untrustedHeader.Height trustedHeader.Height)
    else if !untrustedHeader.Time.After trustedHeader.Time then
      some (.ErrHeaderTimeNotMonotonic untrustedHeader.Time trustedHeader.Time)
    else if !untrustedHeader.Time.Before (now.Add maxClockDrift) then
      some (.ErrHeaderTimeExceedMaxClockDrift untrustedHeader.Time now maxClockDrift)
    else if untrustedHeader.ValidatorsHash ≠ T.ValidatorSetHash untrustedVals then
      some (.ErrValidatorsMismatch untrustedHeader.ValidatorsHash
        (T.ValidatorSetHash untrustedVals) untrustedHeader.Height)
    else
      none

/-- The type switch of `VerifyNonAdjacent` on the error of the trusting check. -/
def trustingError : TypesError → Error
  | .ErrNotEnoughVotingPowerSigned got needed =>
      .ErrNewValSetCantBeTrusted (.ErrNotEnoughVotingPowerSigned got needed)
  | e => .ofTypes e

/-- Function `VerifyNonAdjacent` of `light/verifier.go`. The signature cache created
by `types.NewSignatureCache()` is handed to the trusting check and, as that call leaves
it, to the commit check. -/
def VerifyNonAdjacent (T : TypesAPI)
    (trustedHeader : SignedHeader) (trustedVals : ValidatorSet)
    (untrustedHeader : SignedHeader) (untrustedVals : ValidatorSet)
    (trustingPeriod : Duration) (now : Time) (maxClockDrift : Duration)
    (trustLevel : Fraction) : Option Error :=
  if untrustedHeader.Height = addInt64 trustedHeader.Height 1 then
    some .ErrHeaderHeightAdjacent
  else if HeaderExpired trustedHeader trustingPeriod now then
    some (.ErrOldHeaderExpired (trustedHeader.Time.Add trustingPeriod) now)
  else
    match verifyNewHeaderAndVals T untrustedHeader untrustedVals trustedHeader now
        maxClockDrift with
    | some err => some (.ErrInvalidHeader err)
    | none =>
      let verifiedSignatureCache := T.NewSignatureCache
      let trusting := T.VerifyCommitLightTrustingWithCache trustedVals trustedHeader.ChainID
        untrustedHeader.Commit trustLevel verifiedSignatureCache
      match trusting.1 with
      | some e => some (trustingError e)
      | none =>
        match (T.VerifyCommitLightWithCache untrustedVals trustedHeader.ChainID
            untrustedHeader.Commit.BlockID untrustedHeader.Height untrustedHeader.Commit
            trusting.2).1 with
        | some err => some (.ErrInvalidHeader (.ofTypes err))
        | none => none

/-- Function `VerifyAdjacent` of `light/verifier.go`. -/
def VerifyAdjacent (T : TypesAPI)
    (trustedHeader untrustedHeader : SignedHeader) (untrustedVals : ValidatorSet)
    (trustingPeriod : Duration) (now : Time) (maxClockDrift : Duration) : Option Error :=
  if untrustedHeader.Height ≠ addInt64 trustedHeader.Height 1 then
    some .ErrHeaderHeightNotAdjacent
  else if HeaderExpired trustedHeader trustingPeriod now then
    some (.ErrOldHeaderExpired (trustedHeader.Time.Add trustingPeriod) now)
  else
    match verifyNewHeaderAndVals T untrustedHeader untrustedVals trustedHeader now
        maxClockDrift with
    | some err => some (.ErrInvalidHeader err)
    | none =>
      if untrustedHeader.ValidatorsHash ≠ trustedHeader.NextValidatorsHash then
        some (.ErrValidatorHashMismatch trustedHeader.NextValidatorsHash
          untrustedHeader.ValidatorsHash)
      else
        match T.VerifyCommitLight untrustedVals trustedHeader.ChainID
            untrustedHeader.Commit.BlockID untrustedHeader.Height untrustedHeader.Commit with
        | some err => some (.ErrInvalidHeader (.ofTypes err))
        | none => none

/-- Function `Verify` of `light/verifier.go`. -/
def Verify (T : TypesAPI)
    (trustedHeader : SignedHeader) (trustedVals : ValidatorSet)
    (untrustedHeader : SignedHeader) (untrustedVals : ValidatorSet)
    (trustingPeriod : Duration) (now : Time) (maxClockDrift : Duration)
    (trustLevel : Fraction) : Option Error :=
  if untrustedHeader.Height ≠ addInt64 trustedHeader.Height 1 then
    VerifyNonAdjacent T trustedHeader trustedVals untrustedHeader untrustedVals
      trustingPeriod now maxClockDrift trustLevel
  else
    VerifyAdjacent T trustedHeader untrustedHeader untrustedVals trustingPeriod now
      maxClockDrift

/-- Function `ValidateTrustLevel` of `light/verifier.go`. -/
def ValidateTrustLevel (lvl : Fraction) : Option Error :=
  if mulUint64 lvl.Numerator 3 < lvl.Denominator ||
      lvl.Numerator > lvl.Denominator ||
      lvl.Denominator == 0 then
    some (.ErrInvalidTrustLevel lvl)
  else
    none

/-- Function `VerifyBackwards` of `light/verifier.go`. -/
def VerifyBackwards (T : TypesAPI) (untrustedHeader trustedHeader : Header) :
    Option Error :=
  match T.HeaderValidateBasic untrustedHeader with
  | some err => some (.ErrInvalidHeader (.ofTypes err))
  | none =>
    if untrustedHeader.ChainID ≠ trustedHeader.ChainID then
      some (.ErrInvalidHeader (.errorsNew "header belongs to another chain"))
    else if !untrustedHeader.Time.Before trustedHeader.Time then
      some (.ErrInvalidHeader
        (.fmtErrorf "expected older header time %v to be before new header time %v"
          [.time untrustedHeader.Time, .time trustedHeader.Time]))
    else if T.HeaderHash untrustedHeader ≠ trustedHeader.LastBlockID.Hash then
      some (.ErrInvalidHeader
        (.fmtErrorf "older header hash %X does not match trusted header's last block %X"
          [.bytes (T.HeaderHash untrustedHeader), .bytes trustedHeader.LastBlockID.Hash]))
    else
      none

/-- The common new-header checks, as a proposition. -/
def NewHeaderChecks (T : TypesAPI) (untrustedHeader : SignedHeader)
    (untrustedVals : ValidatorSet) (trustedHeader : SignedHeader) (now : Time)
    (maxClockDrift : Duration) : Prop :=
  T.SignedHeaderValidateBasic untrustedHeader trustedHeader.ChainID = none ∧
  trustedHeader.Height < untrustedHeader.Height ∧
  trustedHeader.Time.unixNano < untrustedHeader.Time.unixNano ∧
  untrustedHeader.Time.unixNano < (now.Add maxClockDrift).unixNano ∧
  untrustedHeader.ValidatorsHash = T.ValidatorSetHash untrustedVals

/-- The same implementation of package `types`, except that the commit check with cache
is `commitCheck`. -/
def TypesAPI.withCommitCheck (T : TypesAPI)
    (commitCheck : ValidatorSet → String → BlockID → Int → Commit → SignatureCache →
      Option TypesError × SignatureCache) : TypesAPI :=
  { T with VerifyCommitLightWithCache := commitCheck }

/-- The same implementation of package `types`, except that the commit check without
cache is `commitCheck`. -/
def TypesAPI.withCommitLight (T : TypesAPI)
    (commitCheck : ValidatorSet → String → BlockID → Int → Commit → Option TypesError) :
    TypesAPI :=
  { T with VerifyCommitLight := commitCheck }

/-! ## A small implementation of the `types` functions and sample inputs

The theorems below hold for every `TypesAPI`. The implementation here is used to run
the verifier on concrete inputs. -/

/-- Sum of the voting power of the validators of `vals` that have a commit-flag
signature slot in `commit`. -/
def signedPower (vals : ValidatorSet) (commit : Commit) : Int :=
  (vals.Validators.filter (fun v =>
    commit.Signatures.any (fun s => s.BlockIDFlag == 2 && s.ValidatorAddress == v.Address))
  ).foldl (fun acc v => acc + v.VotingPower) 0

/-- Total voting power of a validator set. -/
def totalPower (vals : ValidatorSet) : Int :=
  vals.Validators.foldl (fun acc v => acc + v.VotingPower) 0

/-- Commit check of the sample implementation: the commit is for the given height and
block, and more than two thirds of the power of `vals` signed it. -/
def sampleVerifyCommitLight (vals : ValidatorSet) (_chainID : String) (blockID : BlockID)
    (height : Int) (commit : Commit) : Option TypesError :=
  if commit.Height ≠ height then some (.other "invalid commit -- wrong height")
  else if commit.BlockID ≠ blockID then some (.other "invalid commit -- wrong block ID")
  else if 3 * signedPower vals commit ≤ 2 * totalPower vals then
    some (.ErrNotEnoughVotingPowerSigned (signedPower vals commit)
      (2 * totalPower vals / 3))
  else none

/-- Trusting check of the sample implementation: at least `trustLevel` of the power of
`vals` signed the commit. -/
def sampleVerifyCommitLightTrusting (vals : ValidatorSet) (_chainID : String)
    (commit : Commit) (trustLevel : Fraction) : Option TypesError :=
  if trustLevel.Denominator = 0 then some (.other "trustLevel has zero Denominator")
  else if signedPower vals commit * trustLevel.Denominator
      ≤ totalPower vals * trustLevel.Numerator then
    some (.ErrNotEnoughVotingPowerSigned (signedPower vals commit)
      (totalPower vals * trustLevel.Numerator / trustLevel.Denominator))
  else none

/-- The sample implementation of the functions of package `types`. -/
def sampleTypes : TypesAPI where
  SignedHeaderValidateBasic := fun sh chainID =>
    if sh.ChainID ≠ chainID then some (.other "header belongs to another chain")
    else if sh.Commit.Height ≠ sh.Height then
      some (.other "header and commit height mismatch")
    else none
  HeaderValidateBasic := fun h =>
    if h.Height ≤ 0 then some (.other "non-positive Height") else none
  HeaderHash := fun h => h.Height.toNat :: h.ValidatorsHash
  ValidatorSetHash := fun vals => vals.Validators.map (fun v => v.VotingPower.toNat)
  NewSignatureCache := {}
  VerifyCommitLight := sampleVerifyCommitLight
  VerifyCommitLightWithCache := fun vals chainID blockID height commit cache =>
    (sampleVerifyCommitLight vals chainID blockID height commit, cache)
  VerifyCommitLightTrustingWithCache := fun vals chainID commit trustLevel cache =>
    (sampleVerifyCommitLightTrusting vals chainID commit trustLevel, cache)

/-- A commit check that always fails. -/
def failingCommitCheck (_vals : ValidatorSet) (_chainID : String) (_blockID : BlockID)
    (_height : Int) (_commit : Commit) (cache : SignatureCache) :
    Option TypesError × SignatureCache :=
  (some (.other "invalid commit"), cache)

/-- A header of chain `test-chain` at height 2 whose `LastBlockID.Hash` is the sample hash
of `sampleHeader 1 100`. -/
def sampleNewerHeader : Header :=
  { ChainID := "test-chain", Height := 2, Time := ⟨200⟩,
    LastBlockID := { Hash := [1, 10, 10, 10] } }

/-- The same header on another chain. -/
def sampleForeignHeader : Header :=
  { sampleNewerHeader with ChainID := "other-chain" }

/-- Three validators of power 10, 10 and 10. -/
def sampleVals : ValidatorSet :=
  { Validators := [
      { Address := [1], VotingPower := 10 },
      { Address := [2], VotingPower := 10 },
      { Address := [3], VotingPower := 10 } ] }

/-- Three other validators, of power 10, 10 and 10. -/
def sampleOtherVals : ValidatorSet :=
  { Validators := [
      { Address := [7], VotingPower := 10 },
      { Address := [8], VotingPower := 10 },
      { Address := [9], VotingPower := 10 } ] }

/-- A commit at the given height signed by the three validators of `sampleVals`. -/
def sampleCommit (height : Int) : Commit :=
  { Height := height,
    Signatures := [
      { BlockIDFlag := 2, ValidatorAddress := [1] },
      { BlockIDFlag := 2, ValidatorAddress := [2] },
      { BlockIDFlag := 2, ValidatorAddress := [3] } ] }

/-- A signed header of chain `test-chain` at the given height and time, whose validator
set and next validator set are `sampleVals`, signed by all of `sampleVals`. -/
def sampleHeader (height : Int) (time : Int) : SignedHeader :=
  { ChainID := "test-chain", Height := height, Time := ⟨time⟩,
    ValidatorsHash := [10, 10, 10], NextValidatorsHash := [10, 10, 10],
    Commit := sampleCommit height }

/-- The header `sampleHeader height time` with another hash of the next validator
set. -/
def sampleHeaderOtherNext (height : Int) (time : Int) : SignedHeader :=
  { sampleHeader height time with NextValidatorsHash := [20, 20] }

/-- A commit check without cache that always fails. -/
def failingCommitLight (_vals : ValidatorSet) (_chainID : String) (_blockID : BlockID)
    (_height : Int) (_commit : Commit) : Option TypesError :=
  some (.other "invalid commit")

/-- A header of chain `test-chain` at height 5 whose `LastBlockID.Hash` is the sample hash
of `sampleHeader 1 100`, the header at height 1. -/
def sampleFarHeader : Header :=
  { sampleNewerHeader with Height := 5 }

/-- The sample implementation of package `types` with a `SignedHeader.ValidateBasic` that
validates the header first, and so rejects a height that is not positive. -/
def strictTypes : TypesAPI :=
  { sampleTypes with
    SignedHeaderValidateBasic := fun sh chainID =>
      match sampleTypes.HeaderValidateBasic sh.toHeader with
      | some err => some err
      | none => sampleTypes.SignedHeaderValidateBasic sh chainID }

/-- A signed header of chain `test-chain` at height 1 whose time is the last instant of
`time.Time`. -/
def sampleLastHeader : SignedHeader := sampleHeader 1 maxTime.unixNano

end Light

namespace Merkle

/-! ## Merkle proofs and proof operators (package `crypto/merkle`)

Of package `crypto/merkle` the sources contain the test file `proof_test.go` only.
`DominoOp` is embedded from that file. `ProofOperators.Verify`, `KeyPathToKeys`,
`ValueOp`, `Proof` and the tree functions are modelled from the specification. A Go
`string` is its sequence of bytes. The hash `tmhash.Sum` (SHA-256) is the parameter `H`
of the functions that hash. -/

/-- A Go byte slice or Go string. -/
abbrev Bytes := List Nat

/-- Go conversion `[]byte(s)` of a string literal: its UTF-8 bytes (`bz` of the test
file). -/
def bz (s : String) : Bytes := (s.toList.flatMap String.utf8EncodeChar).map UInt8.toNat

/-- The errors of package `crypto/merkle` and of the test operators. `errorsNew` and
`fmtErrorf` are the results of `errors.New` and `fmt.Errorf` in `proof_test.go`; the other
constructors name the failures of the functions modelled from the specification. -/
inductive Error where
  | errorsNew (text : String)
  | fmtErrorf (format : String) (args : List Bytes)
  | ErrKeyPathNoSlash (path : Bytes)
  | ErrKeyPathUnescape (index : Nat) (part : Bytes)
  | ErrKeyPathInsufficient (key : Bytes)
  | ErrKeyMismatch (index : Nat) (expected got : Bytes)
  | ErrInvalidRoot (expected : Bytes) (got : List Bytes)
  | ErrKeyPathNotConsumed
  | ErrWrongArgCount (got : Nat)
  | ErrLeafHashMismatch (want got : Bytes)
  | ErrInvalidIndexTotal (index total : Int)
  | ErrUnexpectedInnerHashes
  | ErrExpectedInnerHash
  | ErrNegativeTotal
  | ErrNegativeIndex
  | ErrLeafLength (got want : Nat)
  | ErrMaxAuntsExceeded (max : Nat)
  | ErrAuntLength (index got want : Nat)
deriving DecidableEq, Repr

/-- Equality of results is decidable. -/
instance instDecidableEqExcept {ε α : Type} [DecidableEq ε] [DecidableEq α] :
    DecidableEq (Except ε α)
  | .ok a, .ok b =>
    if h : a = b then isTrue (congrArg Except.ok h)
    else isFalse (fun h2 => h (Except.ok.inj h2))
  | .error a, .error b =>
    if h : a = b then isTrue (congrArg Except.error h)
    else isFalse (fun h2 => h (Except.error.inj h2))
  | .ok _, .error _ => isFalse (fun h => Except.noConfusion h)
  | .error _, .ok _ => isFalse (fun h => Except.noConfusion h)

/-- Modelled from the spec: a proof operator, "each mapping a list of input byte strings
and a key segment to a list of output byte strings". The Go interface `ProofOperator`
is not among the sources; `proof_test.go` implements its methods `Run` and `GetKey`. -/
structure ProofOperator where
  Run : List Bytes → Except Error (List Bytes)
  GetKey : Bytes

/-- Go type `DominoOp` of `proof_test.go`: expects the given input, produces the given
output. The key may be empty. -/
structure DominoOp where
  key : Bytes
  Input : Bytes
  Output : Bytes
deriving DecidableEq, Repr

/-- Function `NewDominoOp` of `proof_test.go`. -/
def NewDominoOp (key input output : Bytes) : DominoOp :=
  { key := key, Input := input, Output := output }

/-- Method `DominoOp.Run` of `proof_test.go`. -/
def DominoOp.Run (dop : DominoOp) (input : List Bytes) : Except Error (List Bytes) :=
  if input.length ≠ 1 then
    .error (.errorsNew "expected input of length 1")
  else if input.headD [] ≠ dop.Input then
    .error (.fmtErrorf "expected input %v, got %v" [dop.Input, input.headD []])
  else
    .ok [dop.Output]

/-- Method `DominoOp.GetKey` of `proof_test.go`. -/
def DominoOp.GetKey (dop : DominoOp) : Bytes := dop.key

/-- The domino operator as a value of the interface `ProofOperator`. -/
def DominoOp.toProofOperator (dop : DominoOp) : ProofOperator :=
  { Run := dop.Run, GetKey := dop.GetKey }

/-- The pieces of a byte string between the occurrences of `/` (byte 47), as
`strings.Split(s, "/")` gives them: one more piece than there are slashes. -/
def splitSlash : Bytes → List Bytes
  | [] => [[]]
  | c :: cs =>
    if c = 47 then [] :: splitSlash cs
    else
      match splitSlash cs with
      | seg :: segs => (c :: seg) :: segs
      | [] => [[c]]

/-- The value of a hexadecimal digit. -/
def unhex (c : Nat) : Option Nat :=
  if 48 ≤ c ∧ c ≤ 57 then some (c - 48)
  else if 97 ≤ c ∧ c ≤ 102 then some (c - 97 + 10)
  else if 65 ≤ c ∧ c ≤ 70 then some (c - 65 + 10)
  else none

/-- Modelled from the spec: the decoding of a URL-escaped segment. A `%` (byte 37) is
followed by two hexadecimal digits and stands for the byte they denote; every other
byte stands for itself. `none` when a `%` is not followed by two hexadecimal digits. -/
def pathUnescape : Bytes → Option Bytes
  | [] => some []
  | c :: rest =>
    if c = 37 then
      match rest with
      | a :: b :: rest2 =>
        match unhex a, unhex b, pathUnescape rest2 with
        | some x, some y, some r => some ((16 * x + y) :: r)
        | _, _, _ => none
      | _ => none
    else
      match pathUnescape rest with
      | some r => some (c :: r)
      | none => none

/-- The decoding of the segments of a key path, numbered from `index`. -/
def unescapeParts : Nat → List Bytes → Except Error (List Bytes)
  | _, [] => .ok []
  | index, part :: parts =>
    match pathUnescape part with
    | none => .error (.ErrKeyPathUnescape index part)
    | some key =>
      match unescapeParts (index + 1) parts with
      | .error e => .error e
      | .ok keys => .ok (key :: keys)

/-- Modelled from the spec: "`key_path` is a `/`-prefixed sequence of URL-escaped
segments". The function `KeyPathToKeys` of `crypto/merkle` is not among the sources. A
path that does not start with `/` is an error; otherwise the keys are the decoded
segments between the slashes that follow. -/
def KeyPathToKeys (path : Bytes) : Except Error (List Bytes) :=
  match path with
  | [] => .error (.ErrKeyPathNoSlash path)
  | c :: rest =>
    if c ≠ 47 then .error (.ErrKeyPathNoSlash path)
    else unescapeParts 0 (splitSlash rest)

/-- The match of the key an operator declares against the remaining key segments: an
operator with an empty key takes no segment; otherwise the last remaining segment must
be the key, and it is removed. -/
def consumeKey (index : Nat) (key : Bytes) (keys : List Bytes) : Except Error (List Bytes) :=
  if key = [] then .ok keys
  else
    match keys.getLast? with
    | none => .error (.ErrKeyPathInsufficient key)
    | some lastKey =>
      if lastKey ≠ key then .error (.ErrKeyMismatch index lastKey key)
      else .ok keys.dropLast

/-- The loop of `Verify`: runs the operators in order from operator number `index`, each
on the output of the one before, matching the declared keys against the key segments
from the last segment backwards. Returns the segments left and the last output. -/
def runOperators : List ProofOperator → Nat → List Bytes → List Bytes →
    Except Error (List Bytes × List Bytes)
  | [], _, keys, args => .ok (keys, args)
  | op :: rest, index, keys, args =>
    match consumeKey index op.GetKey keys with
    | .error e => .error e
    | .ok keys2 =>
      match op.Run args with
      | .error e => .error e
      | .ok out => runOperators rest (index + 1) keys2 out

/-- Modelled from the spec: "`Verify(root, key_path, inputs)` runs the operators in
order, feeding each operator's output as the next operator's input, and checks the final
output equals `root`. `key_path` is a `/`-prefixed sequence of URL-escaped segments
matched against each operator's declared key in order (from last operator to first)."
The method `ProofOperators.Verify` of `crypto/merkle` is not among the sources. An
operator whose key is empty takes no segment, as `TestProofOperators` requires (four
operators, one of them without key, verify against a path of three segments). The final
output equals the root when its first byte string is the root; every segment must have
been taken. -/
def ProofOperators.Verify (poz : List ProofOperator) (root : Bytes) (keypath : Bytes)
    (args : List Bytes) : Option Error :=
  match KeyPathToKeys keypath with
  | .error e => some e
  | .ok keys =>
    match runOperators poz 0 keys args with
    | .error e => some e
    | .ok (keys2, out) =>
      if out.head? ≠ some root then some (.ErrInvalidRoot root out)
      else if keys2 ≠ [] then some .ErrKeyPathNotConsumed
      else none

/-- Modelled from the spec: `VerifyValue(root, key_path, value)` is `Verify` on the
single input `value`. -/
def ProofOperators.VerifyValue (poz : List ProofOperator) (root : Bytes) (keypath : Bytes)
    (value : Bytes) : Option Error :=
  ProofOperators.Verify poz root keypath [value]

/-- The operators run in list order, each on the output of the one before, without
regard to the keys. -/
def runAll : List ProofOperator → List Bytes → Except Error (List Bytes)
  | [], args => .ok args
  | op :: rest, args =>
    match op.Run args with
    | .error e => .error e
    | .ok out => runAll rest out

/-- The keys declared by the operators of a list, without the empty ones. -/
def declaredKeys (poz : List ProofOperator) : List Bytes :=
  (poz.map (fun op => op.GetKey)).filter (fun key => key ≠ [])

/-- The domino operators form a chain from `input` to `root`: `input` is the input of
the first one, the output of each is the input of the next, and `root` is the output of
the last one. -/
def DominoChain : List DominoOp → Bytes → Bytes → Prop
  | [], input, root => input = root
  | dop :: rest, input, root => input = dop.Input ∧ DominoChain rest dop.Output root

/-- The operators of `TestProofOperators`. -/
def op1 : DominoOp := NewDominoOp (bz "KEY1") (bz "INPUT1") (bz "INPUT2")

/-- The second operator of `TestProofOperators`. -/
def op2 : DominoOp := NewDominoOp (bz "KEY2") (bz "INPUT2") (bz "INPUT3")

/-- The third operator of `TestProofOperators`; its key is empty. -/
def op3 : DominoOp := NewDominoOp (bz "") (bz "INPUT3") (bz "INPUT4")

/-- The fourth operator of `TestProofOperators`. -/
def op4 : DominoOp := NewDominoOp (bz "KEY4") (bz "INPUT4") (bz "OUTPUT4")

/-- The operator list `popz` of `TestProofOperators`. -/
def popz : List ProofOperator :=
  [op1.toProofOperator, op2.toProofOperator, op3.toProofOperator, op4.toProofOperator]

/-! ### Merkle tree, proofs and the value operator -/

/-- The size of a `tmhash` digest (SHA-256), in bytes. -/
def tmhashSize : Nat := 32

/-- Modelled from the spec: "`aunts.len() ≤ 100`", the constant `MaxAunts` of
`crypto/merkle`, which `TestProofValidateBasic` uses. -/
def MaxAunts : Nat := 100

/-- Modelled from the spec: "`Proof { total, index, leaf_hash, aunts[] }`". The Go type
`Proof` of `crypto/merkle` is not among the sources; `Total` and `Index` are `int64`. The
aunts are listed from the sibling of the leaf up to the child of the root. -/
structure Proof where
  Total : Int := 0
  Index : Int := 0
  LeafHash : Bytes := []
  Aunts : List Bytes := []
deriving DecidableEq, Repr

/-- Modelled from the spec: "leaves are hashed with a `0x00` prefix". -/
def leafHash (H : Bytes → Bytes) (leaf : Bytes) : Bytes := H (0 :: leaf)

/-- Modelled from the spec: "internal nodes with `0x01 || left || right`". -/
def innerHash (H : Bytes → Bytes) (left right : Bytes) : Bytes := H (1 :: (left ++ right))

/-- The hash of the empty tree: the hash of no bytes. -/
def emptyHash (H : Bytes → Bytes) : Bytes := H []

/-- Doubles `k` while `2 * k < n`, at most `fuel` times. -/
def splitPointLoop : Nat → Nat → Nat → Nat
  | 0, k, _ => k
  | fuel + 1, k, n => if 2 * k < n then splitPointLoop fuel (2 * k) n else k

/-- Modelled from the spec: the split point of an RFC-6962-style tree over `length`
leaves, the largest power of two smaller than `length` (for `length` at least 2). -/
def getSplitPoint (length : Nat) : Nat := splitPointLoop length 1 length

/-- The root hash of the tree over `items`, by recursion of depth at most `fuel`. -/
def hashFromByteSlicesFuel (H : Bytes → Bytes) : Nat → List Bytes → Bytes
  | 0, _ => emptyHash H
  | fuel + 1, items =>
    match items with
    | [] => emptyHash H
    | [item] => leafHash H item
    | _ =>
      let k := getSplitPoint items.length
      innerHash H (hashFromByteSlicesFuel H fuel (items.take k))
        (hashFromByteSlicesFuel H fuel (items.drop k))

/-- Modelled from the spec: the root hash of the "binary, RFC-6962-style tree over
arbitrary byte slices". The recursion is at most as deep as there are items. -/
def HashFromByteSlices (H : Bytes → Bytes) (items : List Bytes) : Bytes :=
  hashFromByteSlicesFuel H items.length items

/-- The aunts of leaf `index` in the tree over `items`, from the sibling of the leaf
upwards, by recursion of depth at most `fuel`. -/
def auntsFuel (H : Bytes → Bytes) : Nat → List Bytes → Nat → List Bytes
  | 0, _, _ => []
  | fuel + 1, items, index =>
    if items.length ≤ 1 then []
    else
      let k := getSplitPoint items.length
      if index < k then
        auntsFuel H fuel (items.take k) index ++ [HashFromByteSlices H (items.drop k)]
      else
        auntsFuel H fuel (items.drop k) (index - k) ++ [HashFromByteSlices H (items.take k)]

/-- Modelled from the spec: `ProofsFromByteSlices(leaves)`, the root hash and one proof
for each leaf, in the order of the leaves. The function is not among the sources;
`TestProofValidateBasic` calls it. -/
def ProofsFromByteSlices (H : Bytes → Bytes) (items : List Bytes) : Bytes × List Proof :=
  (HashFromByteSlices H items,
    (List.range items.length).map (fun (i : Nat) =>
      { Total := Int.ofNat items.length,
        Index := Int.ofNat i,
        LeafHash := leafHash H (items.getD i []),
        Aunts := auntsFuel H items.length items i }))

/-- The checks of `ValidateBasic` on the aunts, from aunt number `index`. -/
def validateAunts : Nat → List Bytes → Option Error
  | _, [] => none
  | index, aunt :: rest =>
    if aunt.length ≠ tmhashSize then some (.ErrAuntLength index aunt.length tmhashSize)
    else validateAunts (index + 1) rest

/-- Modelled from the spec: "`aunts.len() ≤ 100`; each aunt is 32 bytes", with the checks
and their order that `TestProofValidateBasic` expects of `Proof.ValidateBasic` (not among
the sources): negative total, negative index, leaf hash length, number of aunts, length
of each aunt. -/
def Proof.ValidateBasic (sp : Proof) : Option Error :=
  if sp.Total < 0 then some .ErrNegativeTotal
  else if sp.Index < 0 then some .ErrNegativeIndex
  else if sp.LeafHash.length ≠ tmhashSize then
    some (.ErrLeafLength sp.LeafHash.length tmhashSize)
  else if sp.Aunts.length > MaxAunts then some (.ErrMaxAuntsExceeded MaxAunts)
  else validateAunts 0 sp.Aunts

/-- The root hash computed from a leaf hash and its aunts, the aunts being given from
the child of the root down to the sibling of the leaf. -/
def computeHashFromAuntsRev (H : Bytes → Bytes) (index total : Int) (leaf : Bytes)
    (auntsRev : List Bytes) : Except Error Bytes :=
  if index ≥ total ∨ index < 0 ∨ total ≤ 0 then
    .error (.ErrInvalidIndexTotal index total)
  else if total = 1 then
    match auntsRev with
    | [] => .ok leaf
    | _ :: _ => .error .ErrUnexpectedInnerHashes
  else
    match auntsRev with
    | [] => .error .ErrExpectedInnerHash
    | last :: rest =>
      let numLeft : Int := (getSplitPoint total.toNat : Nat)
      if index < numLeft then
        match computeHashFromAuntsRev H index numLeft leaf rest with
        | .error e => .error e
        | .ok leftHash => .ok (innerHash H leftHash last)
      else
        match computeHashFromAuntsRev H (index - numLeft) (total - numLeft) leaf rest with
        | .error e => .error e
        | .ok rightHash => .ok (innerHash H last rightHash)

/-- Modelled from the spec: the root hash a proof computes, "`index ∈ [0, total)`": a
proof whose index is not in that range (in particular one whose total is zero) computes no
root and is rejected. The method `Proof.computeRootHash` is not among the sources. -/
def Proof.computeRootHash (H : Bytes → Bytes) (sp : Proof) : Except Error Bytes :=
  computeHashFromAuntsRev H sp.Index sp.Total sp.LeafHash sp.Aunts.reverse

/-- The base-128 digits of `x`, least significant first, each but the last with the
high bit set; at most `fuel + 1` digits. -/
def putUvarint : Nat → Nat → Bytes
  | 0, x => [x % 128]
  | fuel + 1, x => if x < 128 then [x] else (x % 128 + 128) :: putUvarint fuel (x / 128)

/-- Modelled from the spec: "Integers are varint", the unsigned varint of a length (a
`uint64` has at most ten digits). -/
def encodeUvarint (x : Nat) : Bytes := putUvarint 9 x

/-- Modelled from the spec: "Strings and byte arrays are length-prefixed", the function
`encodeByteSlice` of `crypto/merkle`, which `TestVsa2022_100` calls. -/
def encodeByteSlice (bs : Bytes) : Bytes := encodeUvarint bs.length ++ bs

/-- Modelled from the spec: the value operator, a key and a proof. The Go type `ValueOp`
is not among the sources. -/
structure ValueOp where
  key : Bytes
  Proof : Proof
deriving DecidableEq, Repr

/-- Modelled from the spec: the constructor `NewValueOp(key, proof)` that
`TestVsa2022_100` calls. -/
def NewValueOp (key : Bytes) (proof : Proof) : ValueOp := { key := key, Proof := proof }

/-- The leaf hash of a key and a value, `H(0x00 || enc(key) || enc(H(value)))`, as
`TestVsa2022_100` computes it. -/
def kvLeafHash (H : Bytes → Bytes) (key value : Bytes) : Bytes :=
  leafHash H (encodeByteSlice key ++ encodeByteSlice (H value))

/-- Modelled from the spec: the value operator takes one input, the value; the leaf
hash of the proof must be `H(0x00 || key || H(value))`, and the output is the root hash
that the proof computes. -/
def ValueOp.Run (H : Bytes → Bytes) (op : ValueOp) (args : List Bytes) :
    Except Error (List Bytes) :=
  match args with
  | [value] =>
    let kvhash := kvLeafHash H op.key value
    if kvhash ≠ op.Proof.LeafHash then
      .error (.ErrLeafHashMismatch op.Proof.LeafHash kvhash)
    else
      match op.Proof.computeRootHash H with
      | .error e => .error e
      | .ok rootHash => .ok [rootHash]
  | _ => .error (.ErrWrongArgCount args.length)

/-- Method `GetKey` of the value operator. -/
def ValueOp.GetKey (op : ValueOp) : Bytes := op.key

/-- The value operator as a value of the interface `ProofOperator`. -/
def ValueOp.toProofOperator (H : Bytes → Bytes) (op : ValueOp) : ProofOperator :=
  { Run := op.Run H, GetKey := op.GetKey }

/-- A function with 32-byte results, to run the hashing functions on concrete inputs: the
first 32 bytes of the input followed by zeros, each increased by the length of the
input. It stands in for SHA-256 in examples only. -/
def sampleHash (bs : Bytes) : Bytes :=
  ((bs ++ List.replicate 32 0).take 32).map (fun b => (b + bs.length) % 256)

/-- The leaves of `TestProofValidateBasic`. -/
def sampleLeaves : List Bytes := [bz "apple", bz "watermelon", bz "kiwi"]

/-- The proof of the first leaf of `sampleLeaves`, the proof `proofs[0]` of
`TestProofValidateBasic` (with the sample hash). -/
def sampleProof : Proof := (ProofsFromByteSlices sampleHash sampleLeaves).2.headD {}

end Merkle

namespace Ed25519

/-! ## Ed25519 keys (`crypto/ed25519/ed25519.go`)

A Go panic is the error of an `Except`. SHA-256 (`crypto/sha256`, through
`tmhash.SumTruncated`) is the parameter `sha256` of `PubKey.Address`. -/

/-- A Go byte slice. -/
abbrev Bytes := List Nat

/-- Constant `PubKeySize`: the size, in bytes, of public keys. -/
def PubKeySize : Nat := 32

/-- Constant `PrivateKeySize`: the size, in bytes, of private keys. -/
def PrivateKeySize : Nat := 64

/-- Constant `SignatureSize`: the size of a signature. -/
def SignatureSize : Nat := 64

/-- Constant `SeedSize`: the size, in bytes, of private key seeds. -/
def SeedSize : Nat := 32

/-- Modelled from the spec: "truncated to 20 bytes for addresses", the constant
`tmhash.TruncatedSize` (package `crypto/tmhash` is not among the sources). -/
def TruncatedSize : Nat := 20

/-- Modelled from the spec: "first 20 bytes of SHA-256", the function
`tmhash.SumTruncated` (package `crypto/tmhash` is not among the sources). -/
def SumTruncated (sha256 : Bytes → Bytes) (bz : Bytes) : Bytes :=
  (sha256 bz).take TruncatedSize

/-- A Go panic: an explicit `panic(text)`, or the run-time panic of a slice expression
`s[low:]` with `low` beyond the length. -/
inductive Panic where
  | message (text : String)
  | sliceBoundsOutOfRange (low length : Nat)
deriving DecidableEq, Repr

/-- Go builtin `copy(dst, src)`, as the value of `dst` after the call. -/
def copy (dst src : Bytes) : Bytes := src.take dst.length ++ dst.drop src.length

/-- Method `PubKey.Address` of `ed25519.go`. -/
def PubKey.Address (sha256 : Bytes → Bytes) (pubKey : Bytes) : Except Panic Bytes :=
  if pubKey.length ≠ PubKeySize then
    .error (.message "pubkey is incorrect size")
  else
    .ok (SumTruncated sha256 pubKey)

/-- Method `PrivKey.PubKey` of `ed25519.go`. The slice expression `privKey[32:]` panics
when the key has fewer than 32 bytes. -/
def PrivKey.PubKey (privKey : Bytes) : Except Panic Bytes :=
  if privKey.length < 32 then
    .error (.sliceBoundsOutOfRange 32 privKey.length)
  else
    let initialized := (privKey.drop 32).any (fun v => v ≠ 0)
    if !initialized then
      .error (.message "Expected ed25519 PrivKey to include concatenated pubkey bytes")
    else
      let pubkeyBytes := List.replicate PubKeySize 0
      .ok (copy pubkeyBytes (privKey.drop 32))

/-- A function with 32-byte results, standing in for SHA-256 in examples: the first 32
bytes of the input followed by zeros, each increased by one. -/
def sampleSha256 (bs : Bytes) : Bytes :=
  ((bs ++ List.replicate 32 0).take 32).map (fun b => (b + 1) % 256)

/-- A public key of 32 bytes. -/
def samplePubKey : Bytes := List.range 32

/-- A private key of 64 bytes whose last 32 bytes are `samplePubKey`. -/
def samplePrivKey : Bytes := List.replicate 32 7 ++ samplePubKey

/-- A private key of 64 bytes whose last 32 bytes are zero. -/
def sampleUninitializedPrivKey : Bytes := List.replicate 32 7 ++ List.replicate 32 0

/-- A value of the interface `crypto.PubKey`: an Ed25519 `PubKey`, or a key of another
dynamic type. -/
inductive CryptoPubKey where
  | ed25519 (key : Bytes)
  | other (keyType : String) (key : Bytes)
deriving DecidableEq, Repr

/-- The errors `BatchVerifier.Add` returns: the variables `ErrNotEd25519Key` and
`ErrInvalidSignature` and the type `ErrInvalidKeyLen` of `ed25519.go`. -/
inductive Error where
  | ErrNotEd25519Key
  | ErrInvalidSignature
  | ErrInvalidKeyLen (Got Want : Int)
deriving DecidableEq, Repr

/-- The functions of the library `curve25519-voi` that `ed25519.go` calls through
`cachingVerifier`, with the verification options of the package (ZIP-215) applied. The
library is not part of the repository: the functions are parameters, and `β` is the
type of its batch verifier. -/
structure Voi (β : Type) where
  /-- Function `ed25519.NewBatchVerifier()`. -/
  NewBatchVerifier : β
  /-- Call `cachingVerifier.AddWithOptions(batch, publicKey, msg, sig, verifyOptions)`,
  as the batch after the call. -/
  AddWithOptions : β → Bytes → Bytes → Bytes → β
  /-- Call `cachingVerifier.VerifyWithOptions(publicKey, msg, sig, verifyOptions)`. -/
  VerifyWithOptions : Bytes → Bytes → Bytes → Bool

/-- Go type `BatchVerifier` of `ed25519.go`, which embeds the batch verifier of the
library. -/
structure BatchVerifier (β : Type) where
  /-- The embedded field `*ed25519.BatchVerifier`. -/
  Batch : β

/-- Function `NewBatchVerifier` of `ed25519.go`. -/
def NewBatchVerifier {β : Type} (V : Voi β) : BatchVerifier β :=
  { Batch := V.NewBatchVerifier }

/-- Method `BatchVerifier.Add` of `ed25519.go`: the error returned and the batch
verifier after the call. -/
def BatchVerifier.Add {β : Type} (V : Voi β) (b : BatchVerifier β) (key : CryptoPubKey)
    (msg signature : Bytes) : Option Error × BatchVerifier β :=
  match key with
  | .other _ _ => (some .ErrNotEd25519Key, b)
  | .ed25519 pkEd =>
    let pkBytes := pkEd
    if pkBytes.length ≠ PubKeySize then
      (some (.ErrInvalidKeyLen pkBytes.length PubKeySize), b)
    else if signature.length ≠ SignatureSize then
      (some .ErrInvalidSignature, b)
    else
      (none, { Batch := V.AddWithOptions b.Batch pkBytes msg signature })

/-- Method `PubKey.VerifySignature` of `ed25519.go`. -/
def PubKey.VerifySignature {β : Type} (V : Voi β) (pubKey msg sig : Bytes) : Bool :=
  if sig.length ≠ SignatureSize then
    false
  else
    V.VerifyWithOptions pubKey msg sig

/-- A batch verifier that is the list of the entries added, and a verifier that accepts
everything: an implementation of the library functions for examples. -/
def listVoi : Voi (List (Bytes × Bytes × Bytes)) where
  NewBatchVerifier := []
  AddWithOptions := fun batch publicKey msg sig => batch ++ [(publicKey, msg, sig)]
  VerifyWithOptions := fun _ _ _ => true

/-- A signature of 64 bytes. -/
def sampleSignature : Bytes := List.replicate 64 9

end Ed25519

namespace KVStore

/-! ## The example key/value application (`abci/example/kvstore`)

Of package `kvstore` the sources contain the test file `kvstore_test.go` only. `CheckTx`
and `PrepareProposal` are modelled from the specification (scenarios S1 and S2) and
from the cases of `TestCheckTx` and `TestPersistentKVStoreEmptyTX`. A transaction is its
sequence of bytes. -/

/-- A Go byte slice. -/
abbrev Bytes := List Nat

/-- Modelled from the spec: "Return code `0` ≡ admit", the constant `CodeTypeOK` that
`kvstore_test.go` compares with `uint32(0)`. -/
def CodeTypeOK : Nat := 0

/-- Modelled from the spec: "any other code ≡ reject", the constant
`CodeTypeInvalidTxFormat` that `kvstore_test.go` expects for a malformed transaction;
its declaration is not among the sources, the value is a non-zero code. -/
def CodeTypeInvalidTxFormat : Nat := 2

/-- Modelled from the spec: the bytes `val=` that begin a validator-update transaction
(`TestCheckTx` expects the transactions `val=hello` and `val=hi!5` to be refused). -/
def ValidatorPrefix : Bytes := Merkle.bz "val="

/-- The response of `CheckTx`: its code. -/
structure CheckTxResponse where
  Code : Nat
deriving DecidableEq, Repr

/-- The functions of the Go standard library that decode the fields of a
validator-update transaction: `base64.StdEncoding.DecodeString` and
`strconv.ParseInt(s, 10, 64)`, `none` for an error. -/
structure GoStd where
  base64Decode : Bytes → Option Bytes
  parseInt : Bytes → Option Int

/-- The pieces of a byte string between the occurrences of the byte `sep`, as
`strings.Split` gives them. -/
def splitOn (sep : Nat) : Bytes → List Bytes
  | [] => [[]]
  | c :: cs =>
    if c = sep then [] :: splitOn sep cs
    else
      match splitOn sep cs with
      | seg :: segs => (c :: seg) :: segs
      | [] => [[c]]

/-- Modelled from the spec: a transaction has the form `key=value` or `key:value` ("both
separators"): it has exactly one separator (`:` is byte 58, `=` is byte 61), which is
neither its first nor its last byte. -/
def isValidTx (tx : Bytes) : Bool :=
  if tx.count 58 = 1 ∧ tx.count 61 = 0 then
    if tx.head? ≠ some 58 ∧ tx.getLast? ≠ some 58 then true else false
  else if tx.count 61 = 1 ∧ tx.count 58 = 0 then
    if tx.head? ≠ some 61 ∧ tx.getLast? ≠ some 61 then true else false
  else
    false

/-- Modelled from the spec: a validator-update transaction begins with `val=`. -/
def isValidatorTx (tx : Bytes) : Bool := ValidatorPrefix.isPrefixOf tx

/-- Modelled from the spec: the validator update after `val=` has the form
`pubkeytype!pubkey!power` (`!` is byte 33), the key in base64 and the power a
non-negative decimal number. `none` for a malformed transaction. -/
def parseValidatorTx (S : GoStd) (tx : Bytes) : Option (Bytes × Bytes × Int) :=
  match splitOn 33 (tx.drop ValidatorPrefix.length) with
  | [keyType, pubkeyS, powerS] =>
    match S.base64Decode pubkeyS with
    | none => none
    | some pubkey =>
      match S.parseInt powerS with
      | none => none
      | some power => if power < 0 then none else some (keyType, pubkey, power)
  | _ => none

/-- Modelled from the spec: `CheckTx` admits (code 0) a transaction of the form
`key=value` or `key:value` and a well-formed validator update, and refuses every other
transaction with `CodeTypeInvalidTxFormat`. The method `Application.CheckTx` is not
among the sources. -/
def CheckTx (S : GoStd) (tx : Bytes) : CheckTxResponse :=
  if isValidatorTx tx then
    match parseValidatorTx S tx with
    | none => { Code := CodeTypeInvalidTxFormat }
    | some _ => { Code := CodeTypeOK }
  else if !isValidTx tx then
    { Code := CodeTypeInvalidTxFormat }
  else
    { Code := CodeTypeOK }

/-- Modelled from the spec: "`PrepareProposal` with `[kv=value, kv:v, empty, kee=value]`
MUST return three transactions, dropping the empty one while preserving order": the
transactions of the request that `CheckTx` admits, in the order of the request, as they
are. The method `Application.PrepareProposal` is not among the sources. -/
def PrepareProposal (S : GoStd) (txs : List Bytes) : List Bytes :=
  txs.filter (fun tx => (CheckTx S tx).Code == CodeTypeOK)

/-- An implementation of the decoding functions for examples: every key decodes to
itself, and a power is a single decimal digit. -/
def sampleStd : GoStd where
  base64Decode := fun s => some s
  parseInt := fun s =>
    match s with
    | [d] => if 48 ≤ d ∧ d ≤ 57 then some (Int.ofNat (d - 48)) else none
    | _ => none

/-- The transactions of `TestPersistentKVStoreEmptyTX`. -/
def sampleTxs : List Bytes :=
  [Merkle.bz "key=value", Merkle.bz "key:val", Merkle.bz "", Merkle.bz "kee=value"]

end KVStore

namespace Genesis

/-! ## The genesis document (`types/genesis.go`)

Of the genesis code the sources contain the test file `genesis_test.go` only.
`GenesisDocFromJSON` and `ValidateAndComplete` are modelled from the specification (the
sections on the genesis document and the genesis file) and from the cases of
`TestGenesisBad` and `TestBasicGenesisDoc`. -/

/-- A Go byte slice. -/
abbrev Bytes := List Nat

/-- Modelled from the spec: "chain_id (1..50 chars)", the greatest length of a chain
id. -/
def MaxChainIDLen : Nat := 50

/-- Modelled from the spec: the consensus parameters of the genesis file,
"block:(max_bytes,max_gas), evidence:(max_age_num_blocks,max_age_duration,max_bytes),
validator:(pub_key_types[])". -/
structure ConsensusParams where
  BlockMaxBytes : Int := 0
  BlockMaxGas : Int := 0
  EvidenceMaxAgeNumBlocks : Int := 0
  EvidenceMaxAgeDuration : Int := 0
  EvidenceMaxBytes : Int := 0
  PubKeyTypes : List String := []
deriving DecidableEq, Repr

/-- Modelled from the spec: a validator of the genesis file,
"(address, pub_key:(type,value), power, name)". An absent address is the empty slice. -/
structure GenesisValidator where
  Address : Bytes := []
  PubKeyType : String := ""
  PubKeyValue : Bytes := []
  Power : Int := 0
  Name : String := ""
deriving DecidableEq, Repr

/-- Modelled from the spec: the genesis document "(genesis_time, chain_id (1..50 chars),
initial_height ≥ 1, validators[], app_hash, consensus_params, app_state)". The zero
time and absent consensus parameters are `none`. -/
structure GenesisDoc where
  GenesisTime : Option Int := none
  ChainID : String := ""
  InitialHeight : Int := 0
  ConsensusParams : Option ConsensusParams := none
  Validators : List GenesisValidator := []
  AppHash : Bytes := []
  AppState : Bytes := []
deriving DecidableEq, Repr

/-- Modelled from the spec: the JSON object of a genesis file,
"(genesis_time, chain_id (len 1..50), initial_height, validators, app_hash, app_state,
consensus_params)"; a member that the file does not have is `none`. -/
structure GenesisJSON where
  genesis_time : Option Int := none
  chain_id : Option String := none
  initial_height : Option Int := none
  validators : Option (List GenesisValidator) := none
  app_hash : Option Bytes := none
  app_state : Option Bytes := none
  consensus_params : Option ConsensusParams := none
deriving DecidableEq, Repr

/-- The reasons for which a genesis document is refused. -/
inductive Error where
  | ErrUnmarshal
  | ErrEmptyChainID
  | ErrChainIDTooLong (max : Nat)
  | ErrNegativeInitialHeight (height : Int)
  | ErrInvalidConsensusParams (msg : String)
  | ErrZeroPower (v : GenesisValidator)
  | ErrAddressMismatch (v : GenesisValidator)
  | ErrUnsupportedPubKeyType (v : GenesisValidator)
deriving DecidableEq, Repr

/-- The code outside the genesis file that reading a genesis document calls: the JSON
parser of `libs/json` (`none` for bytes that are not a genesis object, such as the empty
input, junk, or a validator with no key type), `DefaultConsensusParams`,
`ConsensusParams.ValidateBasic` (`none` for valid parameters), the address of a public
key, and the clock. -/
structure GenesisAPI where
  Unmarshal : Bytes → Option GenesisJSON
  DefaultConsensusParams : ConsensusParams
  ValidateBasic : ConsensusParams → Option String
  Address : String → Bytes → Bytes
  Now : Int

/-- Modelled from the spec: the document that the JSON object describes; a member that
the file does not have keeps the zero value of its Go type. -/
def GenesisJSON.toGenesisDoc (j : GenesisJSON) : GenesisDoc where
  GenesisTime := j.genesis_time
  ChainID := j.chain_id.getD ""
  InitialHeight := j.initial_height.getD 0
  ConsensusParams := j.consensus_params
  Validators := j.validators.getD []
  AppHash := j.app_hash.getD []
  AppState := j.app_state.getD []

/-- Modelled from the spec: the consensus parameters of the completed document, the
default ones when the file has none, else the ones of the file when they are valid. -/
def completeParams (E : GenesisAPI) : Option ConsensusParams → Except Error ConsensusParams
  | none => .ok E.DefaultConsensusParams
  | some p =>
    match E.ValidateBasic p with
    | some msg => .error (.ErrInvalidConsensusParams msg)
    | none => .ok p

/-- Modelled from the spec: the validators of the completed document ("validators[]
(non-empty after filling)", "Unknown pub-key types in the validator.pub_key_types
allow-list cause validators of other key types to be rejected"): a validator with power
zero, with an address that is not the one of its key, or with a key type outside the
allow-list is refused; an absent address is filled in. -/
def completeValidators (E : GenesisAPI) (params : ConsensusParams) :
    List GenesisValidator → Except Error (List GenesisValidator)
  | [] => .ok []
  | v :: rest =>
    if v.Power = 0 then .error (.ErrZeroPower v)
    else if v.Address ≠ [] ∧ E.Address v.PubKeyType v.PubKeyValue ≠ v.Address then
      .error (.ErrAddressMismatch v)
    else if v.PubKeyType ∉ params.PubKeyTypes then .error (.ErrUnsupportedPubKeyType v)
    else
      match completeValidators E params rest with
      | .error e => .error e
      | .ok done =>
        .ok ({ v with Address := if v.Address = [] then E.Address v.PubKeyType v.PubKeyValue
                                 else v.Address } :: done)

/-- Modelled from the spec: `ValidateAndComplete` refuses a document whose chain id is
empty or longer than `MaxChainIDLen` characters or whose initial height is negative,
sets the initial height 0 to 1, and completes the consensus parameters, the validators
and the genesis time. The method is not among the sources. -/
def GenesisDoc.ValidateAndComplete (E : GenesisAPI) (genDoc : GenesisDoc) :
    Except Error GenesisDoc :=
  if genDoc.ChainID = "" then .error .ErrEmptyChainID
  else if genDoc.ChainID.length > MaxChainIDLen then .error (.ErrChainIDTooLong MaxChainIDLen)
  else if genDoc.InitialHeight < 0 then .error (.ErrNegativeInitialHeight genDoc.InitialHeight)
  else
    match completeParams E genDoc.ConsensusParams with
    | .error e => .error e
    | .ok params =>
      match completeValidators E params genDoc.Validators with
      | .error e => .error e
      | .ok vals =>
        .ok { genDoc with
              InitialHeight := if genDoc.InitialHeight = 0 then 1 else genDoc.InitialHeight
              ConsensusParams := some params
              Validators := vals
              GenesisTime := some (genDoc.GenesisTime.getD E.Now) }

/-- Modelled from the spec: `GenesisDocFromJSON` parses the bytes of a genesis file and
validates and completes the document. The function is not among the sources. -/
def GenesisDocFromJSON (E : GenesisAPI) (jsonBlob : Bytes) : Except Error GenesisDoc :=
  match E.Unmarshal jsonBlob with
  | none => .error .ErrUnmarshal
  | some j => GenesisDoc.ValidateAndComplete E j.toGenesisDoc

/-- The checks of a genesis file that do not concern its chain id: the initial height is
not negative, the consensus parameters of the file, if any, are valid, and every
validator has a non-zero power, an address that is absent or the one of its key, and a
key type of the allow-list. -/
def OtherwiseValid (E : GenesisAPI) (j : GenesisJSON) : Prop :=
  0 ≤ j.initial_height.getD 0 ∧
  ∃ params, completeParams E j.consensus_params = .ok params ∧
    ∀ v ∈ j.validators.getD [],
      v.Power ≠ 0 ∧ (v.Address = [] ∨ E.Address v.PubKeyType v.PubKeyValue = v.Address) ∧
      v.PubKeyType ∈ params.PubKeyTypes

/-- The consensus parameters of the good document of `TestBasicGenesisDoc`. -/
def sampleParams : ConsensusParams :=
  { BlockMaxBytes := 100, EvidenceMaxAgeNumBlocks := 100, EvidenceMaxAgeDuration := 10,
    PubKeyTypes := ["ed25519"] }

/-- The validator of the documents of `genesis_test.go`, its key shortened. -/
def sampleValidator : GenesisValidator :=
  { PubKeyType := "ed25519", PubKeyValue := [1, 63, 254], Power := 10 }

/-- An implementation of the outside code for examples: the bytes of a file select one
of three objects (the good document of `TestBasicGenesisDoc`, the document with the
chain id that is too long and the document with no chain id of `TestGenesisBad`),
parameters are valid when the block size is positive, and the address of a key is its
first two bytes. -/
def sampleAPI : GenesisAPI where
  Unmarshal := fun blob =>
    match blob with
    | [1] => some { chain_id := some "test-chain-QDKdJr", initial_height := some 1000,
                    validators := some [sampleValidator],
                    consensus_params := some sampleParams }
    | [2] => some { chain_id := some "Lorem ipsum dolor sit amet, consectetuer adipiscing",
                    validators := some [sampleValidator] }
    | [3] => some { validators := some [sampleValidator] }
    | _ => none
  DefaultConsensusParams := sampleParams
  ValidateBasic := fun p => if p.BlockMaxBytes ≤ 0 then some "block.MaxBytes must be positive" else none
  Address := fun _ value => value.take 2
  Now := 1

end Genesis

namespace Light

/-! ## Auxiliary facts -/

theorem Time.After_eq_true_iff (t u : Time) : t.After u = true ↔ u.unixNano < t.unixNano := by
  simp [Time.After]

theorem Time.Before_eq_true_iff (t u : Time) :
    t.Before u = true ↔ t.unixNano < u.unixNano := by
  simp [Time.Before]

/-- A sum of seconds within the `int64` range is exact. -/
theorem addSec_of_isInt64 (ext d : Int) (h : isInt64 (ext + d)) :
    addSec ext d = ext + d := by
  unfold addSec addInt64 wrapInt64 isInt64 minInt64 maxInt64 at *
  norm_num at *
  have hs : (ext + d + 9223372036854775808) % 18446744073709551616 - 9223372036854775808
      = ext + d := by omega
  rw [hs]
  have : (ext + d > ext ↔ d > 0) := by constructor <;> intro _ <;> omega
  rw [if_pos this]

/-- A sum of seconds above the `int64` range is replaced by `1<<63 - 1`. -/
theorem addSec_of_gt (ext d : Int) (he : isInt64 ext) (hd : isInt64 d)
    (h : maxInt64 < ext + d) : addSec ext d = maxInt64 := by
  unfold addSec addInt64 wrapInt64 isInt64 minInt64 maxInt64 at *
  norm_num at *
  have hs : (ext + d + 9223372036854775808) % 18446744073709551616 - 9223372036854775808
      = ext + d - 18446744073709551616 := by omega
  rw [hs]
  have : ¬ (ext + d - 18446744073709551616 > ext ↔ d > 0) := by
    intro hi
    have := hi.mpr (by omega)
    omega
  rw [if_neg this, if_pos (by omega)]

/-- A sum of seconds below the `int64` range is replaced by `-(1<<63 - 1)`. -/
theorem addSec_of_lt (ext d : Int) (he : isInt64 ext) (hd : isInt64 d)
    (h : ext + d < minInt64) : addSec ext d = -maxInt64 := by
  unfold addSec addInt64 wrapInt64 isInt64 minInt64 maxInt64 at *
  norm_num at *
  have hs : (ext + d + 9223372036854775808) % 18446744073709551616 - 9223372036854775808
      = ext + d + 18446744073709551616 := by omega
  rw [hs]
  have : ¬ (ext + d + 18446744073709551616 > ext ↔ d > 0) := by
    intro hi
    have := hi.mp (by omega)
    omega
  rw [if_neg this, if_neg (by omega)]


/-- Quotient and remainder by `10^9` from a decomposition. -/
theorem ediv_emod_of_eq (x q r : Int) (h : r + 1000000000 * q = x) (h0 : 0 ≤ r)
    (h1 : r < 1000000000) : x / 1000000000 = q ∧ x % 1000000000 = r :=
  (Int.ediv_emod_unique (by norm_num)).mpr ⟨h, h0, h1⟩

/-- The seconds and nanoseconds `t.Add(d)` is made of: the seconds handed to `addSec` are
those of the exact sum less those of `t`, and the nanoseconds are those of the exact
sum. -/
theorem Time.Add_eq_addSec (t : Time) (d : Duration) :
    t.Add d = Time.ofSecNsec
      (addSec t.sec ((⟨t.unixNano + d⟩ : Time).sec - t.sec)) (⟨t.unixNano + d⟩ : Time).nsec := by
  unfold Time.Add Time.sec Time.nsec remInt64
  dsimp only
  by_cases hd : 0 ≤ d
  · have hq : quoInt64 d 1000000000 = d / 1000000000 := by
      unfold quoInt64
      rw [if_pos hd]
    rw [hq]
    by_cases h1 : t.unixNano % 1000000000 + (d - d / 1000000000 * 1000000000) ≥ 1000000000
    · rw [if_pos h1]
      obtain ⟨e1, e2⟩ := ediv_emod_of_eq (t.unixNano + d)
        (t.unixNano / 1000000000 + (d / 1000000000 + 1))
        (t.unixNano % 1000000000 + (d - d / 1000000000 * 1000000000) - 1000000000)
        (by omega) (by omega) (by omega)
      rw [e1, e2]
      congr 2
      omega
    · rw [if_neg h1]
      have h2 : ¬ t.unixNano % 1000000000 + (d - d / 1000000000 * 1000000000) < 0 := by omega
      rw [if_neg h2]
      obtain ⟨e1, e2⟩ := ediv_emod_of_eq (t.unixNano + d)
        (t.unixNano / 1000000000 + d / 1000000000)
        (t.unixNano % 1000000000 + (d - d / 1000000000 * 1000000000))
        (by omega) (by omega) (by omega)
      rw [e1, e2]
      congr 2
      omega
  · have hq : quoInt64 d 1000000000 = -(-d / 1000000000) := by
      unfold quoInt64
      rw [if_neg hd]
    rw [hq]
    have h1 : ¬ t.unixNano % 1000000000 + (d - -(-d / 1000000000) * 1000000000)
        ≥ 1000000000 := by omega
    rw [if_neg h1]
    by_cases h2 : t.unixNano % 1000000000 + (d - -(-d / 1000000000) * 1000000000) < 0
    · rw [if_pos h2]
      obtain ⟨e1, e2⟩ := ediv_emod_of_eq (t.unixNano + d)
        (t.unixNano / 1000000000 + (-(-d / 1000000000) - 1))
        (t.unixNano % 1000000000 + (d - -(-d / 1000000000) * 1000000000) + 1000000000)
        (by omega) (by omega) (by omega)
      rw [e1, e2]
      congr 2
      omega
    · rw [if_neg h2]
      obtain ⟨e1, e2⟩ := ediv_emod_of_eq (t.unixNano + d)
        (t.unixNano / 1000000000 + -(-d / 1000000000))
        (t.unixNano % 1000000000 + (d - -(-d / 1000000000) * 1000000000))
        (by omega) (by omega) (by omega)
      rw [e1, e2]
      congr 2
      omega

/-- A time is made of its seconds and nanoseconds. -/
theorem Time.ofSecNsec_sec_nsec (t : Time) : Time.ofSecNsec t.sec t.nsec = t := by
  unfold Time.ofSecNsec Time.sec Time.nsec
  cases t with
  | mk n =>
    dsimp only
    congr 1
    omega

/-- Where the exact sum is a `time.Time`, `t.Add(d)` is the exact sum. -/
theorem Time.Add_eq_exact (t : Time) (d : Duration)
    (hsum : isTime ⟨t.unixNano + d⟩) : t.Add d = ⟨t.unixNano + d⟩ := by
  rw [Time.Add_eq_addSec, addSec_of_isInt64]
  · have : t.sec + ((⟨t.unixNano + d⟩ : Time).sec - t.sec) = (⟨t.unixNano + d⟩ : Time).sec := by
      omega
    rw [this, Time.ofSecNsec_sec_nsec]
  · have : t.sec + ((⟨t.unixNano + d⟩ : Time).sec - t.sec) = (⟨t.unixNano + d⟩ : Time).sec := by
      omega
    rw [this]
    exact hsum

/-- Where the exact sum is past the last second of `time.Time`, `t.Add(d)` is in that last
second. -/
theorem Time.Add_of_gt (t : Time) (d : Duration) (ht : isTime t) (hd : isInt64 d)
    (hsum : maxInt64 < (⟨t.unixNano + d⟩ : Time).sec) :
    t.Add d = Time.ofSecNsec maxInt64 (⟨t.unixNano + d⟩ : Time).nsec := by
  rw [Time.Add_eq_addSec, addSec_of_gt]
  · exact ht
  · unfold isTime isInt64 minInt64 maxInt64 Time.sec at *
    norm_num at *
    omega
  · omega

/-- Where the exact sum is before the first second of `time.Time`, `t.Add(d)` is in the
second after the first. -/
theorem Time.Add_of_lt (t : Time) (d : Duration) (ht : isTime t) (hd : isInt64 d)
    (hsum : (⟨t.unixNano + d⟩ : Time).sec < minInt64) :
    t.Add d = Time.ofSecNsec (-maxInt64) (⟨t.unixNano + d⟩ : Time).nsec := by
  rw [Time.Add_eq_addSec, addSec_of_lt]
  · exact ht
  · unfold isTime isInt64 minInt64 maxInt64 Time.sec at *
    norm_num at *
    omega
  · omega

/-- Unless the exact sum is past the last second of `time.Time`, `t.Add(d)` is not
earlier than the exact sum. -/
theorem Time.exact_le_Add (t : Time) (d : Duration) (ht : isTime t) (hd : isInt64 d)
    (hup : (⟨t.unixNano + d⟩ : Time).sec ≤ maxInt64) :
    t.unixNano + d ≤ (t.Add d).unixNano := by
  by_cases hlow : minInt64 ≤ (⟨t.unixNano + d⟩ : Time).sec
  · rw [Time.Add_eq_exact t d ⟨hlow, hup⟩]
  · rw [Time.Add_of_lt t d ht hd (by omega)]
    unfold Time.ofSecNsec Time.sec Time.nsec minInt64 maxInt64 at *
    norm_num at *
    omega

/-- Comparison of instants is the comparison of the standard library, by seconds and then
by nanoseconds: `ts > us || ts == us && t.nsec() > u.nsec()`. -/
theorem Time.After_iff_sec_nsec (t u : Time) :
    t.After u = true ↔ (t.sec > u.sec ∨ (t.sec = u.sec ∧ t.nsec > u.nsec)) := by
  unfold Time.After Time.sec Time.nsec
  rw [decide_eq_true_iff]
  omega

/-- Comparison of instants is the comparison of the standard library, by seconds and then
by nanoseconds: `ts < us || ts == us && t.nsec() < u.nsec()`. -/
theorem Time.Before_iff_sec_nsec (t u : Time) :
    t.Before u = true ↔ (t.sec < u.sec ∨ (t.sec = u.sec ∧ t.nsec < u.nsec)) := by
  unfold Time.Before Time.sec Time.nsec
  rw [decide_eq_true_iff]
  omega

theorem HeaderExpired_eq_true_iff (h : SignedHeader) (trustingPeriod : Duration) (now : Time) :
    HeaderExpired h trustingPeriod now = true
      ↔ (h.Time.Add trustingPeriod).unixNano ≤ now.unixNano := by
  simp [HeaderExpired, Time.After]

theorem HeaderExpired_eq_false_iff (h : SignedHeader) (trustingPeriod : Duration) (now : Time) :
    HeaderExpired h trustingPeriod now = false
      ↔ now.unixNano < (h.Time.Add trustingPeriod).unixNano := by
  simp [HeaderExpired, Time.After]

theorem verifyNewHeaderAndVals_eq_none_iff (T : TypesAPI) (untrustedHeader : SignedHeader)
    (untrustedVals : ValidatorSet) (trustedHeader : SignedHeader) (now : Time)
    (maxClockDrift : Duration) :
    verifyNewHeaderAndVals T untrustedHeader untrustedVals trustedHeader now maxClockDrift = none
      ↔ NewHeaderChecks T untrustedHeader untrustedVals trustedHeader now maxClockDrift := by
  unfold verifyNewHeaderAndVals NewHeaderChecks
  cases hvb : T.SignedHeaderValidateBasic untrustedHeader trustedHeader.ChainID with
  | some e => simp
  | none =>
    simp only [true_and]
    split_ifs with h1 h2 h3 h4
    · simp; omega
    · simp [Time.After] at h2 ⊢; intro _; omega
    · simp [Time.Before] at h3 ⊢; intro _ _; omega
    · simp; intro _ _ _; exact h4
    · simp [Time.After, Time.Before] at h1 h2 h3 h4 ⊢
      exact ⟨h1, h2, h3, h4⟩

theorem VerifyAdjacent_eq_none_iff (T : TypesAPI)
    (trustedHeader untrustedHeader : SignedHeader) (untrustedVals : ValidatorSet)
    (trustingPeriod : Duration) (now : Time) (maxClockDrift : Duration) :
    VerifyAdjacent T trustedHeader untrustedHeader untrustedVals trustingPeriod now
        maxClockDrift = none ↔
      untrustedHeader.Height = addInt64 trustedHeader.Height 1 ∧
      HeaderExpired trustedHeader trustingPeriod now = false ∧
      verifyNewHeaderAndVals T untrustedHeader untrustedVals trustedHeader now
        maxClockDrift = none ∧
      untrustedHeader.ValidatorsHash = trustedHeader.NextValidatorsHash ∧
      T.VerifyCommitLight untrustedVals trustedHeader.ChainID untrustedHeader.Commit.BlockID
        untrustedHeader.Height untrustedHeader.Commit = none := by
  unfold VerifyAdjacent
  by_cases h1 : untrustedHeader.Height = addInt64 trustedHeader.Height 1
  · rw [if_neg (not_not.mpr h1)]
    cases h2 : HeaderExpired trustedHeader trustingPeriod now
    · simp only [Bool.false_eq_true, if_false]
      cases hv : verifyNewHeaderAndVals T untrustedHeader untrustedVals trustedHeader now
          maxClockDrift with
      | some e => simp
      | none =>
        by_cases h3 : untrustedHeader.ValidatorsHash = trustedHeader.NextValidatorsHash
        · rw [if_neg (not_not.mpr h3)]
          cases hc : T.VerifyCommitLight untrustedVals trustedHeader.ChainID
              untrustedHeader.Commit.BlockID untrustedHeader.Height untrustedHeader.Commit with
          | some e => simp
          | none => simp [h1, h3]
        · rw [if_pos h3]
          simp [h3]
    · simp
  · rw [if_pos h1]
    simp [h1]

theorem VerifyNonAdjacent_eq_none_iff (T : TypesAPI)
    (trustedHeader : SignedHeader) (trustedVals : ValidatorSet)
    (untrustedHeader : SignedHeader) (untrustedVals : ValidatorSet)
    (trustingPeriod : Duration) (now : Time) (maxClockDrift : Duration)
    (trustLevel : Fraction) :
    VerifyNonAdjacent T trustedHeader trustedVals untrustedHeader untrustedVals
        trustingPeriod now maxClockDrift trustLevel = none ↔
      untrustedHeader.Height ≠ addInt64 trustedHeader.Height 1 ∧
      HeaderExpired trustedHeader trustingPeriod now = false ∧
      verifyNewHeaderAndVals T untrustedHeader untrustedVals trustedHeader now
        maxClockDrift = none ∧
      (T.VerifyCommitLightTrustingWithCache trustedVals trustedHeader.ChainID
        untrustedHeader.Commit trustLevel T.NewSignatureCache).1 = none ∧
      (T.VerifyCommitLightWithCache untrustedVals trustedHeader.ChainID
        untrustedHeader.Commit.BlockID untrustedHeader.Height untrustedHeader.Commit
        (T.VerifyCommitLightTrustingWithCache trustedVals trustedHeader.ChainID
          untrustedHeader.Commit trustLevel T.NewSignatureCache).2).1 = none := by
  unfold VerifyNonAdjacent
  by_cases h1 : untrustedHeader.Height = addInt64 trustedHeader.Height 1
  · rw [if_pos h1]
    simp [h1]
  · rw [if_neg h1]
    cases h2 : HeaderExpired trustedHeader trustingPeriod now
    · simp only [Bool.false_eq_true, if_false]
      cases hv : verifyNewHeaderAndVals T untrustedHeader untrustedVals trustedHeader now
          maxClockDrift with
      | some e => simp
      | none =>
        simp only
        cases ht : (T.VerifyCommitLightTrustingWithCache trustedVals trustedHeader.ChainID
            untrustedHeader.Commit trustLevel T.NewSignatureCache).1 with
        | some e => simp
        | none =>
          simp only
          cases hc : (T.VerifyCommitLightWithCache untrustedVals trustedHeader.ChainID
              untrustedHeader.Commit.BlockID untrustedHeader.Height untrustedHeader.Commit
              (T.VerifyCommitLightTrustingWithCache trustedVals trustedHeader.ChainID
                untrustedHeader.Commit trustLevel T.NewSignatureCache).2).1 with
          | some e => simp
          | none => simp [h1]
    · simp

theorem addInt64_one_of_lt (t : Int) (ht : isInt64 t) (h : t < maxInt64) :
    addInt64 t 1 = t + 1 := by
  unfold isInt64 minInt64 maxInt64 at *
  unfold addInt64 wrapInt64
  norm_num at *
  omega

theorem adjacent_exact_iff (t u : Int) (ht : isInt64 t) (hu : isInt64 u) :
    (u = addInt64 t 1 ∧ t < u) ↔ u = t + 1 := by
  unfold isInt64 minInt64 maxInt64 at *
  unfold addInt64 wrapInt64
  norm_num at *
  omega

theorem not_adjacent_exact_iff (t u : Int) (ht : isInt64 t) (hu : isInt64 u) :
    (u ≠ addInt64 t 1 ∧ t < u) ↔ (u ≠ t + 1 ∧ t < u) := by
  unfold isInt64 minInt64 maxInt64 at *
  unfold addInt64 wrapInt64
  norm_num at *
  omega

theorem verifyNewHeaderAndVals_withCommitCheck (T : TypesAPI)
    (commitCheck : ValidatorSet → String → BlockID → Int → Commit → SignatureCache →
      Option TypesError × SignatureCache)
    (untrustedHeader : SignedHeader) (untrustedVals : ValidatorSet)
    (trustedHeader : SignedHeader) (now : Time) (maxClockDrift : Duration) :
    verifyNewHeaderAndVals (T.withCommitCheck commitCheck) untrustedHeader untrustedVals
        trustedHeader now maxClockDrift
      = verifyNewHeaderAndVals T untrustedHeader untrustedVals trustedHeader now
        maxClockDrift := rfl

theorem trustingError_of_other (e : TypesError)
    (he : ∀ got needed : Int, e ≠ .ErrNotEnoughVotingPowerSigned got needed) :
    trustingError e = .ofTypes e := by
  cases e with
  | ErrNotEnoughVotingPowerSigned got needed => exact absurd rfl (he got needed)
  | other msg => rfl

/-- The result of `VerifyNonAdjacent` once the height, expiry and new-header checks have
passed. -/
theorem VerifyNonAdjacent_after_header_checks (T : TypesAPI)
    (trustedHeader : SignedHeader) (trustedVals : ValidatorSet)
    (untrustedHeader : SignedHeader) (untrustedVals : ValidatorSet)
    (trustingPeriod : Duration) (now : Time) (maxClockDrift : Duration)
    (trustLevel : Fraction)
    (hadj : untrustedHeader.Height ≠ addInt64 trustedHeader.Height 1)
    (hexp : HeaderExpired trustedHeader trustingPeriod now = false)
    (hnew : verifyNewHeaderAndVals T untrustedHeader untrustedVals trustedHeader now
      maxClockDrift = none) :
    VerifyNonAdjacent T trustedHeader trustedVals untrustedHeader untrustedVals
        trustingPeriod now maxClockDrift trustLevel =
      match (T.VerifyCommitLightTrustingWithCache trustedVals trustedHeader.ChainID
          untrustedHeader.Commit trustLevel T.NewSignatureCache).1 with
      | some e => some (trustingError e)
      | none =>
        match (T.VerifyCommitLightWithCache untrustedVals trustedHeader.ChainID
            untrustedHeader.Commit.BlockID untrustedHeader.Height untrustedHeader.Commit
            (T.VerifyCommitLightTrustingWithCache trustedVals trustedHeader.ChainID
              untrustedHeader.Commit trustLevel T.NewSignatureCache).2).1 with
        | some err => some (.ErrInvalidHeader (.ofTypes err))
        | none => none := by
  unfold VerifyNonAdjacent
  rw [if_neg hadj, hexp, hnew]
  rfl

theorem mulUint64_three_of_lt (n d : Nat) (hd : isUint64 d) (h : 3 * n < d) :
    mulUint64 n 3 = 3 * n := by
  unfold isUint64 maxUint64 at hd
  unfold mulUint64
  norm_num at *
  omega

theorem mulUint64_le (a b : Nat) : mulUint64 a b ≤ a * b := by
  unfold mulUint64
  exact Nat.mod_le _ _

theorem ValidateTrustLevel_eq_none_iff (lvl : Fraction) :
    ValidateTrustLevel lvl = none ↔
      lvl.Denominator ≤ mulUint64 lvl.Numerator 3 ∧ lvl.Numerator ≤ lvl.Denominator ∧
      lvl.Denominator ≠ 0 := by
  unfold ValidateTrustLevel
  split_ifs with h
  · simp only [Bool.or_eq_true, decide_eq_true_eq, beq_iff_eq] at h
    simp only [reduceCtorEq, false_iff, not_and, not_not]
    intro h1 h2
    omega
  · simp only [Bool.or_eq_true, decide_eq_true_eq, beq_iff_eq, not_or, not_lt] at h
    simp only [true_iff]
    exact ⟨h.1.1, h.1.2, h.2⟩

/-- When `ValidateTrustLevel` returns nil the level is in `[1/3, 1]` with a positive
denominator. -/
theorem ValidateTrustLevel_sound (lvl : Fraction) (h : ValidateTrustLevel lvl = none) :
    0 < lvl.Denominator ∧ lvl.Denominator ≤ 3 * lvl.Numerator ∧
      lvl.Numerator ≤ lvl.Denominator := by
  obtain ⟨h1, h2, h3⟩ := (ValidateTrustLevel_eq_none_iff lvl).mp h
  have := mulUint64_le lvl.Numerator 3
  refine ⟨Nat.pos_of_ne_zero h3, ?_, h2⟩
  omega

theorem exists_reason_of_some_eq {r e : Error}
    (h : some (Error.ErrInvalidHeader r) = some e) :
    ∃ reason : Error, e = .ErrInvalidHeader reason :=
  ⟨r, (Option.some.inj h).symm⟩

/-! ## The claims -/

/-- C1: `Verify` returns exactly the result of `VerifyAdjacent` on the trusted header, the
untrusted header, the untrusted validators, the trusting period, `now` and the clock drift
when `untrustedHeader.Height == trustedHeader.Height + 1` (the `int64` addition of the
code), and in that case its result is the same for every `trustedVals` and `trustLevel`;
otherwise it returns exactly the result of `VerifyNonAdjacent` on all eight arguments. -/
theorem Verify_eq_VerifyAdjacent_or_VerifyNonAdjacent (T : TypesAPI)
    (trustedHeader : SignedHeader) (trustedVals : ValidatorSet)
    (untrustedHeader : SignedHeader) (untrustedVals : ValidatorSet)
    (trustingPeriod : Duration) (now : Time) (maxClockDrift : Duration)
    (trustLevel : Fraction) :
    (untrustedHeader.Height = addInt64 trustedHeader.Height 1 →
      Verify T trustedHeader trustedVals untrustedHeader untrustedVals trustingPeriod now
          maxClockDrift trustLevel
        = VerifyAdjacent T trustedHeader untrustedHeader untrustedVals trustingPeriod now
          maxClockDrift ∧
      ∀ (trustedVals2 : ValidatorSet) (trustLevel2 : Fraction),
        Verify T trustedHeader trustedVals2 untrustedHeader untrustedVals trustingPeriod now
            maxClockDrift trustLevel2
          = Verify T trustedHeader trustedVals untrustedHeader untrustedVals trustingPeriod
            now maxClockDrift trustLevel) ∧
    (untrustedHeader.Height ≠ addInt64 trustedHeader.Height 1 →
      Verify T trustedHeader trustedVals untrustedHeader untrustedVals trustingPeriod now
          maxClockDrift trustLevel
        = VerifyNonAdjacent T trustedHeader trustedVals untrustedHeader untrustedVals
          trustingPeriod now maxClockDrift trustLevel) := by
  refine ⟨fun h => ⟨?_, fun tv2 lvl2 => ?_⟩, fun h => ?_⟩
  · unfold Verify
    rw [if_neg (not_not.mpr h)]
  · unfold Verify
    rw [if_neg (not_not.mpr h), if_neg (not_not.mpr h)]
  · unfold Verify
    rw [if_pos h]

/-- Instance of C1: heights 1 and 2 are adjacent and `Verify` agrees with
`VerifyAdjacent`; heights 1 and 5 are not and `Verify` agrees with `VerifyNonAdjacent`. -/
theorem Verify_eq_VerifyAdjacent_or_VerifyNonAdjacent_witness :
    ((sampleHeader 2 200).Height = addInt64 (sampleHeader 1 100).Height 1 ∧
      Verify sampleTypes (sampleHeader 1 100) sampleOtherVals (sampleHeader 2 200) sampleVals
          1000 ⟨300⟩ 10 DefaultTrustLevel
        = VerifyAdjacent sampleTypes (sampleHeader 1 100) (sampleHeader 2 200) sampleVals
          1000 ⟨300⟩ 10) ∧
    ((sampleHeader 5 200).Height ≠ addInt64 (sampleHeader 1 100).Height 1 ∧
      Verify sampleTypes (sampleHeader 1 100) sampleOtherVals (sampleHeader 5 200) sampleVals
          1000 ⟨300⟩ 10 DefaultTrustLevel
        = VerifyNonAdjacent sampleTypes (sampleHeader 1 100) sampleOtherVals
          (sampleHeader 5 200) sampleVals 1000 ⟨300⟩ 10 DefaultTrustLevel) :=
  ⟨⟨by decide,
    ((Verify_eq_VerifyAdjacent_or_VerifyNonAdjacent sampleTypes (sampleHeader 1 100)
      sampleOtherVals (sampleHeader 2 200) sampleVals 1000 ⟨300⟩ 10 DefaultTrustLevel).1
      (by decide)).1⟩,
   ⟨by decide,
    (Verify_eq_VerifyAdjacent_or_VerifyNonAdjacent sampleTypes (sampleHeader 1 100)
      sampleOtherVals (sampleHeader 5 200) sampleVals 1000 ⟨300⟩ 10 DefaultTrustLevel).2
      (by decide)⟩⟩

/-- C4: `VerifyAdjacent` returns nil if and only if
`untrustedHeader.Height == trustedHeader.Height + 1`, the trusted header is not expired
at `now`, `verifyNewHeaderAndVals` passes, `untrustedHeader.ValidatorsHash` equals
`trustedHeader.NextValidatorsHash`, and
`untrustedVals.VerifyCommitLight(trustedHeader.ChainID, untrustedHeader.Commit.BlockID,
untrustedHeader.Height, untrustedHeader.Commit)` returns nil. The equivalence holds with
the `int64` addition of the code and, for heights that are `int64` values, with the exact
sum. -/
theorem VerifyAdjacent_nil_iff (T : TypesAPI)
    (trustedHeader untrustedHeader : SignedHeader) (untrustedVals : ValidatorSet)
    (trustingPeriod : Duration) (now : Time) (maxClockDrift : Duration) :
    (VerifyAdjacent T trustedHeader untrustedHeader untrustedVals trustingPeriod now
        maxClockDrift = none ↔
      untrustedHeader.Height = addInt64 trustedHeader.Height 1 ∧
      HeaderExpired trustedHeader trustingPeriod now = false ∧
      verifyNewHeaderAndVals T untrustedHeader untrustedVals trustedHeader now
        maxClockDrift = none ∧
      untrustedHeader.ValidatorsHash = trustedHeader.NextValidatorsHash ∧
      T.VerifyCommitLight untrustedVals trustedHeader.ChainID untrustedHeader.Commit.BlockID
        untrustedHeader.Height untrustedHeader.Commit = none) ∧
    (isInt64 trustedHeader.Height → isInt64 untrustedHeader.Height →
      (VerifyAdjacent T trustedHeader untrustedHeader untrustedVals trustingPeriod now
          maxClockDrift = none ↔
        untrustedHeader.Height = trustedHeader.Height + 1 ∧
        HeaderExpired trustedHeader trustingPeriod now = false ∧
        verifyNewHeaderAndVals T untrustedHeader untrustedVals trustedHeader now
          maxClockDrift = none ∧
        untrustedHeader.ValidatorsHash = trustedHeader.NextValidatorsHash ∧
        T.VerifyCommitLight untrustedVals trustedHeader.ChainID
          untrustedHeader.Commit.BlockID untrustedHeader.Height untrustedHeader.Commit
          = none)) := by
  have main := VerifyAdjacent_eq_none_iff T trustedHeader untrustedHeader untrustedVals
    trustingPeriod now maxClockDrift
  refine ⟨main, fun ht hu => ?_⟩
  rw [main]
  constructor
  · rintro ⟨h1, h2, h3, h4, h5⟩
    have hlt := ((verifyNewHeaderAndVals_eq_none_iff T untrustedHeader untrustedVals
      trustedHeader now maxClockDrift).mp h3).2.1
    exact ⟨(adjacent_exact_iff _ _ ht hu).mp ⟨h1, hlt⟩, h2, h3, h4, h5⟩
  · rintro ⟨h1, h2, h3, h4, h5⟩
    exact ⟨((adjacent_exact_iff _ _ ht hu).mpr h1).1, h2, h3, h4, h5⟩

/-- Instance of C4: the header at height 2 and time 200 is accepted after the header at
height 1 and time 100, and each of the five conditions holds there. -/
theorem VerifyAdjacent_nil_iff_witness :
    isInt64 (sampleHeader 1 100).Height ∧ isInt64 (sampleHeader 2 200).Height ∧
    ((sampleHeader 2 200).Height = (sampleHeader 1 100).Height + 1 ∧
      HeaderExpired (sampleHeader 1 100) 1000 ⟨300⟩ = false ∧
      verifyNewHeaderAndVals sampleTypes (sampleHeader 2 200) sampleVals (sampleHeader 1 100)
        ⟨300⟩ 10 = none ∧
      (sampleHeader 2 200).ValidatorsHash = (sampleHeader 1 100).NextValidatorsHash ∧
      sampleTypes.VerifyCommitLight sampleVals (sampleHeader 1 100).ChainID
        (sampleHeader 2 200).Commit.BlockID (sampleHeader 2 200).Height
        (sampleHeader 2 200).Commit = none) :=
  ⟨by decide, by decide,
    ((VerifyAdjacent_nil_iff sampleTypes (sampleHeader 1 100) (sampleHeader 2 200) sampleVals
      1000 ⟨300⟩ 10).2 (by decide) (by decide)).mp (by decide)⟩

/-- C5: `VerifyNonAdjacent` returns nil if and only if
`untrustedHeader.Height != trustedHeader.Height + 1`, the trusted header is not expired
at `now`, `verifyNewHeaderAndVals` passes, the trusting check of `trustedVals` on
`untrustedHeader.Commit` at `trustLevel` with chain id `trustedHeader.ChainID` returns
nil, and the commit check of `untrustedVals` with `trustedHeader.ChainID`,
`untrustedHeader.Commit.BlockID`, `untrustedHeader.Height` and `untrustedHeader.Commit`
returns nil. The two checks are the calls the code makes, on the signature cache it
creates. The equivalence holds with the `int64` addition of the code and, for heights
that are `int64` values, with the exact sum; and when the cache does not change the
outcome of the commit check, the last condition is that `VerifyCommitLight` returns
nil. -/
theorem VerifyNonAdjacent_nil_iff (T : TypesAPI)
    (trustedHeader : SignedHeader) (trustedVals : ValidatorSet)
    (untrustedHeader : SignedHeader) (untrustedVals : ValidatorSet)
    (trustingPeriod : Duration) (now : Time) (maxClockDrift : Duration)
    (trustLevel : Fraction) :
    (VerifyNonAdjacent T trustedHeader trustedVals untrustedHeader untrustedVals
        trustingPeriod now maxClockDrift trustLevel = none ↔
      untrustedHeader.Height ≠ addInt64 trustedHeader.Height 1 ∧
      HeaderExpired trustedHeader trustingPeriod now = false ∧
      verifyNewHeaderAndVals T untrustedHeader untrustedVals trustedHeader now
        maxClockDrift = none ∧
      (T.VerifyCommitLightTrustingWithCache trustedVals trustedHeader.ChainID
        untrustedHeader.Commit trustLevel T.NewSignatureCache).1 = none ∧
      (T.VerifyCommitLightWithCache untrustedVals trustedHeader.ChainID
        untrustedHeader.Commit.BlockID untrustedHeader.Height untrustedHeader.Commit
        (T.VerifyCommitLightTrustingWithCache trustedVals trustedHeader.ChainID
          untrustedHeader.Commit trustLevel T.NewSignatureCache).2).1 = none) ∧
    (isInt64 trustedHeader.Height → isInt64 untrustedHeader.Height →
      (VerifyNonAdjacent T trustedHeader trustedVals untrustedHeader untrustedVals
          trustingPeriod now maxClockDrift trustLevel = none ↔
        untrustedHeader.Height ≠ trustedHeader.Height + 1 ∧
        HeaderExpired trustedHeader trustingPeriod now = false ∧
        verifyNewHeaderAndVals T untrustedHeader untrustedVals trustedHeader now
          maxClockDrift = none ∧
        (T.VerifyCommitLightTrustingWithCache trustedVals trustedHeader.ChainID
          untrustedHeader.Commit trustLevel T.NewSignatureCache).1 = none ∧
        (T.VerifyCommitLightWithCache untrustedVals trustedHeader.ChainID
          untrustedHeader.Commit.BlockID untrustedHeader.Height untrustedHeader.Commit
          (T.VerifyCommitLightTrustingWithCache trustedVals trustedHeader.ChainID
            untrustedHeader.Commit trustLevel T.NewSignatureCache).2).1 = none)) ∧
    ((∀ cache : SignatureCache,
        (T.VerifyCommitLightWithCache untrustedVals trustedHeader.ChainID
          untrustedHeader.Commit.BlockID untrustedHeader.Height untrustedHeader.Commit
          cache).1
        = T.VerifyCommitLight untrustedVals trustedHeader.ChainID
          untrustedHeader.Commit.BlockID untrustedHeader.Height untrustedHeader.Commit) →
      (VerifyNonAdjacent T trustedHeader trustedVals untrustedHeader untrustedVals
          trustingPeriod now maxClockDrift trustLevel = none ↔
        untrustedHeader.Height ≠ addInt64 trustedHeader.Height 1 ∧
        HeaderExpired trustedHeader trustingPeriod now = false ∧
        verifyNewHeaderAndVals T untrustedHeader untrustedVals trustedHeader now
          maxClockDrift = none ∧
        (T.VerifyCommitLightTrustingWithCache trustedVals trustedHeader.ChainID
          untrustedHeader.Commit trustLevel T.NewSignatureCache).1 = none ∧
        T.VerifyCommitLight untrustedVals trustedHeader.ChainID
          untrustedHeader.Commit.BlockID untrustedHeader.Height untrustedHeader.Commit
          = none)) := by
  have main := VerifyNonAdjacent_eq_none_iff T trustedHeader trustedVals untrustedHeader
    untrustedVals trustingPeriod now maxClockDrift trustLevel
  refine ⟨main, fun ht hu => ?_, fun hcache => ?_⟩
  · rw [main]
    constructor
    · rintro ⟨h1, h2, h3, h4, h5⟩
      have hlt := ((verifyNewHeaderAndVals_eq_none_iff T untrustedHeader untrustedVals
        trustedHeader now maxClockDrift).mp h3).2.1
      exact ⟨((not_adjacent_exact_iff _ _ ht hu).mp ⟨h1, hlt⟩).1, h2, h3, h4, h5⟩
    · rintro ⟨h1, h2, h3, h4, h5⟩
      have hlt := ((verifyNewHeaderAndVals_eq_none_iff T untrustedHeader untrustedVals
        trustedHeader now maxClockDrift).mp h3).2.1
      exact ⟨((not_adjacent_exact_iff _ _ ht hu).mpr ⟨h1, hlt⟩).1, h2, h3, h4, h5⟩
  · rw [main, hcache]

/-- Instance of C5: the header at height 5 and time 200 is accepted after the header at
height 1 and time 100, and each of the five conditions holds there. -/
theorem VerifyNonAdjacent_nil_iff_witness :
    isInt64 (sampleHeader 1 100).Height ∧ isInt64 (sampleHeader 5 200).Height ∧
    ((sampleHeader 5 200).Height ≠ (sampleHeader 1 100).Height + 1 ∧
      HeaderExpired (sampleHeader 1 100) 1000 ⟨300⟩ = false ∧
      verifyNewHeaderAndVals sampleTypes (sampleHeader 5 200) sampleVals (sampleHeader 1 100)
        ⟨300⟩ 10 = none ∧
      (sampleTypes.VerifyCommitLightTrustingWithCache sampleVals (sampleHeader 1 100).ChainID
        (sampleHeader 5 200).Commit DefaultTrustLevel sampleTypes.NewSignatureCache).1
        = none ∧
      (sampleTypes.VerifyCommitLightWithCache sampleVals (sampleHeader 1 100).ChainID
        (sampleHeader 5 200).Commit.BlockID (sampleHeader 5 200).Height
        (sampleHeader 5 200).Commit
        (sampleTypes.VerifyCommitLightTrustingWithCache sampleVals
          (sampleHeader 1 100).ChainID (sampleHeader 5 200).Commit DefaultTrustLevel
          sampleTypes.NewSignatureCache).2).1 = none) ∧
    ((∀ cache : SignatureCache,
        (sampleTypes.VerifyCommitLightWithCache sampleVals (sampleHeader 1 100).ChainID
          (sampleHeader 5 200).Commit.BlockID (sampleHeader 5 200).Height
          (sampleHeader 5 200).Commit cache).1
        = sampleTypes.VerifyCommitLight sampleVals (sampleHeader 1 100).ChainID
          (sampleHeader 5 200).Commit.BlockID (sampleHeader 5 200).Height
          (sampleHeader 5 200).Commit) ∧
      sampleTypes.VerifyCommitLight sampleVals (sampleHeader 1 100).ChainID
        (sampleHeader 5 200).Commit.BlockID (sampleHeader 5 200).Height
        (sampleHeader 5 200).Commit = none) :=
  ⟨by decide, by decide,
    ((VerifyNonAdjacent_nil_iff sampleTypes (sampleHeader 1 100) sampleVals
      (sampleHeader 5 200) sampleVals 1000 ⟨300⟩ 10 DefaultTrustLevel).2.1
      (by decide) (by decide)).mp (by decide),
    fun _ => rfl,
    (((VerifyNonAdjacent_nil_iff sampleTypes (sampleHeader 1 100) sampleVals
      (sampleHeader 5 200) sampleVals 1000 ⟨300⟩ 10 DefaultTrustLevel).2.2
      (fun _ => rfl)).mp (by decide)).2.2.2.2⟩

/-- C6: in `VerifyNonAdjacent`, and in `Verify` for non-adjacent heights, when the
adjacency, expiry and new-header checks pass and the trusting check on `trustedVals`
fails with `ErrNotEnoughVotingPowerSigned`, the result is `ErrNewValSetCantBeTrusted`
wrapping that error; an error of any other kind from the trusting check is returned
unchanged, which is neither an `ErrNewValSetCantBeTrusted` nor an `ErrInvalidHeader`. -/
theorem VerifyNonAdjacent_trusting_check_error (T : TypesAPI)
    (trustedHeader : SignedHeader) (trustedVals : ValidatorSet)
    (untrustedHeader : SignedHeader) (untrustedVals : ValidatorSet)
    (trustingPeriod : Duration) (now : Time) (maxClockDrift : Duration)
    (trustLevel : Fraction)
    (hadj : untrustedHeader.Height ≠ addInt64 trustedHeader.Height 1)
    (hexp : HeaderExpired trustedHeader trustingPeriod now = false)
    (hnew : verifyNewHeaderAndVals T untrustedHeader untrustedVals trustedHeader now
      maxClockDrift = none) :
    (∀ got needed : Int,
      (T.VerifyCommitLightTrustingWithCache trustedVals trustedHeader.ChainID
        untrustedHeader.Commit trustLevel T.NewSignatureCache).1
          = some (.ErrNotEnoughVotingPowerSigned got needed) →
      VerifyNonAdjacent T trustedHeader trustedVals untrustedHeader untrustedVals
          trustingPeriod now maxClockDrift trustLevel
        = some (.ErrNewValSetCantBeTrusted (.ErrNotEnoughVotingPowerSigned got needed)) ∧
      Verify T trustedHeader trustedVals untrustedHeader untrustedVals
          trustingPeriod now maxClockDrift trustLevel
        = some (.ErrNewValSetCantBeTrusted (.ErrNotEnoughVotingPowerSigned got needed))) ∧
    (∀ e : TypesError,
      (∀ got needed : Int, e ≠ .ErrNotEnoughVotingPowerSigned got needed) →
      (T.VerifyCommitLightTrustingWithCache trustedVals trustedHeader.ChainID
        untrustedHeader.Commit trustLevel T.NewSignatureCache).1 = some e →
      VerifyNonAdjacent T trustedHeader trustedVals untrustedHeader untrustedVals
          trustingPeriod now maxClockDrift trustLevel = some (.ofTypes e) ∧
      Verify T trustedHeader trustedVals untrustedHeader untrustedVals
          trustingPeriod now maxClockDrift trustLevel = some (.ofTypes e) ∧
      (∀ r : TypesError, Error.ofTypes e ≠ .ErrNewValSetCantBeTrusted r) ∧
      (∀ r : Error, Error.ofTypes e ≠ .ErrInvalidHeader r)) := by
  have hV : Verify T trustedHeader trustedVals untrustedHeader untrustedVals
      trustingPeriod now maxClockDrift trustLevel
      = VerifyNonAdjacent T trustedHeader trustedVals untrustedHeader untrustedVals
        trustingPeriod now maxClockDrift trustLevel := by
    unfold Verify
    rw [if_pos hadj]
  have hN := VerifyNonAdjacent_after_header_checks T trustedHeader trustedVals
    untrustedHeader untrustedVals trustingPeriod now maxClockDrift trustLevel hadj hexp hnew
  constructor
  · intro got needed ht
    rw [hV, hN, ht]
    exact ⟨rfl, rfl⟩
  · intro e he ht
    rw [hV, hN, ht]
    refine ⟨?_, ?_, fun r h => Error.noConfusion h, fun r h => Error.noConfusion h⟩
    · show some (trustingError e) = some (.ofTypes e)
      rw [trustingError_of_other e he]
    · show some (trustingError e) = some (.ofTypes e)
      rw [trustingError_of_other e he]

/-- Instance of C6: no validator of `sampleOtherVals` signed the commit of the header at
height 5, so trusting it from `sampleOtherVals` gives `ErrNewValSetCantBeTrusted`; a trust
level with denominator zero makes the sample trusting check fail with another error,
which is returned as it is. -/
theorem VerifyNonAdjacent_trusting_check_error_witness :
    ((sampleHeader 5 200).Height ≠ addInt64 (sampleHeader 1 100).Height 1 ∧
      HeaderExpired (sampleHeader 1 100) 1000 ⟨300⟩ = false ∧
      verifyNewHeaderAndVals sampleTypes (sampleHeader 5 200) sampleVals (sampleHeader 1 100)
        ⟨300⟩ 10 = none) ∧
    (VerifyNonAdjacent sampleTypes (sampleHeader 1 100) sampleOtherVals (sampleHeader 5 200)
        sampleVals 1000 ⟨300⟩ 10 DefaultTrustLevel
      = some (.ErrNewValSetCantBeTrusted (.ErrNotEnoughVotingPowerSigned 0 10)) ∧
     Verify sampleTypes (sampleHeader 1 100) sampleOtherVals (sampleHeader 5 200)
        sampleVals 1000 ⟨300⟩ 10 DefaultTrustLevel
      = some (.ErrNewValSetCantBeTrusted (.ErrNotEnoughVotingPowerSigned 0 10))) ∧
    (VerifyNonAdjacent sampleTypes (sampleHeader 1 100) sampleVals (sampleHeader 5 200)
        sampleVals 1000 ⟨300⟩ 10 ⟨1, 0⟩
      = some (.ofTypes (.other "trustLevel has zero Denominator"))) :=
  ⟨⟨by decide, by decide, by decide⟩,
   (VerifyNonAdjacent_trusting_check_error sampleTypes (sampleHeader 1 100) sampleOtherVals
      (sampleHeader 5 200) sampleVals 1000 ⟨300⟩ 10 DefaultTrustLevel
      (by decide) (by decide) (by decide)).1 0 10 (by decide),
   ((VerifyNonAdjacent_trusting_check_error sampleTypes (sampleHeader 1 100) sampleVals
      (sampleHeader 5 200) sampleVals 1000 ⟨300⟩ 10 ⟨1, 0⟩
      (by decide) (by decide) (by decide)).2 (.other "trustLevel has zero Denominator")
      (fun _ _ h => TypesError.noConfusion h) (by decide)).1⟩

/-- C7: in `VerifyNonAdjacent` the commit check against `untrustedVals` is the last check:
whenever the adjacency, expiry, new-header or trust-level check fails, the function
returns an error, and it returns the same error whatever the commit check of
`untrustedVals` would return (a run with any other commit check returns the same). -/
theorem VerifyNonAdjacent_commit_check_last (T : TypesAPI)
    (commitCheck : ValidatorSet → String → BlockID → Int → Commit → SignatureCache →
      Option TypesError × SignatureCache)
    (trustedHeader : SignedHeader) (trustedVals : ValidatorSet)
    (untrustedHeader : SignedHeader) (untrustedVals : ValidatorSet)
    (trustingPeriod : Duration) (now : Time) (maxClockDrift : Duration)
    (trustLevel : Fraction)
    (hfail : ¬ (untrustedHeader.Height ≠ addInt64 trustedHeader.Height 1 ∧
      HeaderExpired trustedHeader trustingPeriod now = false ∧
      verifyNewHeaderAndVals T untrustedHeader untrustedVals trustedHeader now
        maxClockDrift = none ∧
      (T.VerifyCommitLightTrustingWithCache trustedVals trustedHeader.ChainID
        untrustedHeader.Commit trustLevel T.NewSignatureCache).1 = none)) :
    VerifyNonAdjacent (T.withCommitCheck commitCheck) trustedHeader trustedVals
        untrustedHeader untrustedVals trustingPeriod now maxClockDrift trustLevel
      = VerifyNonAdjacent T trustedHeader trustedVals untrustedHeader untrustedVals
        trustingPeriod now maxClockDrift trustLevel ∧
    VerifyNonAdjacent T trustedHeader trustedVals untrustedHeader untrustedVals
        trustingPeriod now maxClockDrift trustLevel ≠ none := by
  constructor
  · by_cases h1 : untrustedHeader.Height = addInt64 trustedHeader.Height 1
    · unfold VerifyNonAdjacent
      rw [if_pos h1, if_pos h1]
    · cases h2 : HeaderExpired trustedHeader trustingPeriod now
      · cases hv : verifyNewHeaderAndVals T untrustedHeader untrustedVals trustedHeader now
            maxClockDrift with
        | some e =>
          unfold VerifyNonAdjacent
          rw [if_neg h1, if_neg h1, h2, verifyNewHeaderAndVals_withCommitCheck, hv]
        | none =>
          cases ht : (T.VerifyCommitLightTrustingWithCache trustedVals trustedHeader.ChainID
              untrustedHeader.Commit trustLevel T.NewSignatureCache).1 with
          | some e =>
            have ht2 : ((T.withCommitCheck commitCheck).VerifyCommitLightTrustingWithCache
                trustedVals trustedHeader.ChainID untrustedHeader.Commit trustLevel
                (T.withCommitCheck commitCheck).NewSignatureCache).1 = some e := ht
            rw [VerifyNonAdjacent_after_header_checks T trustedHeader trustedVals
                untrustedHeader untrustedVals trustingPeriod now maxClockDrift trustLevel
                h1 h2 hv,
              VerifyNonAdjacent_after_header_checks (T.withCommitCheck commitCheck)
                trustedHeader trustedVals untrustedHeader untrustedVals trustingPeriod now
                maxClockDrift trustLevel h1 h2 hv,
              ht, ht2]
          | none => exact absurd ⟨h1, h2, hv, ht⟩ hfail
      · unfold VerifyNonAdjacent
        rw [if_neg h1, if_neg h1, h2, if_pos rfl, if_pos rfl]
  · intro hnone
    have h := (VerifyNonAdjacent_eq_none_iff T trustedHeader trustedVals untrustedHeader
      untrustedVals trustingPeriod now maxClockDrift trustLevel).mp hnone
    exact hfail ⟨h.1, h.2.1, h.2.2.1, h.2.2.2.1⟩

/-- Instance of C7: with an expired trusted header, and with a set of trusted validators
none of which signed, `VerifyNonAdjacent` returns the same error when the commit check
is replaced by one that always fails. -/
theorem VerifyNonAdjacent_commit_check_last_witness :
    (VerifyNonAdjacent (sampleTypes.withCommitCheck failingCommitCheck) (sampleHeader 1 100)
        sampleVals (sampleHeader 5 200) sampleVals 100 ⟨300⟩ 10 DefaultTrustLevel
      = VerifyNonAdjacent sampleTypes (sampleHeader 1 100) sampleVals (sampleHeader 5 200)
        sampleVals 100 ⟨300⟩ 10 DefaultTrustLevel ∧
     VerifyNonAdjacent sampleTypes (sampleHeader 1 100) sampleVals (sampleHeader 5 200)
        sampleVals 100 ⟨300⟩ 10 DefaultTrustLevel ≠ none) ∧
    (VerifyNonAdjacent (sampleTypes.withCommitCheck failingCommitCheck) (sampleHeader 1 100)
        sampleOtherVals (sampleHeader 5 200) sampleVals 1000 ⟨300⟩ 10 DefaultTrustLevel
      = VerifyNonAdjacent sampleTypes (sampleHeader 1 100) sampleOtherVals
        (sampleHeader 5 200) sampleVals 1000 ⟨300⟩ 10 DefaultTrustLevel ∧
     VerifyNonAdjacent sampleTypes (sampleHeader 1 100) sampleOtherVals (sampleHeader 5 200)
        sampleVals 1000 ⟨300⟩ 10 DefaultTrustLevel ≠ none) :=
  ⟨VerifyNonAdjacent_commit_check_last sampleTypes failingCommitCheck (sampleHeader 1 100)
      sampleVals (sampleHeader 5 200) sampleVals 100 ⟨300⟩ 10 DefaultTrustLevel (by decide),
   VerifyNonAdjacent_commit_check_last sampleTypes failingCommitCheck (sampleHeader 1 100)
      sampleOtherVals (sampleHeader 5 200) sampleVals 1000 ⟨300⟩ 10 DefaultTrustLevel
      (by decide)⟩

/-- C8, evaluated on the code: numerator and denominator both 6148914691236517206 are
`uint64` values with `d > 0`, `3*n >= d` and `n <= d` over the integers (the fraction is
1), and `ValidateTrustLevel` returns `ErrInvalidTrustLevel` for them, because
`Numerator*3` is `2^64 + 2` and wraps to 2. -/
theorem ValidateTrustLevel_rejects_level_one :
    isUint64 6148914691236517206 ∧
    (0 < 6148914691236517206 ∧ 3 * 6148914691236517206 ≥ 6148914691236517206 ∧
      6148914691236517206 ≤ 6148914691236517206) ∧
    mulUint64 6148914691236517206 3 = 2 ∧
    ValidateTrustLevel ⟨6148914691236517206, 6148914691236517206⟩
      = some (.ErrInvalidTrustLevel ⟨6148914691236517206, 6148914691236517206⟩) := by
  decide

/-- C9: `ValidateTrustLevel` returns `ErrInvalidTrustLevel` carrying the level for every
`uint64` numerator `n` and denominator `d` with `d == 0`, or `3*n < d`, or `n > d`, the
comparisons being over the integers. -/
theorem ValidateTrustLevel_rejects (lvl : Fraction)
    (_hn : isUint64 lvl.Numerator) (hd : isUint64 lvl.Denominator)
    (h : lvl.Denominator = 0 ∨ 3 * lvl.Numerator < lvl.Denominator ∨
      lvl.Numerator > lvl.Denominator) :
    ValidateTrustLevel lvl = some (.ErrInvalidTrustLevel lvl) := by
  unfold ValidateTrustLevel
  have hcond : (decide (mulUint64 lvl.Numerator 3 < lvl.Denominator) ||
      decide (lvl.Numerator > lvl.Denominator) || lvl.Denominator == 0) = true := by
    simp only [Bool.or_eq_true, decide_eq_true_eq, beq_iff_eq]
    rcases h with h | h | h
    · exact Or.inr h
    · left; left
      rw [mulUint64_three_of_lt _ _ hd h]
      exact h
    · exact Or.inl (Or.inr h)
  rw [if_pos hcond]

/-- Instance of C9: the levels 1/0, 1/4 and 4/3 are rejected. -/
theorem ValidateTrustLevel_rejects_witness :
    ValidateTrustLevel ⟨1, 0⟩ = some (.ErrInvalidTrustLevel ⟨1, 0⟩) ∧
    ValidateTrustLevel ⟨1, 4⟩ = some (.ErrInvalidTrustLevel ⟨1, 4⟩) ∧
    ValidateTrustLevel ⟨4, 3⟩ = some (.ErrInvalidTrustLevel ⟨4, 3⟩) :=
  ⟨ValidateTrustLevel_rejects ⟨1, 0⟩ (by decide) (by decide) (Or.inl rfl),
   ValidateTrustLevel_rejects ⟨1, 4⟩ (by decide) (by decide) (Or.inr (Or.inl (by decide))),
   ValidateTrustLevel_rejects ⟨4, 3⟩ (by decide) (by decide) (Or.inr (Or.inr (by decide)))⟩

/-- C10: `VerifyBackwards(untrustedHeader, trustedHeader)` returns nil if and only if
`untrustedHeader.ValidateBasic()` returns nil, the two chain ids are equal, the untrusted
time is strictly before the trusted time, and `untrustedHeader.Hash()` equals
`trustedHeader.LastBlockID.Hash`; every error it returns is an `ErrInvalidHeader`. -/
theorem VerifyBackwards_nil_iff (T : TypesAPI) (untrustedHeader trustedHeader : Header) :
    (VerifyBackwards T untrustedHeader trustedHeader = none ↔
      T.HeaderValidateBasic untrustedHeader = none ∧
      untrustedHeader.ChainID = trustedHeader.ChainID ∧
      untrustedHeader.Time.unixNano < trustedHeader.Time.unixNano ∧
      T.HeaderHash untrustedHeader = trustedHeader.LastBlockID.Hash) ∧
    (∀ e : Error, VerifyBackwards T untrustedHeader trustedHeader = some e →
      ∃ reason : Error, e = .ErrInvalidHeader reason) := by
  unfold VerifyBackwards
  cases hvb : T.HeaderValidateBasic untrustedHeader with
  | some err =>
    exact ⟨by simp, fun e he => exists_reason_of_some_eq he⟩
  | none =>
    simp only [true_and]
    by_cases h1 : untrustedHeader.ChainID = trustedHeader.ChainID
    · rw [if_neg (not_not.mpr h1)]
      by_cases h2 : untrustedHeader.Time.unixNano < trustedHeader.Time.unixNano
      · have hb : (!untrustedHeader.Time.Before trustedHeader.Time) = false := by
          simp [Time.Before, h2]
        rw [hb]
        simp only [Bool.false_eq_true, if_false]
        by_cases h3 : T.HeaderHash untrustedHeader = trustedHeader.LastBlockID.Hash
        · rw [if_neg (not_not.mpr h3)]
          exact ⟨by simp [h1, h2, h3], fun e he => by simp at he⟩
        · rw [if_pos h3]
          exact ⟨by simp [h3], fun e he => exists_reason_of_some_eq he⟩
      · have hb : (!untrustedHeader.Time.Before trustedHeader.Time) = true := by
          simp [Time.Before]
          omega
        rw [if_pos hb]
        exact ⟨by simp [h2], fun e he => exists_reason_of_some_eq he⟩
    · rw [if_pos h1]
      exact ⟨by simp [h1], fun e he => exists_reason_of_some_eq he⟩

/-- Instance of C10: the header at height 1 and time 100 is accepted before
`sampleNewerHeader`, and rejected with an `ErrInvalidHeader` before the same header of
another chain. -/
theorem VerifyBackwards_nil_iff_witness :
    VerifyBackwards sampleTypes (sampleHeader 1 100).toHeader sampleNewerHeader = none ∧
    ∃ reason : Error,
      Error.ErrInvalidHeader (.errorsNew "header belongs to another chain")
        = .ErrInvalidHeader reason :=
  ⟨(VerifyBackwards_nil_iff sampleTypes (sampleHeader 1 100).toHeader sampleNewerHeader).1.mpr
      ⟨by decide, by decide, by decide, by decide⟩,
   (VerifyBackwards_nil_iff sampleTypes (sampleHeader 1 100).toHeader sampleForeignHeader).2
      _ (by decide)⟩

/-- C11 as stated fails: for the header whose time is the last instant of `time.Time`, the
trusting period of one second and `now` that same instant, `h.Time + trustingPeriod`
is after `now`, and `HeaderExpired` returns true, because `Add` does not go beyond the
last second of `time.Time`. -/
theorem HeaderExpired_exact_sum_counterexample :
    ¬ (∀ (h : SignedHeader) (trustingPeriod : Duration) (now : Time),
        isTime h.Time → isInt64 trustingPeriod → isTime now →
        (HeaderExpired h trustingPeriod now = true ↔
          h.Time.unixNano + trustingPeriod ≤ now.unixNano)) :=
  fun hall => absurd
    ((hall sampleLastHeader 1000000000 maxTime (by decide) (by decide) (by decide)).mp
      (by decide))
    (by decide)

/-- C11, amended: `HeaderExpired(h, trustingPeriod, now)` is true exactly when
`h.Time.Add(trustingPeriod)` is not after `now`: the header is unexpired if and only if
`now` is before `h.Time.Add(trustingPeriod)`, and it is already expired at that instant.
Where the exact sum `h.Time + trustingPeriod` is a `time.Time`, `Add` gives that sum, and
`HeaderExpired` is true exactly when `h.Time + trustingPeriod <= now`. Where the exact
sum is past the last second of `time.Time`, `Add` gives an instant of that last second,
and before the first second an instant of the second after the first. -/
theorem HeaderExpired_iff (h : SignedHeader) (trustingPeriod : Duration) (now : Time) :
    (HeaderExpired h trustingPeriod now = true ↔
      (h.Time.Add trustingPeriod).unixNano ≤ now.unixNano) ∧
    (HeaderExpired h trustingPeriod now = false ↔
      now.unixNano < (h.Time.Add trustingPeriod).unixNano) ∧
    HeaderExpired h trustingPeriod (h.Time.Add trustingPeriod) = true ∧
    (isTime ⟨h.Time.unixNano + trustingPeriod⟩ →
      h.Time.Add trustingPeriod = ⟨h.Time.unixNano + trustingPeriod⟩ ∧
      (HeaderExpired h trustingPeriod now = true ↔
        h.Time.unixNano + trustingPeriod ≤ now.unixNano) ∧
      (HeaderExpired h trustingPeriod now = false ↔
        now.unixNano < h.Time.unixNano + trustingPeriod) ∧
      HeaderExpired h trustingPeriod ⟨h.Time.unixNano + trustingPeriod⟩ = true) ∧
    (isTime h.Time → isInt64 trustingPeriod →
      (maxInt64 < (⟨h.Time.unixNano + trustingPeriod⟩ : Time).sec →
        h.Time.Add trustingPeriod
          = Time.ofSecNsec maxInt64 (⟨h.Time.unixNano + trustingPeriod⟩ : Time).nsec) ∧
      ((⟨h.Time.unixNano + trustingPeriod⟩ : Time).sec < minInt64 →
        h.Time.Add trustingPeriod
          = Time.ofSecNsec (-maxInt64) (⟨h.Time.unixNano + trustingPeriod⟩ : Time).nsec)) := by
  refine ⟨HeaderExpired_eq_true_iff h trustingPeriod now,
    HeaderExpired_eq_false_iff h trustingPeriod now,
    (HeaderExpired_eq_true_iff h trustingPeriod (h.Time.Add trustingPeriod)).mpr
      (le_refl _), ?_, ?_⟩
  · intro hsum
    have hadd := Time.Add_eq_exact h.Time trustingPeriod hsum
    have h1 := HeaderExpired_eq_true_iff h trustingPeriod now
    have h2 := HeaderExpired_eq_false_iff h trustingPeriod now
    have h3 := (HeaderExpired_eq_true_iff h trustingPeriod
      ⟨h.Time.unixNano + trustingPeriod⟩).mpr
    rw [hadd] at h1 h2 h3
    exact ⟨hadd, h1, h2, h3 (le_refl _)⟩
  · intro ht hp
    exact ⟨Time.Add_of_gt h.Time trustingPeriod ht hp,
      Time.Add_of_lt h.Time trustingPeriod ht hp⟩

/-- Instance of C11, amended: the header of time 100 with trusting period 100 has the
expiration time 200, is expired at 200 and is not expired at 199; the header whose time
is the last instant of `time.Time` keeps that instant as its expiration time for a
trusting period of one second. -/
theorem HeaderExpired_iff_witness :
    ((sampleHeader 1 100).Time.Add 100 = ⟨200⟩ ∧
      HeaderExpired (sampleHeader 1 100) 100 ⟨200⟩ = true ∧
      HeaderExpired (sampleHeader 1 100) 100 ⟨199⟩ = false) ∧
    sampleLastHeader.Time.Add 1000000000 = maxTime :=
  ⟨⟨((HeaderExpired_iff (sampleHeader 1 100) 100 ⟨200⟩).2.2.2.1 (by decide)).1,
    ((HeaderExpired_iff (sampleHeader 1 100) 100 ⟨200⟩).2.2.2.1 (by decide)).2.1.mpr
      (by decide),
    ((HeaderExpired_iff (sampleHeader 1 100) 100 ⟨199⟩).2.2.2.1 (by decide)).2.2.1.mpr
      (by decide)⟩,
   (((HeaderExpired_iff sampleLastHeader 1000000000 maxTime).2.2.2.2
      (by decide) (by decide)).1 (by decide)).trans (by decide)⟩

/-- C12: in `VerifyAdjacent`, when the heights are adjacent, the trusted header is
unexpired and the common new-header checks pass but `untrustedHeader.ValidatorsHash`
differs from `trustedHeader.NextValidatorsHash`, the result is `ErrValidatorHashMismatch`
with `TrustedHash = trustedHeader.NextValidatorsHash` and
`ValidatorHash = untrustedHeader.ValidatorsHash`, and it is the same whatever
`VerifyCommitLight` would return. -/
theorem VerifyAdjacent_validator_hash_mismatch (T : TypesAPI)
    (trustedHeader untrustedHeader : SignedHeader) (untrustedVals : ValidatorSet)
    (trustingPeriod : Duration) (now : Time) (maxClockDrift : Duration)
    (hadj : untrustedHeader.Height = addInt64 trustedHeader.Height 1)
    (hexp : HeaderExpired trustedHeader trustingPeriod now = false)
    (hnew : verifyNewHeaderAndVals T untrustedHeader untrustedVals trustedHeader now
      maxClockDrift = none)
    (hmis : untrustedHeader.ValidatorsHash ≠ trustedHeader.NextValidatorsHash) :
    VerifyAdjacent T trustedHeader untrustedHeader untrustedVals trustingPeriod now
        maxClockDrift
      = some (.ErrValidatorHashMismatch trustedHeader.NextValidatorsHash
          untrustedHeader.ValidatorsHash) ∧
    ∀ commitCheck : ValidatorSet → String → BlockID → Int → Commit → Option TypesError,
      VerifyAdjacent (T.withCommitLight commitCheck) trustedHeader untrustedHeader
          untrustedVals trustingPeriod now maxClockDrift
        = some (.ErrValidatorHashMismatch trustedHeader.NextValidatorsHash
            untrustedHeader.ValidatorsHash) := by
  constructor
  · unfold VerifyAdjacent
    rw [if_neg (not_not.mpr hadj), hexp, hnew]
    simp only [Bool.false_eq_true, if_false]
    rw [if_pos hmis]
  · intro commitCheck
    have hnew2 : verifyNewHeaderAndVals (T.withCommitLight commitCheck) untrustedHeader
        untrustedVals trustedHeader now maxClockDrift = none := hnew
    unfold VerifyAdjacent
    rw [if_neg (not_not.mpr hadj), hexp, hnew2]
    simp only [Bool.false_eq_true, if_false]
    rw [if_pos hmis]

/-- Instance of C12: the trusted header at height 1 announces the next validators hash
`[20, 20]`, the header at height 2 has validators hash `[10, 10, 10]`. -/
theorem VerifyAdjacent_validator_hash_mismatch_witness :
    VerifyAdjacent sampleTypes (sampleHeaderOtherNext 1 100) (sampleHeader 2 200) sampleVals
        1000 ⟨300⟩ 10
      = some (.ErrValidatorHashMismatch [20, 20] [10, 10, 10]) ∧
    VerifyAdjacent (sampleTypes.withCommitLight failingCommitLight)
        (sampleHeaderOtherNext 1 100) (sampleHeader 2 200) sampleVals 1000 ⟨300⟩ 10
      = some (.ErrValidatorHashMismatch [20, 20] [10, 10, 10]) :=
  ⟨(VerifyAdjacent_validator_hash_mismatch sampleTypes (sampleHeaderOtherNext 1 100)
      (sampleHeader 2 200) sampleVals 1000 ⟨300⟩ 10
      (by decide) (by decide) (by decide) (by decide)).1,
   (VerifyAdjacent_validator_hash_mismatch sampleTypes (sampleHeaderOtherNext 1 100)
      (sampleHeader 2 200) sampleVals 1000 ⟨300⟩ 10
      (by decide) (by decide) (by decide) (by decide)).2 failingCommitLight⟩

end Light

namespace Merkle

/-! ## Auxiliary facts on the proof operators -/

theorem consumeKey_ok_iff (index : Nat) (key : Bytes) (keys keys2 : List Bytes) :
    consumeKey index key keys = .ok keys2 ↔
      (key = [] ∧ keys2 = keys) ∨ (key ≠ [] ∧ keys = keys2 ++ [key]) := by
  unfold consumeKey
  by_cases hk : key = []
  · rw [if_pos hk]
    simp [hk, eq_comm]
  · rw [if_neg hk]
    rcases List.eq_nil_or_concat keys with hnil | ⟨front, lastKey, hcat⟩
    · subst hnil
      simp [hk]
    · subst hcat
      have hlast : (front.concat lastKey).getLast? = some lastKey := by simp
      rw [hlast]
      simp only [List.dropLast_concat]
      by_cases hl : lastKey = key
      · subst hl
        simp [hk, eq_comm]
      · simp [hk, hl]
        intro h
        have h2 := (List.append_inj' h rfl).2
        exact hl (List.cons.inj h2).1

theorem declaredKeys_cons (op : ProofOperator) (rest : List ProofOperator) :
    declaredKeys (op :: rest) =
      if op.GetKey = [] then declaredKeys rest else op.GetKey :: declaredKeys rest := by
  unfold declaredKeys
  by_cases h : op.GetKey = []
  · simp [h]
  · simp [h]

theorem not_nil_mem_declaredKeys (poz : List ProofOperator) : [] ∉ declaredKeys poz := by
  unfold declaredKeys
  simp

/-- When the loop of `Verify` succeeds, the segments it took are the non-empty keys the
operators declare, last operator first. -/
theorem runOperators_keys (poz : List ProofOperator) :
    ∀ (index : Nat) (keys args keys2 out : List Bytes),
      runOperators poz index keys args = .ok (keys2, out) →
      keys = keys2 ++ (declaredKeys poz).reverse := by
  induction poz with
  | nil =>
    intro index keys args keys2 out h
    simp only [runOperators, Except.ok.injEq, Prod.mk.injEq] at h
    simp [declaredKeys, h.1]
  | cons op rest ih =>
    intro index keys args keys2 out h
    unfold runOperators at h
    cases hc : consumeKey index op.GetKey keys with
    | error e => rw [hc] at h; simp at h
    | ok keys1 =>
      rw [hc] at h
      cases hr : op.Run args with
      | error e => rw [hr] at h; simp at h
      | ok out1 =>
        rw [hr] at h
        have hrest := ih (index + 1) keys1 out1 keys2 out h
        rw [declaredKeys_cons]
        rcases (consumeKey_ok_iff index op.GetKey keys keys1).mp hc with ⟨hk, hk1⟩ | ⟨hk, hk1⟩
        · rw [if_pos hk, ← hk1]
          exact hrest
        · rw [if_neg hk, hk1, hrest]
          simp

/-- When the loop of `Verify` succeeds, its output is that of running the operators in
list order, each on the output of the one before. -/
theorem runOperators_runAll (poz : List ProofOperator) :
    ∀ (index : Nat) (keys args keys2 out : List Bytes),
      runOperators poz index keys args = .ok (keys2, out) →
      runAll poz args = .ok out := by
  induction poz with
  | nil =>
    intro index keys args keys2 out h
    simp only [runOperators, Except.ok.injEq, Prod.mk.injEq] at h
    simp [runAll, h.2]
  | cons op rest ih =>
    intro index keys args keys2 out h
    unfold runOperators at h
    cases hc : consumeKey index op.GetKey keys with
    | error e => rw [hc] at h; simp at h
    | ok keys1 =>
      rw [hc] at h
      cases hr : op.Run args with
      | error e => rw [hr] at h; simp at h
      | ok out1 =>
        rw [hr] at h
        unfold runAll
        rw [hr]
        exact ih (index + 1) keys1 out1 keys2 out h

/-- The loop of `Verify` on keys that end with the declared keys, last operator
first: every key matches, and the result is that of running the operators. -/
theorem runOperators_of_keys (poz : List ProofOperator) :
    ∀ (index : Nat) (keys2 args : List Bytes),
      runOperators poz index (keys2 ++ (declaredKeys poz).reverse) args =
        match runAll poz args with
        | .error e => .error e
        | .ok out => .ok (keys2, out) := by
  induction poz with
  | nil =>
    intro index keys2 args
    simp [runOperators, runAll, declaredKeys]
  | cons op rest ih =>
    intro index keys2 args
    have hc : consumeKey index op.GetKey (keys2 ++ (declaredKeys (op :: rest)).reverse)
        = .ok (keys2 ++ (declaredKeys rest).reverse) := by
      rw [consumeKey_ok_iff, declaredKeys_cons]
      by_cases hk : op.GetKey = []
      · rw [if_pos hk]
        exact Or.inl ⟨hk, rfl⟩
      · rw [if_neg hk]
        exact Or.inr ⟨hk, by simp⟩
    unfold runOperators runAll
    rw [hc]
    cases hr : op.Run args with
    | error e => rfl
    | ok out1 => exact ih (index + 1) keys2 out1

/-- What it takes for `Verify` to return nil. -/
theorem Verify_eq_none_iff (poz : List ProofOperator) (root keypath : Bytes)
    (args : List Bytes) :
    ProofOperators.Verify poz root keypath args = none ↔
      ∃ keys out, KeyPathToKeys keypath = .ok keys ∧
        runOperators poz 0 keys args = .ok ([], out) ∧ out.head? = some root := by
  unfold ProofOperators.Verify
  cases hk : KeyPathToKeys keypath with
  | error e => simp
  | ok keys =>
    dsimp only
    constructor
    · intro h
      cases hr : runOperators poz 0 keys args with
      | error e => rw [hr] at h; simp at h
      | ok res =>
        obtain ⟨keys2, out⟩ := res
        rw [hr] at h
        dsimp only at h
        by_cases h1 : out.head? = some root
        · by_cases h2 : keys2 = []
          · subst h2
            exact ⟨keys, out, rfl, hr, h1⟩
          · simp [h1, h2] at h
        · simp [h1] at h
    · rintro ⟨keys1, out, hk1, hr, h1⟩
      have hkeys : keys = keys1 := Except.ok.inj hk1
      subst hkeys
      rw [hr]
      simp [h1]

/-- When `Verify` returns nil, the key path parses into exactly the non-empty keys the
operators declare, last operator first. -/
theorem Verify_nil_keys (poz : List ProofOperator) (root keypath : Bytes)
    (args : List Bytes) (h : ProofOperators.Verify poz root keypath args = none) :
    ∃ keys, KeyPathToKeys keypath = .ok keys ∧ keys.reverse = declaredKeys poz := by
  obtain ⟨keys, out, hk, hr, _⟩ := (Verify_eq_none_iff poz root keypath args).mp h
  refine ⟨keys, hk, ?_⟩
  have := runOperators_keys poz 0 keys args [] out hr
  rw [this]
  simp

theorem Verify_ne_none_of_KeyPathToKeys_error (poz : List ProofOperator)
    (root keypath : Bytes) (args : List Bytes) (e : Error)
    (h : KeyPathToKeys keypath = .error e) :
    ProofOperators.Verify poz root keypath args ≠ none := by
  unfold ProofOperators.Verify
  rw [h]
  simp

theorem splitSlash_ne_nil (xs : Bytes) : splitSlash xs ≠ [] := by
  cases xs with
  | nil => simp [splitSlash]
  | cons c cs =>
    unfold splitSlash
    by_cases hc : c = 47
    · simp [hc]
    · rw [if_neg hc]
      cases splitSlash cs <;> simp

theorem splitSlash_append_slash (xs : Bytes) :
    splitSlash (xs ++ [47]) = splitSlash xs ++ [[]] := by
  induction xs with
  | nil => simp [splitSlash]
  | cons c cs ih =>
    rw [List.cons_append]
    unfold splitSlash
    by_cases hc : c = 47
    · rw [if_pos hc, if_pos hc, ih]
      rfl
    · rw [if_neg hc, if_neg hc, ih]
      cases hs : splitSlash cs with
      | nil => exact absurd hs (splitSlash_ne_nil cs)
      | cons seg segs => rfl

theorem pathUnescape_nil : pathUnescape [] = some [] := by
  unfold pathUnescape
  rfl

theorem unescapeParts_length (parts : List Bytes) :
    ∀ (index : Nat) (keys : List Bytes),
      unescapeParts index parts = .ok keys → keys.length = parts.length := by
  induction parts with
  | nil =>
    intro index keys h
    simp only [unescapeParts, Except.ok.injEq] at h
    simp [← h]
  | cons part rest ih =>
    intro index keys h
    unfold unescapeParts at h
    cases hp : pathUnescape part with
    | none => rw [hp] at h; simp at h
    | some key =>
      rw [hp] at h
      cases hr : unescapeParts (index + 1) rest with
      | error e => rw [hr] at h; simp at h
      | ok keys1 =>
        rw [hr] at h
        simp only [Except.ok.injEq] at h
        rw [← h, List.length_cons, List.length_cons, ih (index + 1) keys1 hr]

theorem unescapeParts_nil_mem (parts : List Bytes) :
    ∀ (index : Nat) (keys : List Bytes),
      unescapeParts index parts = .ok keys → [] ∈ parts → [] ∈ keys := by
  induction parts with
  | nil =>
    intro index keys _ hmem
    simp at hmem
  | cons part rest ih =>
    intro index keys h hmem
    unfold unescapeParts at h
    cases hp : pathUnescape part with
    | none => rw [hp] at h; simp at h
    | some key =>
      rw [hp] at h
      cases hr : unescapeParts (index + 1) rest with
      | error e => rw [hr] at h; simp at h
      | ok keys1 =>
        rw [hr] at h
        simp only [Except.ok.injEq] at h
        rw [← h]
        rcases List.mem_cons.mp hmem with hhead | htail
        · rw [← hhead, pathUnescape_nil] at hp
          have hkey : key = [] := (Option.some.inj hp).symm
          rw [hkey]
          exact List.mem_cons_self _ _
        · exact List.mem_cons_of_mem _ (ih (index + 1) keys1 hr htail)

/-- A key path that parses has at least one segment. -/
theorem KeyPathToKeys_ne_nil (keypath : Bytes) (keys : List Bytes)
    (h : KeyPathToKeys keypath = .ok keys) : keys ≠ [] := by
  unfold KeyPathToKeys at h
  cases keypath with
  | nil => simp at h
  | cons c rest =>
    dsimp only at h
    by_cases hc : c = 47
    · rw [if_neg (not_not.mpr hc)] at h
      have hlen := unescapeParts_length _ _ _ h
      intro hnil
      rw [hnil] at hlen
      exact splitSlash_ne_nil rest (List.length_eq_zero.mp hlen.symm)
    · rw [if_pos hc] at h
      simp at h

/-- A key path that does not begin with a slash does not parse. -/
theorem KeyPathToKeys_error_of_no_slash (keypath : Bytes) (h : keypath.head? ≠ some 47) :
    KeyPathToKeys keypath = .error (.ErrKeyPathNoSlash keypath) := by
  unfold KeyPathToKeys
  cases keypath with
  | nil => rfl
  | cons c rest =>
    have hc : c ≠ 47 := by
      intro hc
      apply h
      simp [hc]
    dsimp only
    rw [if_pos hc]

/-- The keys of a key path that begins with a slash and has an empty piece after it
include the empty key. -/
theorem KeyPathToKeys_nil_mem (rest : Bytes) (keys : List Bytes)
    (h : KeyPathToKeys (47 :: rest) = .ok keys) (hmem : [] ∈ splitSlash rest) :
    [] ∈ keys := by
  unfold KeyPathToKeys at h
  dsimp only at h
  rw [if_neg (not_not.mpr rfl)] at h
  exact unescapeParts_nil_mem _ _ _ h hmem

/-- No operator list verifies against a key path one of whose segments decodes to the
empty key: no operator takes that segment. -/
theorem Verify_ne_none_of_nil_mem (poz : List ProofOperator) (root keypath : Bytes)
    (args : List Bytes) (keys : List Bytes) (hk : KeyPathToKeys keypath = .ok keys)
    (hmem : [] ∈ keys) : ProofOperators.Verify poz root keypath args ≠ none := by
  intro h
  obtain ⟨keys1, hk1, hrev⟩ := Verify_nil_keys poz root keypath args h
  rw [hk] at hk1
  have hkeys : keys = keys1 := Except.ok.inj hk1
  subst hkeys
  have : [] ∈ declaredKeys poz := by
    rw [← hrev]
    exact List.mem_reverse.mpr hmem
  exact not_nil_mem_declaredKeys poz this

theorem Verify_ne_none_of_double_slash (poz : List ProofOperator) (root rest : Bytes)
    (args : List Bytes) :
    ProofOperators.Verify poz root (47 :: 47 :: rest) args ≠ none := by
  cases hk : KeyPathToKeys (47 :: 47 :: rest) with
  | error e => exact Verify_ne_none_of_KeyPathToKeys_error poz root _ args e hk
  | ok keys =>
    refine Verify_ne_none_of_nil_mem poz root _ args keys hk
      (KeyPathToKeys_nil_mem (47 :: rest) keys hk ?_)
    unfold splitSlash
    simp

theorem Verify_ne_none_of_trailing_slash (poz : List ProofOperator) (root keypath : Bytes)
    (args : List Bytes) (hlast : keypath.getLast? = some 47) :
    ProofOperators.Verify poz root keypath args ≠ none := by
  cases hk : KeyPathToKeys keypath with
  | error e => exact Verify_ne_none_of_KeyPathToKeys_error poz root _ args e hk
  | ok keys =>
    cases keypath with
    | nil => simp at hlast
    | cons c rest =>
      by_cases hc : c = 47
      · subst hc
        refine Verify_ne_none_of_nil_mem poz root _ args keys hk
          (KeyPathToKeys_nil_mem rest keys hk ?_)
        rcases List.eq_nil_or_concat rest with hnil | ⟨front, b, hcat⟩
        · subst hnil
          simp [splitSlash]
        · subst hcat
          have hb : b = 47 := by
            have : (47 :: front.concat b).getLast? = some b := by
              rw [List.concat_eq_append, ← List.cons_append]
              exact List.getLast?_concat _
            rw [this] at hlast
            exact Option.some.inj hlast
          subst hb
          rw [List.concat_eq_append, splitSlash_append_slash]
          simp
      · have hhead : (c :: rest).head? ≠ some 47 := by simp [hc]
        rw [KeyPathToKeys_error_of_no_slash _ hhead] at hk
        simp at hk

theorem DominoOp_Run_single (dop : DominoOp) (x : Bytes) :
    dop.Run [x] = if x = dop.Input then .ok [dop.Output]
      else .error (.fmtErrorf "expected input %v, got %v" [dop.Input, x]) := by
  unfold DominoOp.Run
  by_cases h : x = dop.Input
  · simp [h]
  · simp [h]

/-- Running domino operators in order on one input succeeds exactly when they form a
chain from that input, and the output is then the end of the chain. -/
theorem runAll_domino (ops : List DominoOp) :
    ∀ (x : Bytes) (out : List Bytes),
      runAll (ops.map DominoOp.toProofOperator) [x] = .ok out ↔
        ∃ y, out = [y] ∧ DominoChain ops x y := by
  induction ops with
  | nil =>
    intro x out
    simp only [List.map_nil, runAll, Except.ok.injEq, DominoChain]
    constructor
    · intro h
      exact ⟨x, h.symm, rfl⟩
    · rintro ⟨y, hy, hxy⟩
      rw [hy, hxy]
  | cons dop rest ih =>
    intro x out
    simp only [List.map_cons, runAll, DominoChain]
    have hrun : dop.toProofOperator.Run [x] = dop.Run [x] := rfl
    rw [hrun, DominoOp_Run_single]
    by_cases hx : x = dop.Input
    · rw [if_pos hx]
      dsimp only
      rw [ih dop.Output out]
      constructor
      · rintro ⟨y, hy, hc⟩
        exact ⟨y, hy, hx, hc⟩
      · rintro ⟨y, hy, _, hc⟩
        exact ⟨y, hy, hc⟩
    · rw [if_neg hx]
      dsimp only
      constructor
      · intro h
        simp at h
      · rintro ⟨y, _, hx2, _⟩
        exact absurd hx2 hx

/-- For domino operators whose non-empty keys are the keys of the path, last operator
first, `Verify` on one input returns nil exactly when the operators form a chain from
the input to the root. -/
theorem Verify_domino_iff (ops : List DominoOp) (root keypath input : Bytes)
    (hpath : KeyPathToKeys keypath
      = .ok (declaredKeys (ops.map DominoOp.toProofOperator)).reverse) :
    ProofOperators.Verify (ops.map DominoOp.toProofOperator) root keypath [input] = none
      ↔ DominoChain ops input root := by
  rw [Verify_eq_none_iff]
  constructor
  · rintro ⟨keys, out, hk, hr, hroot⟩
    have hall := runOperators_runAll _ _ _ _ _ _ hr
    obtain ⟨y, hy, hchain⟩ := (runAll_domino ops input out).mp hall
    rw [hy] at hroot
    simp only [List.head?_cons, Option.some.injEq] at hroot
    rw [← hroot]
    exact hchain
  · intro hchain
    refine ⟨_, [root], hpath, ?_, rfl⟩
    have hall : runAll (ops.map DominoOp.toProofOperator) [input] = .ok [root] :=
      (runAll_domino ops input [root]).mpr ⟨root, rfl, hchain⟩
    have h := runOperators_of_keys (ops.map DominoOp.toProofOperator) 0 [] [input]
    rw [hall] at h
    simpa using h

/-! ## Auxiliary facts on the tree and the proofs -/

theorem splitPointLoop_spec (n : Nat) :
    ∀ (fuel k j : Nat), k = 2 ^ j → k < n → n - k ≤ fuel →
      ∃ j2, splitPointLoop fuel k n = 2 ^ j2 ∧ splitPointLoop fuel k n < n ∧
        n ≤ 2 * splitPointLoop fuel k n := by
  intro fuel
  induction fuel with
  | zero =>
    intro k j _ hlt hfuel
    omega
  | succ fuel ih =>
    intro k j hk hlt hfuel
    unfold splitPointLoop
    by_cases h2 : 2 * k < n
    · rw [if_pos h2]
      have hk2 : 2 * k = 2 ^ (j + 1) := by rw [hk, pow_succ]; ring
      have hpos : 0 < k := by rw [hk]; exact Nat.pow_pos (by decide)
      exact ih (2 * k) (j + 1) hk2 h2 (by omega)
    · rw [if_neg h2]
      exact ⟨j, hk, hlt, by omega⟩

/-- The split point of at least two leaves is a power of two, smaller than the number of
leaves and at least half of it. -/
theorem getSplitPoint_spec (n : Nat) (hn : 2 ≤ n) :
    ∃ j, getSplitPoint n = 2 ^ j ∧ getSplitPoint n < n ∧ n ≤ 2 * getSplitPoint n := by
  unfold getSplitPoint
  exact splitPointLoop_spec n n 1 0 rfl (by omega) (by omega)

theorem getSplitPoint_pos (n : Nat) (hn : 2 ≤ n) : 0 < getSplitPoint n := by
  obtain ⟨j, hj, _, _⟩ := getSplitPoint_spec n hn
  rw [hj]
  exact Nat.pow_pos (by decide)

/-- Both parts of a tree over at most `2 ^ (m + 1)` leaves have at most `2 ^ m`
leaves. -/
theorem getSplitPoint_le_pow (n m : Nat) (hn : 2 ≤ n) (hm : n ≤ 2 ^ (m + 1)) :
    getSplitPoint n ≤ 2 ^ m ∧ n - getSplitPoint n ≤ 2 ^ m := by
  obtain ⟨j, hj, hlt, hle⟩ := getSplitPoint_spec n hn
  have hjm : j < m + 1 := by
    by_contra hcon
    have : 2 ^ (m + 1) ≤ 2 ^ j := Nat.pow_le_pow_right (by decide) (by omega)
    omega
  have hk : getSplitPoint n ≤ 2 ^ m := by
    rw [hj]
    exact Nat.pow_le_pow_right (by decide) (by omega)
  exact ⟨hk, by omega⟩

theorem hashFromByteSlicesFuel_length (H : Bytes → Bytes)
    (hH : ∀ bs, (H bs).length = tmhashSize) (fuel : Nat) (items : List Bytes) :
    (hashFromByteSlicesFuel H fuel items).length = tmhashSize := by
  cases fuel with
  | zero => exact hH _
  | succ fuel =>
    unfold hashFromByteSlicesFuel
    split
    · exact hH _
    · exact hH _
    · exact hH _

theorem HashFromByteSlices_length (H : Bytes → Bytes)
    (hH : ∀ bs, (H bs).length = tmhashSize) (items : List Bytes) :
    (HashFromByteSlices H items).length = tmhashSize :=
  hashFromByteSlicesFuel_length H hH _ items

/-- The depth of the recursion does not change the root hash once it is at least the
number of items. -/
theorem hashFromByteSlicesFuel_eq (H : Bytes → Bytes) :
    ∀ (fuel1 fuel2 : Nat) (items : List Bytes),
      items.length ≤ fuel1 → items.length ≤ fuel2 →
      hashFromByteSlicesFuel H fuel1 items = hashFromByteSlicesFuel H fuel2 items := by
  intro fuel1
  induction fuel1 with
  | zero =>
    intro fuel2 items h1 _
    have hnil : items = [] := List.length_eq_zero.mp (Nat.le_zero.mp h1)
    subst hnil
    cases fuel2 <;> rfl
  | succ fuel1 ih =>
    intro fuel2 items h1 h2
    cases fuel2 with
    | zero =>
      have hnil : items = [] := List.length_eq_zero.mp (Nat.le_zero.mp h2)
      subst hnil
      rfl
    | succ fuel2 =>
      match items, h1, h2 with
      | [], _, _ => rfl
      | [_], _, _ => rfl
      | a :: b :: rest, h1, h2 =>
        have hn : 2 ≤ (a :: b :: rest).length := by simp
        obtain ⟨_, _, hlt, _⟩ := getSplitPoint_spec _ hn
        have hpos := getSplitPoint_pos _ hn
        have htake : ((a :: b :: rest).take (getSplitPoint (a :: b :: rest).length)).length
            ≤ fuel1 ∧ ((a :: b :: rest).take (getSplitPoint (a :: b :: rest).length)).length
            ≤ fuel2 := by
          rw [List.length_take]
          omega
        have hdrop : ((a :: b :: rest).drop (getSplitPoint (a :: b :: rest).length)).length
            ≤ fuel1 ∧ ((a :: b :: rest).drop (getSplitPoint (a :: b :: rest).length)).length
            ≤ fuel2 := by
          rw [List.length_drop]
          omega
        unfold hashFromByteSlicesFuel
        simp only
        rw [ih fuel2 _ htake.1 htake.2, ih fuel2 _ hdrop.1 hdrop.2]

theorem auntsFuel_all_length (H : Bytes → Bytes) (hH : ∀ bs, (H bs).length = tmhashSize) :
    ∀ (fuel : Nat) (items : List Bytes) (index : Nat),
      ∀ aunt ∈ auntsFuel H fuel items index, aunt.length = tmhashSize := by
  intro fuel
  induction fuel with
  | zero =>
    intro items index aunt hmem
    simp [auntsFuel] at hmem
  | succ fuel ih =>
    intro items index aunt hmem
    unfold auntsFuel at hmem
    by_cases h1 : items.length ≤ 1
    · rw [if_pos h1] at hmem
      simp at hmem
    · rw [if_neg h1] at hmem
      dsimp only at hmem
      by_cases h2 : index < getSplitPoint items.length
      · rw [if_pos h2] at hmem
        rcases List.mem_append.mp hmem with h | h
        · exact ih _ _ aunt h
        · rw [List.mem_singleton.mp h]
          exact HashFromByteSlices_length H hH _
      · rw [if_neg h2] at hmem
        rcases List.mem_append.mp hmem with h | h
        · exact ih _ _ aunt h
        · rw [List.mem_singleton.mp h]
          exact HashFromByteSlices_length H hH _

/-- A leaf of a tree over at most `2 ^ m` leaves has at most `m` aunts. -/
theorem auntsFuel_length_le (H : Bytes → Bytes) :
    ∀ (fuel m : Nat) (items : List Bytes) (index : Nat),
      items.length ≤ 2 ^ m → (auntsFuel H fuel items index).length ≤ m := by
  intro fuel
  induction fuel with
  | zero =>
    intro m items index _
    simp [auntsFuel]
  | succ fuel ih =>
    intro m items index hm
    unfold auntsFuel
    by_cases h1 : items.length ≤ 1
    · rw [if_pos h1]
      simp
    · rw [if_neg h1]
      dsimp only
      have hn : 2 ≤ items.length := by omega
      cases m with
      | zero =>
        simp at hm
        omega
      | succ m =>
        obtain ⟨hk, hnk⟩ := getSplitPoint_le_pow items.length m hn hm
        obtain ⟨_, _, hlt, _⟩ := getSplitPoint_spec _ hn
        by_cases h2 : index < getSplitPoint items.length
        · rw [if_pos h2, List.length_append, List.length_singleton]
          have := ih m (items.take (getSplitPoint items.length)) index
            (by rw [List.length_take]; omega)
          omega
        · rw [if_neg h2, List.length_append, List.length_singleton]
          have := ih m (items.drop (getSplitPoint items.length))
            (index - getSplitPoint items.length) (by rw [List.length_drop]; omega)
          omega

theorem validateAunts_eq_none_iff (aunts : List Bytes) :
    ∀ index : Nat, validateAunts index aunts = none ↔
      ∀ aunt ∈ aunts, aunt.length = tmhashSize := by
  induction aunts with
  | nil =>
    intro index
    simp [validateAunts]
  | cons aunt rest ih =>
    intro index
    unfold validateAunts
    by_cases h : aunt.length = tmhashSize
    · rw [if_neg (not_not.mpr h), ih (index + 1)]
      simp [h]
    · rw [if_pos h]
      simp [h]

/-- What it takes for `ValidateBasic` to return nil. -/
theorem ValidateBasic_eq_none_iff (sp : Proof) :
    sp.ValidateBasic = none ↔
      0 ≤ sp.Total ∧ 0 ≤ sp.Index ∧ sp.LeafHash.length = tmhashSize ∧
      sp.Aunts.length ≤ MaxAunts ∧ ∀ aunt ∈ sp.Aunts, aunt.length = tmhashSize := by
  unfold Proof.ValidateBasic
  by_cases h1 : sp.Total < 0
  · rw [if_pos h1]
    simp
    omega
  · rw [if_neg h1]
    by_cases h2 : sp.Index < 0
    · rw [if_pos h2]
      simp
      omega
    · rw [if_neg h2]
      by_cases h3 : sp.LeafHash.length = tmhashSize
      · rw [if_neg (not_not.mpr h3)]
        by_cases h4 : sp.Aunts.length > MaxAunts
        · rw [if_pos h4]
          simp
          omega
        · rw [if_neg h4, validateAunts_eq_none_iff]
          constructor
          · intro h5
            exact ⟨by omega, by omega, h3, by omega, h5⟩
          · intro h5
            exact h5.2.2.2.2
      · rw [if_pos h3]
        simp [h3]

theorem computeHashFromAuntsRev_total_zero (H : Bytes → Bytes) (index : Int)
    (leaf : Bytes) (auntsRev : List Bytes) :
    computeHashFromAuntsRev H index 0 leaf auntsRev
      = .error (.ErrInvalidIndexTotal index 0) := by
  unfold computeHashFromAuntsRev
  rw [if_pos (Or.inr (Or.inr (le_refl 0)))]

/-! ## The claims on the proof operators -/

/-- C13: `ProofOperators.Verify` runs the operators in list order, feeding each
operator's output to the next, and succeeds only if the last output equals the given
root. For a list of domino operators whose non-empty keys match the key path (last
operator first), `Verify(root, path, [input])` succeeds if and only if `input` equals
the first operator's `Input`, each operator's `Output` equals the next operator's
`Input`, and `root` equals the last operator's `Output`. On the operators of
`TestProofOperators` the good case succeeds, and a wrong input, a wrong or empty root,
a missing link and a reversed operator order fail. -/
theorem Verify_runs_operators_in_order :
    (∀ (poz : List ProofOperator) (root keypath : Bytes) (args : List Bytes),
      ProofOperators.Verify poz root keypath args = none →
      ∃ out, runAll poz args = .ok out ∧ out.head? = some root) ∧
    (∀ (ops : List DominoOp) (root keypath input : Bytes),
      KeyPathToKeys keypath
        = .ok (declaredKeys (ops.map DominoOp.toProofOperator)).reverse →
      (ProofOperators.Verify (ops.map DominoOp.toProofOperator) root keypath [input] = none
        ↔ DominoChain ops input root)) ∧
    ProofOperators.Verify popz (bz "OUTPUT4") (bz "/KEY4/KEY2/KEY1") [bz "INPUT1"]
      = none ∧
    ProofOperators.VerifyValue popz (bz "OUTPUT4") (bz "/KEY4/KEY2/KEY1") (bz "INPUT1")
      = none ∧
    ProofOperators.Verify popz (bz "OUTPUT4") (bz "/KEY4/KEY2/KEY1") [bz "INPUT1_WRONG"]
      ≠ none ∧
    ProofOperators.Verify popz (bz "OUTPUT4_WRONG") (bz "/KEY4/KEY2/KEY1") [bz "INPUT1"]
      ≠ none ∧
    ProofOperators.Verify popz (bz "") (bz "/KEY4/KEY2/KEY1") [bz "INPUT1"] ≠ none ∧
    ProofOperators.Verify [op1.toProofOperator, op2.toProofOperator, op4.toProofOperator]
      (bz "OUTPUT4") (bz "/KEY4/KEY2/KEY1") [bz "INPUT1"] ≠ none ∧
    ProofOperators.Verify
      [op4.toProofOperator, op3.toProofOperator, op2.toProofOperator, op1.toProofOperator]
      (bz "OUTPUT4") (bz "/KEY4/KEY2/KEY1") [bz "INPUT1"] ≠ none := by
  refine ⟨?_, ?_, by decide, by decide, by decide, by decide, by decide, by decide,
    by decide⟩
  · intro poz root keypath args h
    obtain ⟨keys, out, _, hr, hroot⟩ := (Verify_eq_none_iff poz root keypath args).mp h
    exact ⟨out, runOperators_runAll poz 0 keys args [] out hr, hroot⟩
  · intro ops root keypath input hpath
    exact Verify_domino_iff ops root keypath input hpath

/-- Instance of C13: the four operators of `TestProofOperators` declare the keys of the
path `/KEY4/KEY2/KEY1`, last operator first, and form a chain from `INPUT1` to
`OUTPUT4`; `Verify` returns nil and the output of the run begins with the root. -/
theorem Verify_runs_operators_in_order_witness :
    (KeyPathToKeys (bz "/KEY4/KEY2/KEY1")
        = .ok (declaredKeys ([op1, op2, op3, op4].map DominoOp.toProofOperator)).reverse ∧
      DominoChain [op1, op2, op3, op4] (bz "INPUT1") (bz "OUTPUT4") ∧
      ProofOperators.Verify ([op1, op2, op3, op4].map DominoOp.toProofOperator)
        (bz "OUTPUT4") (bz "/KEY4/KEY2/KEY1") [bz "INPUT1"] = none) ∧
    ∃ out, runAll popz [bz "INPUT1"] = .ok out ∧ out.head? = some (bz "OUTPUT4") :=
  ⟨⟨by decide, ⟨rfl, rfl, rfl, rfl, rfl⟩,
    (Verify_runs_operators_in_order.2.1 [op1, op2, op3, op4] (bz "OUTPUT4")
      (bz "/KEY4/KEY2/KEY1") (bz "INPUT1") (by decide)).mpr ⟨rfl, rfl, rfl, rfl, rfl⟩⟩,
   Verify_runs_operators_in_order.1 popz (bz "OUTPUT4") (bz "/KEY4/KEY2/KEY1")
      [bz "INPUT1"] (by decide)⟩

/-- C14: for every operator list, root and input, `ProofOperators.Verify` fails when the
key path does not begin with `/` (as `KEY4/KEY2/KEY1`), ends with an extraneous
trailing `/` (as `/KEY4/KEY2/KEY1/`), or begins with `//` (as `//KEY4/KEY2/KEY1`). -/
theorem Verify_fails_on_malformed_key_path (poz : List ProofOperator) (root : Bytes)
    (args : List Bytes) :
    (∀ keypath : Bytes, keypath.head? ≠ some 47 →
      ProofOperators.Verify poz root keypath args ≠ none) ∧
    (∀ keypath : Bytes, keypath.getLast? = some 47 →
      ProofOperators.Verify poz root keypath args ≠ none) ∧
    (∀ rest : Bytes, ProofOperators.Verify poz root (47 :: 47 :: rest) args ≠ none) ∧
    ProofOperators.Verify poz root (bz "KEY4/KEY2/KEY1") args ≠ none ∧
    ProofOperators.Verify poz root (bz "/KEY4/KEY2/KEY1/") args ≠ none ∧
    ProofOperators.Verify poz root (bz "//KEY4/KEY2/KEY1") args ≠ none := by
  have h1 : ∀ keypath : Bytes, keypath.head? ≠ some 47 →
      ProofOperators.Verify poz root keypath args ≠ none := fun keypath h =>
    Verify_ne_none_of_KeyPathToKeys_error poz root keypath args _
      (KeyPathToKeys_error_of_no_slash keypath h)
  have h2 : ∀ keypath : Bytes, keypath.getLast? = some 47 →
      ProofOperators.Verify poz root keypath args ≠ none := fun keypath h =>
    Verify_ne_none_of_trailing_slash poz root keypath args h
  have h3 : ∀ rest : Bytes,
      ProofOperators.Verify poz root (47 :: 47 :: rest) args ≠ none := fun rest =>
    Verify_ne_none_of_double_slash poz root rest args
  exact ⟨h1, h2, h3, h1 _ (by decide), h2 _ (by decide), h3 (bz "KEY4/KEY2/KEY1")⟩

/-- Instance of C14 on the operators of `TestProofOperators`: the three malformed key
paths of the test are rejected. -/
theorem Verify_fails_on_malformed_key_path_witness :
    ((bz "KEY4/KEY2/KEY1").head? ≠ some 47 ∧
      ProofOperators.Verify popz (bz "OUTPUT4") (bz "KEY4/KEY2/KEY1") [bz "INPUT1"]
        ≠ none) ∧
    ((bz "/KEY4/KEY2/KEY1/").getLast? = some 47 ∧
      ProofOperators.Verify popz (bz "OUTPUT4") (bz "/KEY4/KEY2/KEY1/") [bz "INPUT1"]
        ≠ none) :=
  ⟨⟨by decide,
    (Verify_fails_on_malformed_key_path popz (bz "OUTPUT4") [bz "INPUT1"]).1 _
      (by decide)⟩,
   ⟨by decide,
    (Verify_fails_on_malformed_key_path popz (bz "OUTPUT4") [bz "INPUT1"]).2.1 _
      (by decide)⟩⟩

/-- C15 as stated fails: the four operators of `TestProofOperators` verify against the
key path `/KEY4/KEY2/KEY1`, which has three segments: the operator with the empty key
takes no segment. -/
theorem Verify_segment_count_counterexample :
    ¬ (∀ (poz : List ProofOperator) (root keypath : Bytes) (args keys : List Bytes),
        KeyPathToKeys keypath = .ok keys → keys.length ≠ poz.length →
        ProofOperators.Verify poz root keypath args ≠ none) :=
  fun h => h popz (bz "OUTPUT4") (bz "/KEY4/KEY2/KEY1") [bz "INPUT1"]
    [bz "KEY4", bz "KEY2", bz "KEY1"] (by decide) (by decide) (by decide)

/-- C15, amended: `ProofOperators.Verify` fails whenever the number of key segments in
the key path does not match the number of operators in the list that declare a non-empty
key, and whenever a key segment differs from the key declared by the operator at the
corresponding position, the segments being matched from the last operator that
declares a key to the first. -/
theorem Verify_fails_on_key_mismatch (poz : List ProofOperator) (root keypath : Bytes)
    (args keys : List Bytes) (hpath : KeyPathToKeys keypath = .ok keys) :
    (keys.length ≠ (declaredKeys poz).length →
      ProofOperators.Verify poz root keypath args ≠ none) ∧
    ((∃ j : Nat, keys.reverse[j]? ≠ (declaredKeys poz)[j]?) →
      ProofOperators.Verify poz root keypath args ≠ none) := by
  have key : ProofOperators.Verify poz root keypath args = none →
      keys.reverse = declaredKeys poz := by
    intro h
    obtain ⟨keys1, hk1, hrev⟩ := Verify_nil_keys poz root keypath args h
    rw [hpath] at hk1
    rw [Except.ok.inj hk1]
    exact hrev
  constructor
  · intro hlen h
    apply hlen
    rw [← key h, List.length_reverse]
  · rintro ⟨j, hj⟩ h
    apply hj
    rw [key h]

/-- Instance of C15, amended, on the operators of `TestProofOperators`: the path
`/KEY2/KEY1` has two segments for three declared keys, and the path `/KEY3/KEY2/KEY1`
differs from the declared keys in the segment of the last operator. -/
theorem Verify_fails_on_key_mismatch_witness :
    ProofOperators.Verify popz (bz "OUTPUT4") (bz "/KEY2/KEY1") [bz "INPUT1"] ≠ none ∧
    ProofOperators.Verify popz (bz "OUTPUT4") (bz "/KEY3/KEY2/KEY1") [bz "INPUT1"]
      ≠ none :=
  ⟨(Verify_fails_on_key_mismatch popz (bz "OUTPUT4") (bz "/KEY2/KEY1") [bz "INPUT1"]
      [bz "KEY2", bz "KEY1"] (by decide)).1 (by decide),
   (Verify_fails_on_key_mismatch popz (bz "OUTPUT4") (bz "/KEY3/KEY2/KEY1") [bz "INPUT1"]
      [bz "KEY3", bz "KEY2", bz "KEY1"] (by decide)).2 ⟨2, by decide⟩⟩

/-- C16: `ProofOperators.Verify` on an empty operator list returns an error for every
root, key path and input list. -/
theorem Verify_empty_operator_list_fails (root keypath : Bytes) (args : List Bytes) :
    ProofOperators.Verify [] root keypath args ≠ none := by
  intro h
  obtain ⟨keys, hk, hrev⟩ := Verify_nil_keys [] root keypath args h
  have hne := KeyPathToKeys_ne_nil keypath keys hk
  apply hne
  have : keys.reverse = [] := by
    rw [hrev]
    rfl
  exact List.reverse_eq_nil_iff.mp this

/-- The depth of the recursion does not change the aunts once it is at least the number
of items. -/
theorem auntsFuel_eq (H : Bytes → Bytes) :
    ∀ (fuel1 fuel2 : Nat) (items : List Bytes) (index : Nat),
      items.length ≤ fuel1 → items.length ≤ fuel2 →
      auntsFuel H fuel1 items index = auntsFuel H fuel2 items index := by
  intro fuel1
  induction fuel1 with
  | zero =>
    intro fuel2 items index h1 _
    have hnil : items = [] := List.length_eq_zero.mp (Nat.le_zero.mp h1)
    subst hnil
    cases fuel2 <;> simp [auntsFuel]
  | succ fuel1 ih =>
    intro fuel2 items index h1 h2
    cases fuel2 with
    | zero =>
      have hnil : items = [] := List.length_eq_zero.mp (Nat.le_zero.mp h2)
      subst hnil
      simp [auntsFuel]
    | succ fuel2 =>
      unfold auntsFuel
      by_cases hle : items.length ≤ 1
      · rw [if_pos hle, if_pos hle]
      · rw [if_neg hle, if_neg hle]
        dsimp only
        have hn : 2 ≤ items.length := by omega
        obtain ⟨_, _, hlt, _⟩ := getSplitPoint_spec _ hn
        have hpos := getSplitPoint_pos _ hn
        rw [ih fuel2 (items.take (getSplitPoint items.length)) index
            (by rw [List.length_take]; omega) (by rw [List.length_take]; omega),
          ih fuel2 (items.drop (getSplitPoint items.length))
            (index - getSplitPoint items.length)
            (by rw [List.length_drop]; omega) (by rw [List.length_drop]; omega)]

/-- The value operator whose proof has total zero fails on every input. -/
theorem ValueOp_Run_total_zero (H : Bytes → Bytes) (key leaf : Bytes) (aunts : List Bytes)
    (index : Int) (args : List Bytes) :
    ∃ e, (NewValueOp key { Total := 0, Index := index, LeafHash := leaf, Aunts := aunts }).Run
      H args = .error e := by
  unfold ValueOp.Run NewValueOp
  match args with
  | [] => exact ⟨_, rfl⟩
  | _ :: _ :: _ => exact ⟨_, rfl⟩
  | [value] =>
    dsimp only
    by_cases h : kvLeafHash H key value ≠ leaf
    · rw [if_pos h]
      exact ⟨_, rfl⟩
    · rw [if_neg h]
      unfold Proof.computeRootHash
      dsimp only
      rw [computeHashFromAuntsRev_total_zero]
      exact ⟨_, rfl⟩

/-- The root computed from the aunts of a leaf is the root of the tree: the proof of
every leaf verifies against the root hash. -/
theorem computeHashFromAuntsRev_auntsFuel (H : Bytes → Bytes) :
    ∀ (fuel : Nat) (items : List Bytes) (index : Nat),
      items.length ≤ fuel → index < items.length →
      computeHashFromAuntsRev H (Int.ofNat index) (Int.ofNat items.length)
          (leafHash H (items.getD index [])) (auntsFuel H fuel items index).reverse
        = .ok (hashFromByteSlicesFuel H fuel items) := by
  intro fuel
  induction fuel with
  | zero =>
    intro items index h1 h2
    omega
  | succ fuel ih =>
    intro items index hfuel hidx
    match items, hfuel, hidx with
    | [], _, hidx => simp at hidx
    | [x], _, hidx =>
      have h0 : index = 0 := by simpa using hidx
      subst h0
      unfold computeHashFromAuntsRev auntsFuel hashFromByteSlicesFuel
      simp
    | a :: b :: rest, hfuel, hidx =>
      have hn : 2 ≤ (a :: b :: rest).length := by simp
      obtain ⟨_, _, hlt, _⟩ := getSplitPoint_spec _ hn
      have hpos := getSplitPoint_pos _ hn
      generalize hitems : a :: b :: rest = items at *
      generalize hk : getSplitPoint items.length = k at *
      have hcond : ¬ (Int.ofNat index ≥ Int.ofNat items.length ∨ Int.ofNat index < 0 ∨
          Int.ofNat items.length ≤ 0) := by
        simp only [Int.ofNat_eq_coe]
        omega
      have hne1 : ¬ (Int.ofNat items.length = 1) := by
        simp only [Int.ofNat_eq_coe]
        omega
      have hfuelRoot : hashFromByteSlicesFuel H (fuel + 1) items
          = innerHash H (hashFromByteSlicesFuel H fuel (items.take k))
              (hashFromByteSlicesFuel H fuel (items.drop k)) := by
        rw [← hitems, ← hk, ← hitems]
        rfl
      have htake : (items.take k).length = k := by
        rw [List.length_take]; omega
      have hdrop : (items.drop k).length = items.length - k := List.length_drop _ _
      rw [hfuelRoot]
      unfold auntsFuel
      rw [if_neg (by omega)]
      dsimp only
      rw [hk]
      by_cases hik : index < k
      · rw [if_pos hik, List.reverse_append, List.reverse_singleton, List.singleton_append]
        unfold computeHashFromAuntsRev
        rw [if_neg hcond, if_neg hne1]
        dsimp only
        have hsplit : getSplitPoint (Int.ofNat items.length).toNat = k := by
          simpa using hk
        rw [hsplit]
        have hlt2 : Int.ofNat index < (k : Int) := by
          simp only [Int.ofNat_eq_coe]; omega
        rw [if_pos hlt2]
        have hih := ih (items.take k) index (by omega) (by omega)
        rw [htake] at hih
        have hget : (items.take k).getD index [] = items.getD index [] := by
          simp [List.getD_eq_getElem?_getD, List.getElem?_take, hik]
        rw [hget] at hih
        have hih2 : computeHashFromAuntsRev H (Int.ofNat index) (k : Int)
            (leafHash H (items.getD index [])) (auntsFuel H fuel (items.take k) index).reverse
            = .ok (hashFromByteSlicesFuel H fuel (items.take k)) := hih
        rw [hih2]
        dsimp only
        have hright : HashFromByteSlices H (items.drop k)
            = hashFromByteSlicesFuel H fuel (items.drop k) :=
          hashFromByteSlicesFuel_eq H _ _ _ (le_refl _) (by omega)
        rw [hright]
      · rw [if_neg hik, List.reverse_append, List.reverse_singleton, List.singleton_append]
        unfold computeHashFromAuntsRev
        rw [if_neg hcond, if_neg hne1]
        dsimp only
        have hsplit : getSplitPoint (Int.ofNat items.length).toNat = k := by
          simpa using hk
        rw [hsplit]
        have hlt2 : ¬ Int.ofNat index < (k : Int) := by
          simp only [Int.ofNat_eq_coe]; omega
        rw [if_neg hlt2]
        have hih := ih (items.drop k) (index - k) (by omega) (by omega)
        rw [hdrop] at hih
        have hget : (items.drop k).getD (index - k) [] = items.getD index [] := by
          simp only [List.getD_eq_getElem?_getD, List.getElem?_drop]
          congr 2
          omega
        rw [hget] at hih
        have hi1 : Int.ofNat index - (k : Int) = Int.ofNat (index - k) := by
          simp only [Int.ofNat_eq_coe]; omega
        have hi2 : Int.ofNat items.length - (k : Int) = Int.ofNat (items.length - k) := by
          simp only [Int.ofNat_eq_coe]; omega
        rw [hi1, hi2, hih]
        dsimp only
        have hleft : HashFromByteSlices H (items.take k)
            = hashFromByteSlicesFuel H fuel (items.take k) :=
          hashFromByteSlicesFuel_eq H _ _ _ (le_refl _) (by omega)
        rw [hleft]

/-- Every proof returned by `ProofsFromByteSlices` computes the root hash returned with
it. -/
theorem ProofsFromByteSlices_computeRootHash (H : Bytes → Bytes) (items : List Bytes) :
    ∀ sp ∈ (ProofsFromByteSlices H items).2,
      sp.computeRootHash H = .ok (ProofsFromByteSlices H items).1 := by
  intro sp hsp
  unfold ProofsFromByteSlices at hsp
  obtain ⟨i, hi, hsp2⟩ := List.mem_map.mp hsp
  rw [← hsp2]
  unfold Proof.computeRootHash ProofsFromByteSlices HashFromByteSlices
  exact computeHashFromAuntsRev_auntsFuel H items.length items i (le_refl _)
    (List.mem_range.mp hi)

/-! ## The claims on the proofs -/

/-- C17 (VSA-2022-100): for every key and value, a `ValueOp` built from the key and a
proof that carries only `LeafHash = H(0x00 || enc(key) || enc(H(value)))` (total 0, no
aunts) does not verify: `ProofOperators{op}.Verify(root, "/" + key, [value])` returns an
error for every root, in particular for the nil and the empty root. -/
theorem Verify_forged_ValueOp_fails (H : Bytes → Bytes) (key value root : Bytes) :
    ProofOperators.Verify
      [(NewValueOp key { LeafHash := kvLeafHash H key value }).toProofOperator H]
      root (47 :: key) [value] ≠ none ∧
    (root.length = 0 →
      ProofOperators.Verify
        [(NewValueOp key { LeafHash := kvLeafHash H key value }).toProofOperator H]
        root (47 :: key) [value] ≠ none) := by
  have main : ∀ r : Bytes, ProofOperators.Verify
      [(NewValueOp key { LeafHash := kvLeafHash H key value }).toProofOperator H]
      r (47 :: key) [value] ≠ none := by
    intro r h
    obtain ⟨keys, out, _, hr, _⟩ := (Verify_eq_none_iff _ _ _ _).mp h
    have hall := runOperators_runAll _ _ _ _ _ _ hr
    unfold runAll at hall
    obtain ⟨e, he⟩ := ValueOp_Run_total_zero H key (kvLeafHash H key value) [] 0 [value]
    have hrun : ((NewValueOp key { LeafHash := kvLeafHash H key value }).toProofOperator
        H).Run [value] = .error e := he
    rw [hrun] at hall
    simp at hall
  exact ⟨main root, fun _ => main root⟩

/-- Instance of C17 with the key `0x13` and the value `0x37` of `TestVsa2022_100`, the
nil root and the sample hash. -/
theorem Verify_forged_ValueOp_fails_witness :
    ProofOperators.Verify
      [(NewValueOp [0x13] { LeafHash := kvLeafHash sampleHash [0x13] [0x37] }).toProofOperator
        sampleHash]
      [] (47 :: [0x13]) [[0x37]] ≠ none :=
  (Verify_forged_ValueOp_fails sampleHash [0x13] [0x37] []).2 rfl

/-- C18: `Proof.ValidateBasic` returns an error for every proof with a negative `Total`,
a negative `Index`, a `LeafHash` whose length is not 32, more than 100 aunts
(`MaxAunts`), or an aunt whose length is not 32; and every proof returned by
`ProofsFromByteSlices` for a non-empty list of leaves passes `ValidateBasic` (the hash
has 32-byte digests, and the list, as every Go slice, has at most `2 ^ 100` items). -/
theorem ValidateBasic_rejects_and_accepts :
    (∀ sp : Proof,
      (sp.Total < 0 ∨ sp.Index < 0 ∨ sp.LeafHash.length ≠ 32 ∨ sp.Aunts.length > 100 ∨
        ∃ aunt ∈ sp.Aunts, aunt.length ≠ 32) →
      sp.ValidateBasic ≠ none) ∧
    (∀ (H : Bytes → Bytes) (items : List Bytes),
      (∀ bs, (H bs).length = 32) → items ≠ [] → items.length ≤ 2 ^ 100 →
      (ProofsFromByteSlices H items).2.length = items.length ∧
      ∀ sp ∈ (ProofsFromByteSlices H items).2, sp.ValidateBasic = none) := by
  constructor
  · intro sp hbad h
    obtain ⟨h1, h2, h3, h4, h5⟩ := (ValidateBasic_eq_none_iff sp).mp h
    unfold tmhashSize at h3 h5
    unfold MaxAunts at h4
    rcases hbad with hb | hb | hb | hb | ⟨aunt, hmem, hb⟩
    · omega
    · omega
    · exact hb h3
    · omega
    · exact hb (h5 aunt hmem)
  · intro H items hH _ hlen
    constructor
    · simp [ProofsFromByteSlices]
    · intro sp hsp
      unfold ProofsFromByteSlices at hsp
      obtain ⟨i, _, hi⟩ := List.mem_map.mp hsp
      rw [ValidateBasic_eq_none_iff, ← hi]
      refine ⟨Int.ofNat_nonneg _, Int.ofNat_nonneg _, hH _, ?_, ?_⟩
      · exact auntsFuel_length_le H items.length 100 items i hlen
      · exact auntsFuel_all_length H hH items.length items i

/-- Instance of C18: the first proof of the leaves of `TestProofValidateBasic` passes,
and fails once its total is -1, its index is -1, its leaf hash has 10 bytes, it has 101
aunts, or its first aunt has 10 bytes. -/
theorem ValidateBasic_rejects_and_accepts_witness :
    (∀ sp ∈ (ProofsFromByteSlices sampleHash sampleLeaves).2, sp.ValidateBasic = none) ∧
    sampleProof.ValidateBasic = none ∧
    ({ sampleProof with Total := -1 } : Proof).ValidateBasic ≠ none ∧
    ({ sampleProof with Index := -1 } : Proof).ValidateBasic ≠ none ∧
    ({ sampleProof with LeafHash := List.replicate 10 0 } : Proof).ValidateBasic ≠ none ∧
    ({ sampleProof with Aunts := List.replicate 101 [] } : Proof).ValidateBasic ≠ none ∧
    ({ sampleProof with Aunts := [List.replicate 10 0] } : Proof).ValidateBasic ≠ none :=
  ⟨(ValidateBasic_rejects_and_accepts.2 sampleHash sampleLeaves
      (fun bs => by simp [sampleHash]) (by decide) (by decide)).2,
   (ValidateBasic_rejects_and_accepts.2 sampleHash sampleLeaves
      (fun bs => by simp [sampleHash]) (by decide) (by decide)).2 sampleProof (by decide),
   ValidateBasic_rejects_and_accepts.1 _ (Or.inl (by decide)),
   ValidateBasic_rejects_and_accepts.1 _ (Or.inr (Or.inl (by decide))),
   ValidateBasic_rejects_and_accepts.1 _ (Or.inr (Or.inr (Or.inl (by decide)))),
   ValidateBasic_rejects_and_accepts.1 _
     (Or.inr (Or.inr (Or.inr (Or.inl (by decide))))),
   ValidateBasic_rejects_and_accepts.1 _
     (Or.inr (Or.inr (Or.inr (Or.inr ⟨List.replicate 10 0, by decide, by decide⟩))))⟩

end Merkle

namespace Ed25519

/-! ## The claims on the Ed25519 keys -/

theorem copy_of_length_eq (dst src : Bytes) (h : src.length = dst.length) :
    copy dst src = src := by
  unfold copy
  rw [← h, List.take_length, h, List.drop_length, List.append_nil]

theorem any_ne_zero_eq_false_iff (bs : Bytes) :
    (bs.any (fun v => decide (v ≠ 0))) = false ↔ ∀ v ∈ bs, v = 0 := by
  simp [List.any_eq_false]

/-- C19: for every Ed25519 public key of exactly 32 bytes, `PubKey.Address` returns
exactly 20 bytes, equal to the first 20 bytes of the SHA-256 digest of the raw key
bytes (SHA-256 gives 32 bytes); for a key of any other length `Address` panics instead
of returning an address. -/
theorem PubKey_Address_spec (sha256 : Bytes → Bytes)
    (hsha : ∀ bs, (sha256 bs).length = 32) (pubKey : Bytes) :
    (pubKey.length = 32 →
      PubKey.Address sha256 pubKey = .ok ((sha256 pubKey).take 20) ∧
      ((sha256 pubKey).take 20).length = 20) ∧
    (pubKey.length ≠ 32 →
      PubKey.Address sha256 pubKey = .error (.message "pubkey is incorrect size")) := by
  constructor
  · intro h
    constructor
    · unfold PubKey.Address PubKeySize
      rw [if_neg (not_not.mpr h)]
      rfl
    · rw [List.length_take, hsha]
      rfl
  · intro h
    unfold PubKey.Address PubKeySize
    rw [if_pos h]

/-- Instance of C19: the address of the sample key of 32 bytes has 20 bytes, and a key of
31 bytes makes `Address` panic. -/
theorem PubKey_Address_spec_witness :
    (samplePubKey.length = 32 ∧
      PubKey.Address sampleSha256 samplePubKey
        = .ok ((sampleSha256 samplePubKey).take 20) ∧
      ((sampleSha256 samplePubKey).take 20).length = 20) ∧
    ((List.range 31).length ≠ 32 ∧
      PubKey.Address sampleSha256 (List.range 31)
        = .error (.message "pubkey is incorrect size")) :=
  ⟨⟨by decide,
    (PubKey_Address_spec sampleSha256 (fun bs => by simp [sampleSha256]) samplePubKey).1
      (by decide)⟩,
   ⟨by decide,
    (PubKey_Address_spec sampleSha256 (fun bs => by simp [sampleSha256])
      (List.range 31)).2 (by decide)⟩⟩

/-- C20: for every 64-byte Ed25519 private key whose last 32 bytes are not all zero,
`PrivKey.PubKey` returns a public key of exactly 32 bytes equal to bytes 32..63 of the
private key; when every byte from offset 32 on is zero (an uninitialized key) it panics
rather than returning a key. -/
theorem PrivKey_PubKey_spec (privKey : Bytes) :
    (privKey.length = 64 → (∃ v ∈ privKey.drop 32, v ≠ 0) →
      PrivKey.PubKey privKey = .ok (privKey.drop 32) ∧
      (privKey.drop 32).length = 32 ∧
      ∀ i : Nat, i < 32 → (privKey.drop 32)[i]? = privKey[32 + i]?) ∧
    ((∀ v ∈ privKey.drop 32, v = 0) → ∃ p : Panic, PrivKey.PubKey privKey = .error p) := by
  constructor
  · intro hlen hex
    have hdrop : (privKey.drop 32).length = 32 := by
      rw [List.length_drop, hlen]
    refine ⟨?_, hdrop, fun i _ => ?_⟩
    · unfold PrivKey.PubKey
      rw [if_neg (by omega)]
      have hinit : ((privKey.drop 32).any (fun v => decide (v ≠ 0))) = true := by
        cases hany : (privKey.drop 32).any (fun v => decide (v ≠ 0)) with
        | true => rfl
        | false =>
          obtain ⟨v, hv, hne⟩ := hex
          exact absurd ((any_ne_zero_eq_false_iff _).mp hany v hv) hne
      dsimp only
      rw [hinit]
      simp only [Bool.not_true, Bool.false_eq_true, if_false]
      rw [copy_of_length_eq]
      rw [hdrop]
      simp [PubKeySize]
    · rw [List.getElem?_drop]
  · intro hzero
    unfold PrivKey.PubKey
    by_cases hlen : privKey.length < 32
    · rw [if_pos hlen]
      exact ⟨_, rfl⟩
    · rw [if_neg hlen]
      dsimp only
      rw [(any_ne_zero_eq_false_iff _).mpr hzero]
      exact ⟨_, rfl⟩

/-- Instance of C20: the public key of the sample private key is its second half, and
the private key whose second half is zero makes `PubKey` panic. -/
theorem PrivKey_PubKey_spec_witness :
    (samplePrivKey.length = 64 ∧ (∃ v ∈ samplePrivKey.drop 32, v ≠ 0) ∧
      PrivKey.PubKey samplePrivKey = .ok samplePubKey) ∧
    ((∀ v ∈ sampleUninitializedPrivKey.drop 32, v = 0) ∧
      ∃ p : Panic, PrivKey.PubKey sampleUninitializedPrivKey = .error p) :=
  ⟨⟨by decide, by decide,
    ((PrivKey_PubKey_spec samplePrivKey).1 (by decide) (by decide)).1⟩,
   ⟨by decide, (PrivKey_PubKey_spec sampleUninitializedPrivKey).2 (by decide)⟩⟩

end Ed25519

namespace Light

/-- The cause `verifyNewHeaderAndVals` returns, check by check. -/
theorem verifyNewHeaderAndVals_cause (T : TypesAPI) (untrustedHeader : SignedHeader)
    (untrustedVals : ValidatorSet) (trustedHeader : SignedHeader) (now : Time)
    (maxClockDrift : Duration) :
    (∀ e : TypesError,
      T.SignedHeaderValidateBasic untrustedHeader trustedHeader.ChainID = some e →
      verifyNewHeaderAndVals T untrustedHeader untrustedVals trustedHeader now maxClockDrift
        = some (.ErrHeaderValidateBasic e)) ∧
    (T.SignedHeaderValidateBasic untrustedHeader trustedHeader.ChainID = none →
      untrustedHeader.Height ≤ trustedHeader.Height →
      verifyNewHeaderAndVals T untrustedHeader untrustedVals trustedHeader now maxClockDrift
        = some (.ErrHeaderHeightNotMonotonic untrustedHeader.Height trustedHeader.Height)) ∧
    (T.SignedHeaderValidateBasic untrustedHeader trustedHeader.ChainID = none →
      trustedHeader.Height < untrustedHeader.Height →
      untrustedHeader.Time.unixNano ≤ trustedHeader.Time.unixNano →
      verifyNewHeaderAndVals T untrustedHeader untrustedVals trustedHeader now maxClockDrift
        = some (.ErrHeaderTimeNotMonotonic untrustedHeader.Time trustedHeader.Time)) ∧
    (T.SignedHeaderValidateBasic untrustedHeader trustedHeader.ChainID = none →
      trustedHeader.Height < untrustedHeader.Height →
      trustedHeader.Time.unixNano < untrustedHeader.Time.unixNano →
      (now.Add maxClockDrift).unixNano ≤ untrustedHeader.Time.unixNano →
      verifyNewHeaderAndVals T untrustedHeader untrustedVals trustedHeader now maxClockDrift
        = some (.ErrHeaderTimeExceedMaxClockDrift untrustedHeader.Time now maxClockDrift)) ∧
    (T.SignedHeaderValidateBasic untrustedHeader trustedHeader.ChainID = none →
      trustedHeader.Height < untrustedHeader.Height →
      trustedHeader.Time.unixNano < untrustedHeader.Time.unixNano →
      untrustedHeader.Time.unixNano < (now.Add maxClockDrift).unixNano →
      untrustedHeader.ValidatorsHash ≠ T.ValidatorSetHash untrustedVals →
      verifyNewHeaderAndVals T untrustedHeader untrustedVals trustedHeader now maxClockDrift
        = some (.ErrValidatorsMismatch untrustedHeader.ValidatorsHash
            (T.ValidatorSetHash untrustedVals) untrustedHeader.Height)) := by
  refine ⟨?_, ?_, ?_, ?_, ?_⟩
  · intro e hvb
    unfold verifyNewHeaderAndVals
    rw [hvb]
  · intro hvb hh
    unfold verifyNewHeaderAndVals
    rw [hvb]
    dsimp only
    rw [if_pos hh]
  · intro hvb hh ht
    have hafter : (!untrustedHeader.Time.After trustedHeader.Time) = true := by
      simp [Time.After]
      exact ht
    unfold verifyNewHeaderAndVals
    rw [hvb]
    dsimp only
    rw [if_neg (not_le.mpr hh), if_pos hafter]
  · intro hvb hh ht hd
    have hafter : ¬ ((!untrustedHeader.Time.After trustedHeader.Time) = true) := by
      simp [Time.After]
      exact ht
    have hbefore : (!untrustedHeader.Time.Before (now.Add maxClockDrift)) = true := by
      simp [Time.Before]
      exact hd
    unfold verifyNewHeaderAndVals
    rw [hvb]
    dsimp only
    rw [if_neg (not_le.mpr hh), if_neg hafter, if_pos hbefore]
  · intro hvb hh ht hd hv
    have hafter : ¬ ((!untrustedHeader.Time.After trustedHeader.Time) = true) := by
      simp [Time.After]
      exact ht
    have hbefore : ¬ ((!untrustedHeader.Time.Before (now.Add maxClockDrift)) = true) := by
      simp [Time.Before]
      exact hd
    unfold verifyNewHeaderAndVals
    rw [hvb]
    dsimp only
    rw [if_neg (not_le.mpr hh), if_neg hafter, if_neg hbefore, if_pos hv]

/-- The result of `VerifyAdjacent` once the adjacency guard and the expiry check have
passed and the new-header checks have failed. -/
theorem VerifyAdjacent_of_new_header_failure (T : TypesAPI)
    (trustedHeader untrustedHeader : SignedHeader) (untrustedVals : ValidatorSet)
    (trustingPeriod : Duration) (now : Time) (maxClockDrift : Duration) (cause : Error)
    (hadj : untrustedHeader.Height = addInt64 trustedHeader.Height 1)
    (hexp : HeaderExpired trustedHeader trustingPeriod now = false)
    (hfail : verifyNewHeaderAndVals T untrustedHeader untrustedVals trustedHeader now
      maxClockDrift = some cause) :
    VerifyAdjacent T trustedHeader untrustedHeader untrustedVals trustingPeriod now
      maxClockDrift = some (.ErrInvalidHeader cause) := by
  unfold VerifyAdjacent
  rw [if_neg (not_not.mpr hadj), hexp, hfail]
  rfl

/-- The result of `VerifyNonAdjacent` once the adjacency guard and the expiry check have
passed and the new-header checks have failed. -/
theorem VerifyNonAdjacent_of_new_header_failure (T : TypesAPI)
    (trustedHeader : SignedHeader) (trustedVals : ValidatorSet)
    (untrustedHeader : SignedHeader) (untrustedVals : ValidatorSet)
    (trustingPeriod : Duration) (now : Time) (maxClockDrift : Duration)
    (trustLevel : Fraction) (cause : Error)
    (hadj : untrustedHeader.Height ≠ addInt64 trustedHeader.Height 1)
    (hexp : HeaderExpired trustedHeader trustingPeriod now = false)
    (hfail : verifyNewHeaderAndVals T untrustedHeader untrustedVals trustedHeader now
      maxClockDrift = some cause) :
    VerifyNonAdjacent T trustedHeader trustedVals untrustedHeader untrustedVals
      trustingPeriod now maxClockDrift trustLevel = some (.ErrInvalidHeader cause) := by
  unfold VerifyNonAdjacent
  rw [if_neg hadj, hexp, hfail]
  rfl

/-- The result of `VerifyAdjacent` once the height, expiry and new-header checks have
passed. -/
theorem VerifyAdjacent_after_header_checks (T : TypesAPI)
    (trustedHeader untrustedHeader : SignedHeader) (untrustedVals : ValidatorSet)
    (trustingPeriod : Duration) (now : Time) (maxClockDrift : Duration)
    (hadj : untrustedHeader.Height = addInt64 trustedHeader.Height 1)
    (hexp : HeaderExpired trustedHeader trustingPeriod now = false)
    (hnew : verifyNewHeaderAndVals T untrustedHeader untrustedVals trustedHeader now
      maxClockDrift = none) :
    VerifyAdjacent T trustedHeader untrustedHeader untrustedVals trustingPeriod now
        maxClockDrift =
      if untrustedHeader.ValidatorsHash ≠ trustedHeader.NextValidatorsHash then
        some (.ErrValidatorHashMismatch trustedHeader.NextValidatorsHash
          untrustedHeader.ValidatorsHash)
      else
        match T.VerifyCommitLight untrustedVals trustedHeader.ChainID
            untrustedHeader.Commit.BlockID untrustedHeader.Height untrustedHeader.Commit with
        | some err => some (.ErrInvalidHeader (.ofTypes err))
        | none => none := by
  unfold VerifyAdjacent
  rw [if_neg (not_not.mpr hadj), hexp, hnew]
  rfl

/-- The results `VerifyAdjacent` can return once the adjacency guard has passed. -/
theorem VerifyAdjacent_result_of_adjacent (T : TypesAPI)
    (trustedHeader untrustedHeader : SignedHeader) (untrustedVals : ValidatorSet)
    (trustingPeriod : Duration) (now : Time) (maxClockDrift : Duration)
    (hadj : untrustedHeader.Height = addInt64 trustedHeader.Height 1) :
    VerifyAdjacent T trustedHeader untrustedHeader untrustedVals trustingPeriod now
        maxClockDrift = none ∨
    (∃ at2 now2, VerifyAdjacent T trustedHeader untrustedHeader untrustedVals trustingPeriod
        now maxClockDrift = some (.ErrOldHeaderExpired at2 now2)) ∨
    (∃ reason, VerifyAdjacent T trustedHeader untrustedHeader untrustedVals trustingPeriod
        now maxClockDrift = some (.ErrInvalidHeader reason)) ∨
    (∃ h1 h2, VerifyAdjacent T trustedHeader untrustedHeader untrustedVals trustingPeriod
        now maxClockDrift = some (.ErrValidatorHashMismatch h1 h2)) := by
  cases h2 : HeaderExpired trustedHeader trustingPeriod now
  · cases hv : verifyNewHeaderAndVals T untrustedHeader untrustedVals trustedHeader now
        maxClockDrift with
    | some e =>
      exact Or.inr (Or.inr (Or.inl ⟨e, VerifyAdjacent_of_new_header_failure T trustedHeader
        untrustedHeader untrustedVals trustingPeriod now maxClockDrift e hadj h2 hv⟩))
    | none =>
      rw [VerifyAdjacent_after_header_checks T trustedHeader untrustedHeader untrustedVals
        trustingPeriod now maxClockDrift hadj h2 hv]
      by_cases h3 : untrustedHeader.ValidatorsHash ≠ trustedHeader.NextValidatorsHash
      · rw [if_pos h3]
        exact Or.inr (Or.inr (Or.inr ⟨_, _, rfl⟩))
      · rw [if_neg h3]
        cases T.VerifyCommitLight untrustedVals trustedHeader.ChainID
            untrustedHeader.Commit.BlockID untrustedHeader.Height untrustedHeader.Commit with
        | some e => exact Or.inr (Or.inr (Or.inl ⟨_, rfl⟩))
        | none => exact Or.inl rfl
  · refine Or.inr (Or.inl ⟨trustedHeader.Time.Add trustingPeriod, now, ?_⟩)
    unfold VerifyAdjacent
    rw [if_neg (not_not.mpr hadj), h2]
    rfl

theorem VerifyAdjacent_eq_not_adjacent_iff (T : TypesAPI)
    (trustedHeader untrustedHeader : SignedHeader) (untrustedVals : ValidatorSet)
    (trustingPeriod : Duration) (now : Time) (maxClockDrift : Duration) :
    VerifyAdjacent T trustedHeader untrustedHeader untrustedVals trustingPeriod now
        maxClockDrift = some .ErrHeaderHeightNotAdjacent ↔
      untrustedHeader.Height ≠ addInt64 trustedHeader.Height 1 := by
  by_cases h1 : untrustedHeader.Height = addInt64 trustedHeader.Height 1
  · have hne : VerifyAdjacent T trustedHeader untrustedHeader untrustedVals trustingPeriod
        now maxClockDrift ≠ some .ErrHeaderHeightNotAdjacent := by
      rcases VerifyAdjacent_result_of_adjacent T trustedHeader untrustedHeader untrustedVals
        trustingPeriod now maxClockDrift h1 with h | ⟨_, _, h⟩ | ⟨_, h⟩ | ⟨_, _, h⟩ <;>
        rw [h] <;> simp
    exact ⟨fun h => absurd h hne, fun h => absurd h1 h⟩
  · unfold VerifyAdjacent
    rw [if_pos h1]
    simp [h1]

theorem VerifyAdjacent_ne_adjacent (T : TypesAPI)
    (trustedHeader untrustedHeader : SignedHeader) (untrustedVals : ValidatorSet)
    (trustingPeriod : Duration) (now : Time) (maxClockDrift : Duration) :
    VerifyAdjacent T trustedHeader untrustedHeader untrustedVals trustingPeriod now
        maxClockDrift ≠ some .ErrHeaderHeightAdjacent := by
  by_cases h1 : untrustedHeader.Height = addInt64 trustedHeader.Height 1
  · rcases VerifyAdjacent_result_of_adjacent T trustedHeader untrustedHeader untrustedVals
      trustingPeriod now maxClockDrift h1 with h | ⟨_, _, h⟩ | ⟨_, h⟩ | ⟨_, _, h⟩ <;>
      rw [h] <;> simp
  · unfold VerifyAdjacent
    rw [if_pos h1]
    simp

theorem trustingError_ne_adjacency (e : TypesError) :
    trustingError e ≠ .ErrHeaderHeightAdjacent ∧
    trustingError e ≠ .ErrHeaderHeightNotAdjacent := by
  cases e <;> simp [trustingError]

theorem VerifyNonAdjacent_eq_adjacent_iff (T : TypesAPI)
    (trustedHeader : SignedHeader) (trustedVals : ValidatorSet)
    (untrustedHeader : SignedHeader) (untrustedVals : ValidatorSet)
    (trustingPeriod : Duration) (now : Time) (maxClockDrift : Duration)
    (trustLevel : Fraction) :
    VerifyNonAdjacent T trustedHeader trustedVals untrustedHeader untrustedVals
        trustingPeriod now maxClockDrift trustLevel = some .ErrHeaderHeightAdjacent ↔
      untrustedHeader.Height = addInt64 trustedHeader.Height 1 := by
  by_cases h1 : untrustedHeader.Height = addInt64 trustedHeader.Height 1
  · unfold VerifyNonAdjacent
    rw [if_pos h1]
    simp [h1]
  · simp only [h1, iff_false]
    cases h2 : HeaderExpired trustedHeader trustingPeriod now
    · cases hv : verifyNewHeaderAndVals T untrustedHeader untrustedVals trustedHeader now
          maxClockDrift with
      | some e =>
        rw [VerifyNonAdjacent_of_new_header_failure T trustedHeader trustedVals
          untrustedHeader untrustedVals trustingPeriod now maxClockDrift trustLevel e h1 h2 hv]
        simp
      | none =>
        rw [VerifyNonAdjacent_after_header_checks T trustedHeader trustedVals
          untrustedHeader untrustedVals trustingPeriod now maxClockDrift trustLevel h1 h2 hv]
        cases (T.VerifyCommitLightTrustingWithCache trustedVals trustedHeader.ChainID
            untrustedHeader.Commit trustLevel T.NewSignatureCache).1 with
        | some e =>
          dsimp only
          intro h
          exact (trustingError_ne_adjacency e).1 (Option.some.inj h)
        | none =>
          dsimp only
          cases (T.VerifyCommitLightWithCache untrustedVals trustedHeader.ChainID
            untrustedHeader.Commit.BlockID untrustedHeader.Height untrustedHeader.Commit
            (T.VerifyCommitLightTrustingWithCache trustedVals trustedHeader.ChainID
              untrustedHeader.Commit trustLevel T.NewSignatureCache).2).1 <;> simp
    · unfold VerifyNonAdjacent
      rw [if_neg h1, h2]
      simp

theorem VerifyNonAdjacent_ne_not_adjacent (T : TypesAPI)
    (trustedHeader : SignedHeader) (trustedVals : ValidatorSet)
    (untrustedHeader : SignedHeader) (untrustedVals : ValidatorSet)
    (trustingPeriod : Duration) (now : Time) (maxClockDrift : Duration)
    (trustLevel : Fraction) :
    VerifyNonAdjacent T trustedHeader trustedVals untrustedHeader untrustedVals
        trustingPeriod now maxClockDrift trustLevel ≠ some .ErrHeaderHeightNotAdjacent := by
  by_cases h1 : untrustedHeader.Height = addInt64 trustedHeader.Height 1
  · unfold VerifyNonAdjacent
    rw [if_pos h1]
    simp
  · cases h2 : HeaderExpired trustedHeader trustingPeriod now
    · cases hv : verifyNewHeaderAndVals T untrustedHeader untrustedVals trustedHeader now
          maxClockDrift with
      | some e =>
        rw [VerifyNonAdjacent_of_new_header_failure T trustedHeader trustedVals
          untrustedHeader untrustedVals trustingPeriod now maxClockDrift trustLevel e h1 h2 hv]
        simp
      | none =>
        rw [VerifyNonAdjacent_after_header_checks T trustedHeader trustedVals
          untrustedHeader untrustedVals trustingPeriod now maxClockDrift trustLevel h1 h2 hv]
        cases (T.VerifyCommitLightTrustingWithCache trustedVals trustedHeader.ChainID
            untrustedHeader.Commit trustLevel T.NewSignatureCache).1 with
        | some e =>
          dsimp only
          intro h
          exact (trustingError_ne_adjacency e).2 (Option.some.inj h)
        | none =>
          dsimp only
          cases (T.VerifyCommitLightWithCache untrustedVals trustedHeader.ChainID
            untrustedHeader.Commit.BlockID untrustedHeader.Height untrustedHeader.Commit
            (T.VerifyCommitLightTrustingWithCache trustedVals trustedHeader.ChainID
              untrustedHeader.Commit trustLevel T.NewSignatureCache).2).1 <;> simp
    · unfold VerifyNonAdjacent
      rw [if_neg h1, h2]
      simp

end Light

namespace Light

/-- For every implementation of `Header.Hash` and `Header.ValidateBasic`, a header that
passes basic validation is accepted by `VerifyBackwards` before any later header of its
chain that names its hash as `LastBlockID.Hash`, whatever the height of that header. -/
theorem VerifyBackwards_nil_any_height (T : TypesAPI) (untrustedHeader : Header)
    (height : Int) (hvb : T.HeaderValidateBasic untrustedHeader = none) :
    VerifyBackwards T untrustedHeader
      { ChainID := untrustedHeader.ChainID, Height := height,
        Time := ⟨untrustedHeader.Time.unixNano + 1⟩,
        LastBlockID := { Hash := T.HeaderHash untrustedHeader } } = none := by
  unfold VerifyBackwards
  rw [hvb]
  simp [Time.Before]

/-- What `VerifyBackwards` has checked when it returns nil. -/
theorem VerifyBackwards_eq_none_imp (T : TypesAPI) (untrustedHeader trustedHeader : Header)
    (h : VerifyBackwards T untrustedHeader trustedHeader = none) :
    T.HeaderValidateBasic untrustedHeader = none ∧
    untrustedHeader.ChainID = trustedHeader.ChainID ∧
    untrustedHeader.Time.unixNano < trustedHeader.Time.unixNano ∧
    T.HeaderHash untrustedHeader = trustedHeader.LastBlockID.Hash := by
  unfold VerifyBackwards at h
  cases hvb : T.HeaderValidateBasic untrustedHeader with
  | some e => rw [hvb] at h; simp at h
  | none =>
    rw [hvb] at h
    dsimp only at h
    by_cases h1 : untrustedHeader.ChainID = trustedHeader.ChainID
    · rw [if_neg (not_not.mpr h1)] at h
      by_cases h2 : untrustedHeader.Time.unixNano < trustedHeader.Time.unixNano
      · have hb : (!untrustedHeader.Time.Before trustedHeader.Time) = false := by
          simp [Time.Before, h2]
        rw [hb] at h
        simp only [Bool.false_eq_true, if_false] at h
        by_cases h3 : T.HeaderHash untrustedHeader = trustedHeader.LastBlockID.Hash
        · exact ⟨rfl, h1, h2, h3⟩
        · rw [if_pos h3] at h
          simp at h
      · have hb : (!untrustedHeader.Time.Before trustedHeader.Time) = true := by
          simp [Time.Before]
          omega
        rw [if_pos hb] at h
        simp at h
    · rw [if_pos h1] at h
      simp at h

/-! ## The claims on the light verifier, continued -/

/-- C25: every failure of the common new-header checks is reported by `Verify`,
`VerifyAdjacent` and `VerifyNonAdjacent` (once the earlier checks, adjacency and expiry,
have passed) as an `ErrInvalidHeader` wrapping the cause, and the cause is that of the
first failing check in the order: basic validation (`ErrHeaderValidateBasic`), height
not above the trusted height (`ErrHeaderHeightNotMonotonic`), time not after the trusted
time (`ErrHeaderTimeNotMonotonic`), time not before `now.Add(maxClockDrift)`
(`ErrHeaderTimeExceedMaxClockDrift`), validators hash different from
`untrustedVals.Hash()` (`ErrValidatorsMismatch`). The first part gives, for each check
that fails after the checks before it passed, the error the three functions return; the
second part says that the common checks fail in no other way. -/
theorem new_header_failure_is_ErrInvalidHeader (T : TypesAPI)
    (trustedHeader : SignedHeader) (trustedVals : ValidatorSet)
    (untrustedHeader : SignedHeader) (untrustedVals : ValidatorSet)
    (trustingPeriod : Duration) (now : Time) (maxClockDrift : Duration)
    (trustLevel : Fraction)
    (hexp : HeaderExpired trustedHeader trustingPeriod now = false) :
    (∀ cause : Error,
      ((∃ e : TypesError,
          T.SignedHeaderValidateBasic untrustedHeader trustedHeader.ChainID = some e ∧
          cause = .ErrHeaderValidateBasic e) ∨
       (T.SignedHeaderValidateBasic untrustedHeader trustedHeader.ChainID = none ∧
          untrustedHeader.Height ≤ trustedHeader.Height ∧
          cause = .ErrHeaderHeightNotMonotonic untrustedHeader.Height
            trustedHeader.Height) ∨
       (T.SignedHeaderValidateBasic untrustedHeader trustedHeader.ChainID = none ∧
          trustedHeader.Height < untrustedHeader.Height ∧
          untrustedHeader.Time.unixNano ≤ trustedHeader.Time.unixNano ∧
          cause = .ErrHeaderTimeNotMonotonic untrustedHeader.Time trustedHeader.Time) ∨
       (T.SignedHeaderValidateBasic untrustedHeader trustedHeader.ChainID = none ∧
          trustedHeader.Height < untrustedHeader.Height ∧
          trustedHeader.Time.unixNano < untrustedHeader.Time.unixNano ∧
          (now.Add maxClockDrift).unixNano ≤ untrustedHeader.Time.unixNano ∧
          cause = .ErrHeaderTimeExceedMaxClockDrift untrustedHeader.Time now
            maxClockDrift) ∨
       (T.SignedHeaderValidateBasic untrustedHeader trustedHeader.ChainID = none ∧
          trustedHeader.Height < untrustedHeader.Height ∧
          trustedHeader.Time.unixNano < untrustedHeader.Time.unixNano ∧
          untrustedHeader.Time.unixNano < (now.Add maxClockDrift).unixNano ∧
          untrustedHeader.ValidatorsHash ≠ T.ValidatorSetHash untrustedVals ∧
          cause = .ErrValidatorsMismatch untrustedHeader.ValidatorsHash
            (T.ValidatorSetHash untrustedVals) untrustedHeader.Height)) →
      Verify T trustedHeader trustedVals untrustedHeader untrustedVals trustingPeriod now
          maxClockDrift trustLevel = some (.ErrInvalidHeader cause) ∧
      (untrustedHeader.Height = addInt64 trustedHeader.Height 1 →
        VerifyAdjacent T trustedHeader untrustedHeader untrustedVals trustingPeriod now
          maxClockDrift = some (.ErrInvalidHeader cause)) ∧
      (untrustedHeader.Height ≠ addInt64 trustedHeader.Height 1 →
        VerifyNonAdjacent T trustedHeader trustedVals untrustedHeader untrustedVals
          trustingPeriod now maxClockDrift trustLevel = some (.ErrInvalidHeader cause))) ∧
    (∀ cause : Error,
      verifyNewHeaderAndVals T untrustedHeader untrustedVals trustedHeader now
        maxClockDrift = some cause →
      ((∃ e : TypesError,
          T.SignedHeaderValidateBasic untrustedHeader trustedHeader.ChainID = some e ∧
          cause = .ErrHeaderValidateBasic e) ∨
       (T.SignedHeaderValidateBasic untrustedHeader trustedHeader.ChainID = none ∧
          untrustedHeader.Height ≤ trustedHeader.Height ∧
          cause = .ErrHeaderHeightNotMonotonic untrustedHeader.Height
            trustedHeader.Height) ∨
       (T.SignedHeaderValidateBasic untrustedHeader trustedHeader.ChainID = none ∧
          trustedHeader.Height < untrustedHeader.Height ∧
          untrustedHeader.Time.unixNano ≤ trustedHeader.Time.unixNano ∧
          cause = .ErrHeaderTimeNotMonotonic untrustedHeader.Time trustedHeader.Time) ∨
       (T.SignedHeaderValidateBasic untrustedHeader trustedHeader.ChainID = none ∧
          trustedHeader.Height < untrustedHeader.Height ∧
          trustedHeader.Time.unixNano < untrustedHeader.Time.unixNano ∧
          (now.Add maxClockDrift).unixNano ≤ untrustedHeader.Time.unixNano ∧
          cause = .ErrHeaderTimeExceedMaxClockDrift untrustedHeader.Time now
            maxClockDrift) ∨
       (T.SignedHeaderValidateBasic untrustedHeader trustedHeader.ChainID = none ∧
          trustedHeader.Height < untrustedHeader.Height ∧
          trustedHeader.Time.unixNano < untrustedHeader.Time.unixNano ∧
          untrustedHeader.Time.unixNano < (now.Add maxClockDrift).unixNano ∧
          untrustedHeader.ValidatorsHash ≠ T.ValidatorSetHash untrustedVals ∧
          cause = .ErrValidatorsMismatch untrustedHeader.ValidatorsHash
            (T.ValidatorSetHash untrustedVals) untrustedHeader.Height))) := by
  obtain ⟨c1, c2, c3, c4, c5⟩ := verifyNewHeaderAndVals_cause T untrustedHeader
    untrustedVals trustedHeader now maxClockDrift
  have hwrap : ∀ cause : Error,
      verifyNewHeaderAndVals T untrustedHeader untrustedVals trustedHeader now
        maxClockDrift = some cause →
      Verify T trustedHeader trustedVals untrustedHeader untrustedVals trustingPeriod now
          maxClockDrift trustLevel = some (.ErrInvalidHeader cause) ∧
      (untrustedHeader.Height = addInt64 trustedHeader.Height 1 →
        VerifyAdjacent T trustedHeader untrustedHeader untrustedVals trustingPeriod now
          maxClockDrift = some (.ErrInvalidHeader cause)) ∧
      (untrustedHeader.Height ≠ addInt64 trustedHeader.Height 1 →
        VerifyNonAdjacent T trustedHeader trustedVals untrustedHeader untrustedVals
          trustingPeriod now maxClockDrift trustLevel
            = some (.ErrInvalidHeader cause)) := by
    intro cause hfail
    have hA := fun h => VerifyAdjacent_of_new_header_failure T trustedHeader
      untrustedHeader untrustedVals trustingPeriod now maxClockDrift cause h hexp hfail
    have hN := fun h => VerifyNonAdjacent_of_new_header_failure T trustedHeader
      trustedVals untrustedHeader untrustedVals trustingPeriod now maxClockDrift
      trustLevel cause h hexp hfail
    refine ⟨?_, hA, hN⟩
    unfold Verify
    by_cases h1 : untrustedHeader.Height = addInt64 trustedHeader.Height 1
    · rw [if_neg (not_not.mpr h1)]
      exact hA h1
    · rw [if_pos h1]
      exact hN h1
  constructor
  · intro cause hcause
    apply hwrap
    rcases hcause with ⟨e, hvb, hc⟩ | ⟨hvb, hh, hc⟩ | ⟨hvb, hh, ht, hc⟩ |
      ⟨hvb, hh, ht, hd, hc⟩ | ⟨hvb, hh, ht, hd, hv, hc⟩
    · rw [hc]; exact c1 e hvb
    · rw [hc]; exact c2 hvb hh
    · rw [hc]; exact c3 hvb hh ht
    · rw [hc]; exact c4 hvb hh ht hd
    · rw [hc]; exact c5 hvb hh ht hd hv
  · intro cause hfail
    cases hvb : T.SignedHeaderValidateBasic untrustedHeader trustedHeader.ChainID with
    | some e =>
      exact Or.inl ⟨e, rfl, Option.some.inj (hfail.symm.trans (c1 e hvb))⟩
    | none =>
      by_cases hh : untrustedHeader.Height ≤ trustedHeader.Height
      · exact Or.inr (Or.inl ⟨rfl, hh, Option.some.inj (hfail.symm.trans (c2 hvb hh))⟩)
      · have hh2 : trustedHeader.Height < untrustedHeader.Height := not_le.mp hh
        by_cases ht : untrustedHeader.Time.unixNano ≤ trustedHeader.Time.unixNano
        · exact Or.inr (Or.inr (Or.inl
            ⟨rfl, hh2, ht, Option.some.inj (hfail.symm.trans (c3 hvb hh2 ht))⟩))
        · have ht2 : trustedHeader.Time.unixNano < untrustedHeader.Time.unixNano :=
            not_le.mp ht
          by_cases hd : (now.Add maxClockDrift).unixNano ≤ untrustedHeader.Time.unixNano
          · exact Or.inr (Or.inr (Or.inr (Or.inl
              ⟨rfl, hh2, ht2, hd,
                Option.some.inj (hfail.symm.trans (c4 hvb hh2 ht2 hd))⟩)))
          · have hd2 : untrustedHeader.Time.unixNano < (now.Add maxClockDrift).unixNano :=
              not_le.mp hd
            by_cases hv : untrustedHeader.ValidatorsHash = T.ValidatorSetHash untrustedVals
            · have hnone := (verifyNewHeaderAndVals_eq_none_iff T untrustedHeader
                untrustedVals trustedHeader now maxClockDrift).mpr
                ⟨hvb, hh2, ht2, hd2, hv⟩
              rw [hnone] at hfail
              cases hfail
            · exact Or.inr (Or.inr (Or.inr (Or.inr
                ⟨rfl, hh2, ht2, hd2, hv,
                  Option.some.inj (hfail.symm.trans (c5 hvb hh2 ht2 hd2 hv))⟩)))

/-- Instance of C25: the header at height 2 whose time equals the trusted time 100 fails
the time check, and `Verify` and `VerifyAdjacent` return `ErrInvalidHeader` wrapping
`ErrHeaderTimeNotMonotonic`; the header at height 5 and time 310, which is
`now + maxClockDrift`, fails the clock-drift check, and `Verify` and `VerifyNonAdjacent`
return `ErrInvalidHeader` wrapping `ErrHeaderTimeExceedMaxClockDrift`. -/
theorem new_header_failure_is_ErrInvalidHeader_witness :
    (Verify sampleTypes (sampleHeader 1 100) sampleVals (sampleHeader 2 100) sampleVals
        1000 ⟨300⟩ 10 DefaultTrustLevel
      = some (.ErrInvalidHeader (.ErrHeaderTimeNotMonotonic ⟨100⟩ ⟨100⟩)) ∧
     VerifyAdjacent sampleTypes (sampleHeader 1 100) (sampleHeader 2 100) sampleVals
        1000 ⟨300⟩ 10
      = some (.ErrInvalidHeader (.ErrHeaderTimeNotMonotonic ⟨100⟩ ⟨100⟩))) ∧
    (Verify sampleTypes (sampleHeader 1 100) sampleVals (sampleHeader 5 310) sampleVals
        1000 ⟨300⟩ 10 DefaultTrustLevel
      = some (.ErrInvalidHeader (.ErrHeaderTimeExceedMaxClockDrift ⟨310⟩ ⟨300⟩ 10)) ∧
     VerifyNonAdjacent sampleTypes (sampleHeader 1 100) sampleVals (sampleHeader 5 310)
        sampleVals 1000 ⟨300⟩ 10 DefaultTrustLevel
      = some (.ErrInvalidHeader (.ErrHeaderTimeExceedMaxClockDrift ⟨310⟩ ⟨300⟩ 10))) :=
  ⟨⟨((new_header_failure_is_ErrInvalidHeader sampleTypes (sampleHeader 1 100) sampleVals
      (sampleHeader 2 100) sampleVals 1000 ⟨300⟩ 10 DefaultTrustLevel (by decide)).1
      (.ErrHeaderTimeNotMonotonic ⟨100⟩ ⟨100⟩)
      (Or.inr (Or.inr (Or.inl ⟨by decide, by decide, by decide, rfl⟩)))).1,
    ((new_header_failure_is_ErrInvalidHeader sampleTypes (sampleHeader 1 100) sampleVals
      (sampleHeader 2 100) sampleVals 1000 ⟨300⟩ 10 DefaultTrustLevel (by decide)).1
      (.ErrHeaderTimeNotMonotonic ⟨100⟩ ⟨100⟩)
      (Or.inr (Or.inr (Or.inl ⟨by decide, by decide, by decide, rfl⟩)))).2.1
      (by decide)⟩,
   ⟨((new_header_failure_is_ErrInvalidHeader sampleTypes (sampleHeader 1 100) sampleVals
      (sampleHeader 5 310) sampleVals 1000 ⟨300⟩ 10 DefaultTrustLevel (by decide)).1
      (.ErrHeaderTimeExceedMaxClockDrift ⟨310⟩ ⟨300⟩ 10)
      (Or.inr (Or.inr (Or.inr (Or.inl
        ⟨by decide, by decide, by decide, by decide, rfl⟩))))).1,
    ((new_header_failure_is_ErrInvalidHeader sampleTypes (sampleHeader 1 100) sampleVals
      (sampleHeader 5 310) sampleVals 1000 ⟨300⟩ 10 DefaultTrustLevel (by decide)).1
      (.ErrHeaderTimeExceedMaxClockDrift ⟨310⟩ ⟨300⟩ 10)
      (Or.inr (Or.inr (Or.inr (Or.inl
        ⟨by decide, by decide, by decide, by decide, rfl⟩))))).2.2
      (by decide)⟩⟩

/-- C26 as stated fails: `VerifyBackwards` returns nil for the header at height 1 and the
trusted header at height 5 whose `LastBlockID.Hash` is the hash of the former, and
`1 + 1` is not `5`. The function compares no heights. -/
theorem VerifyBackwards_height_counterexample :
    ¬ (∀ (T : TypesAPI) (untrustedHeader trustedHeader : Header),
        VerifyBackwards T untrustedHeader trustedHeader = none →
        addInt64 untrustedHeader.Height 1 = trustedHeader.Height) :=
  fun h => absurd
    (h sampleTypes (sampleHeader 1 100).toHeader sampleFarHeader (by decide)) (by decide)

/-- C26, amended: whenever `VerifyBackwards(untrustedHeader, trustedHeader)` returns nil,
`untrustedHeader.Hash()` equals `trustedHeader.LastBlockID.Hash`; so when that hash is
the hash of a header at the height before the trusted one (the trusted header is a block
of a chain) and that header and the untrusted header do not collide under `Hash`,
`untrustedHeader.Height + 1 == trustedHeader.Height`. -/
theorem VerifyBackwards_nil_height (T : TypesAPI)
    (untrustedHeader trustedHeader previous : Header)
    (hnil : VerifyBackwards T untrustedHeader trustedHeader = none)
    (hprev : T.HeaderHash previous = trustedHeader.LastBlockID.Hash)
    (hheight : previous.Height + 1 = trustedHeader.Height)
    (hcollision : T.HeaderHash untrustedHeader = T.HeaderHash previous →
      untrustedHeader = previous) :
    T.HeaderHash untrustedHeader = trustedHeader.LastBlockID.Hash ∧
    untrustedHeader.Height + 1 = trustedHeader.Height := by
  have hhash := (VerifyBackwards_eq_none_imp T untrustedHeader trustedHeader hnil).2.2.2
  refine ⟨hhash, ?_⟩
  rw [hcollision (hhash.trans hprev.symm)]
  exact hheight

/-- Instance of C26, amended: the header at height 1 is accepted before
`sampleNewerHeader`, the header at height 2 that names its hash. -/
theorem VerifyBackwards_nil_height_witness :
    sampleTypes.HeaderHash (sampleHeader 1 100).toHeader
      = sampleNewerHeader.LastBlockID.Hash ∧
    (sampleHeader 1 100).toHeader.Height + 1 = sampleNewerHeader.Height :=
  VerifyBackwards_nil_height sampleTypes (sampleHeader 1 100).toHeader sampleNewerHeader
    (sampleHeader 1 100).toHeader (by decide) (by decide) (by decide) (fun _ => rfl)

/-- C28: `Verify` never returns `ErrHeaderHeightAdjacent` or `ErrHeaderHeightNotAdjacent`;
`VerifyAdjacent` returns `ErrHeaderHeightNotAdjacent` if and only if
`untrustedHeader.Height != trustedHeader.Height + 1`, and `VerifyNonAdjacent` returns
`ErrHeaderHeightAdjacent` if and only if
`untrustedHeader.Height == trustedHeader.Height + 1` (the `int64` addition of the code,
which is also the test `Verify` makes). -/
theorem Verify_never_adjacency_error (T : TypesAPI)
    (trustedHeader : SignedHeader) (trustedVals : ValidatorSet)
    (untrustedHeader : SignedHeader) (untrustedVals : ValidatorSet)
    (trustingPeriod : Duration) (now : Time) (maxClockDrift : Duration)
    (trustLevel : Fraction) :
    Verify T trustedHeader trustedVals untrustedHeader untrustedVals trustingPeriod now
        maxClockDrift trustLevel ≠ some .ErrHeaderHeightAdjacent ∧
    Verify T trustedHeader trustedVals untrustedHeader untrustedVals trustingPeriod now
        maxClockDrift trustLevel ≠ some .ErrHeaderHeightNotAdjacent ∧
    (VerifyAdjacent T trustedHeader untrustedHeader untrustedVals trustingPeriod now
        maxClockDrift = some .ErrHeaderHeightNotAdjacent ↔
      untrustedHeader.Height ≠ addInt64 trustedHeader.Height 1) ∧
    (VerifyNonAdjacent T trustedHeader trustedVals untrustedHeader untrustedVals
        trustingPeriod now maxClockDrift trustLevel = some .ErrHeaderHeightAdjacent ↔
      untrustedHeader.Height = addInt64 trustedHeader.Height 1) := by
  have hA := VerifyAdjacent_eq_not_adjacent_iff T trustedHeader untrustedHeader
    untrustedVals trustingPeriod now maxClockDrift
  have hN := VerifyNonAdjacent_eq_adjacent_iff T trustedHeader trustedVals untrustedHeader
    untrustedVals trustingPeriod now maxClockDrift trustLevel
  refine ⟨?_, ?_, hA, hN⟩
  · unfold Verify
    by_cases h1 : untrustedHeader.Height = addInt64 trustedHeader.Height 1
    · rw [if_neg (not_not.mpr h1)]
      exact VerifyAdjacent_ne_adjacent T trustedHeader untrustedHeader untrustedVals
        trustingPeriod now maxClockDrift
    · rw [if_pos h1]
      intro h
      exact h1 (hN.mp h)
  · unfold Verify
    by_cases h1 : untrustedHeader.Height = addInt64 trustedHeader.Height 1
    · rw [if_neg (not_not.mpr h1)]
      intro h
      exact hA.mp h h1
    · rw [if_pos h1]
      exact VerifyNonAdjacent_ne_not_adjacent T trustedHeader trustedVals untrustedHeader
        untrustedVals trustingPeriod now maxClockDrift trustLevel

/-- The sample implementation `strictTypes` rejects every signed header whose height is
not positive. -/
theorem strictTypes_rejects_non_positive (sh : SignedHeader) (chainID : String)
    (h : sh.Height ≤ 0) : strictTypes.SignedHeaderValidateBasic sh chainID ≠ none := by
  have hv : sampleTypes.HeaderValidateBasic sh.toHeader
      = some (.other "non-positive Height") := by
    show (if sh.toHeader.Height ≤ 0 then some (TypesError.other "non-positive Height")
      else none) = _
    rw [if_pos h]
  show (match sampleTypes.HeaderValidateBasic sh.toHeader with
    | some err => some err
    | none => sampleTypes.SignedHeaderValidateBasic sh chainID) ≠ none
  rw [hv]
  exact Option.some_ne_none _

/-- C29: for `int64` heights, `VerifyAdjacent` never returns an `ErrInvalidHeader` that
wraps `ErrHeaderHeightNotMonotonic`. When the trusted height is below `MaxInt64`,
passing the adjacency guard `untrustedHeader.Height == trustedHeader.Height + 1` implies
`untrustedHeader.Height > trustedHeader.Height`. At the trusted height `MaxInt64` the
guard passes for the untrusted height `MinInt64` only, and a header of that height does
not get to the height check, because `ValidateBasic`, which comes first, rejects every
header whose height is not positive; this is the one property of `ValidateBasic`, whose
code is in package `types`, that the theorem takes as a hypothesis. -/
theorem VerifyAdjacent_never_height_not_monotonic (T : TypesAPI)
    (trustedHeader untrustedHeader : SignedHeader) (untrustedVals : ValidatorSet)
    (trustingPeriod : Duration) (now : Time) (maxClockDrift : Duration) (got old : Int)
    (htrusted : isInt64 trustedHeader.Height)
    (hcase : trustedHeader.Height < maxInt64 ∨
      ∀ (sh : SignedHeader) (chainID : String), sh.Height ≤ 0 →
        T.SignedHeaderValidateBasic sh chainID ≠ none) :
    VerifyAdjacent T trustedHeader untrustedHeader untrustedVals trustingPeriod now
        maxClockDrift ≠ some (.ErrInvalidHeader (.ErrHeaderHeightNotMonotonic got old)) ∧
    (trustedHeader.Height < maxInt64 →
      untrustedHeader.Height = addInt64 trustedHeader.Height 1 →
      untrustedHeader.Height > trustedHeader.Height) := by
  have himp : trustedHeader.Height < maxInt64 →
      untrustedHeader.Height = addInt64 trustedHeader.Height 1 →
      untrustedHeader.Height > trustedHeader.Height := by
    intro hlt hadj
    rw [hadj, addInt64_one_of_lt _ htrusted hlt]
    omega
  refine ⟨?_, himp⟩
  intro hres
  by_cases hadj : untrustedHeader.Height = addInt64 trustedHeader.Height 1
  · cases hexp : HeaderExpired trustedHeader trustingPeriod now
    · cases hv : verifyNewHeaderAndVals T untrustedHeader untrustedVals trustedHeader now
          maxClockDrift with
      | some cause =>
        rw [VerifyAdjacent_of_new_header_failure T trustedHeader untrustedHeader
          untrustedVals trustingPeriod now maxClockDrift cause hadj hexp hv] at hres
        have hcause : cause = .ErrHeaderHeightNotMonotonic got old :=
          Error.ErrInvalidHeader.inj (Option.some.inj hres)
        obtain ⟨c1, c2, c3, c4, c5⟩ := verifyNewHeaderAndVals_cause T untrustedHeader
          untrustedVals trustedHeader now maxClockDrift
        cases hvb : T.SignedHeaderValidateBasic untrustedHeader trustedHeader.ChainID with
        | some e =>
          rw [c1 e hvb, hcause] at hv
          simp at hv
        | none =>
          have hle : untrustedHeader.Height ≤ trustedHeader.Height := by
            by_contra hgt
            have hgt2 : trustedHeader.Height < untrustedHeader.Height := not_le.mp hgt
            have h0 := verifyNewHeaderAndVals_eq_none_iff T untrustedHeader untrustedVals
              trustedHeader now maxClockDrift
            by_cases ht : untrustedHeader.Time.unixNano ≤ trustedHeader.Time.unixNano
            · rw [c3 hvb hgt2 ht, hcause] at hv
              simp at hv
            · by_cases hd : (now.Add maxClockDrift).unixNano
                  ≤ untrustedHeader.Time.unixNano
              · rw [c4 hvb hgt2 (not_le.mp ht) hd, hcause] at hv
                simp at hv
              · by_cases hh : untrustedHeader.ValidatorsHash
                    = T.ValidatorSetHash untrustedVals
                · have := h0.mpr ⟨hvb, hgt2, not_le.mp ht, not_le.mp hd, hh⟩
                  rw [this] at hv
                  simp at hv
                · rw [c5 hvb hgt2 (not_le.mp ht) (not_le.mp hd) hh, hcause] at hv
                  simp at hv
          rcases hcase with hlt | hreject
          · have := himp hlt hadj
            omega
          · by_cases hmax : trustedHeader.Height < maxInt64
            · have := himp hmax hadj
              omega
            · have hEq : trustedHeader.Height = maxInt64 := by
                unfold isInt64 at htrusted
                omega
              have hneg : untrustedHeader.Height ≤ 0 := by
                rw [hadj, hEq]
                decide
              exact hreject untrustedHeader trustedHeader.ChainID hneg hvb
      | none =>
        rw [VerifyAdjacent_after_header_checks T trustedHeader untrustedHeader untrustedVals
          trustingPeriod now maxClockDrift hadj hexp hv] at hres
        by_cases h3 : untrustedHeader.ValidatorsHash ≠ trustedHeader.NextValidatorsHash
        · rw [if_pos h3] at hres
          simp at hres
        · rw [if_neg h3] at hres
          cases hc : T.VerifyCommitLight untrustedVals trustedHeader.ChainID
              untrustedHeader.Commit.BlockID untrustedHeader.Height
              untrustedHeader.Commit with
          | some e => rw [hc] at hres; simp at hres
          | none => rw [hc] at hres; simp at hres
    · unfold VerifyAdjacent at hres
      rw [if_neg (not_not.mpr hadj), hexp] at hres
      simp at hres
  · unfold VerifyAdjacent at hres
    rw [if_pos hadj] at hres
    simp at hres

/-- Instance of C29: after the trusted header at height 1 the header at height 2 passes
the adjacency guard and every later check, the height check among them, and 2 is above
1; after the trusted header at height `MaxInt64` the header at height `MinInt64` passes
the adjacency guard and is rejected by `ValidateBasic`, not by the height check. -/
theorem VerifyAdjacent_never_height_not_monotonic_witness :
    (VerifyAdjacent sampleTypes (sampleHeader 1 100) (sampleHeader 2 200) sampleVals
        1000 ⟨300⟩ 10 = none ∧
      (sampleHeader 2 200).Height > (sampleHeader 1 100).Height) ∧
    ((sampleHeader minInt64 200).Height = addInt64 (sampleHeader maxInt64 100).Height 1 ∧
      VerifyAdjacent strictTypes (sampleHeader maxInt64 100) (sampleHeader minInt64 200)
          sampleVals 1000 ⟨300⟩ 10
        = some (.ErrInvalidHeader
            (.ErrHeaderValidateBasic (.other "non-positive Height"))) ∧
      VerifyAdjacent strictTypes (sampleHeader maxInt64 100) (sampleHeader minInt64 200)
          sampleVals 1000 ⟨300⟩ 10
        ≠ some (.ErrInvalidHeader (.ErrHeaderHeightNotMonotonic minInt64 maxInt64))) :=
  ⟨⟨by decide,
    (VerifyAdjacent_never_height_not_monotonic sampleTypes (sampleHeader 1 100)
      (sampleHeader 2 200) sampleVals 1000 ⟨300⟩ 10 2 1 (by decide)
      (Or.inl (by decide))).2 (by decide) (by decide)⟩,
   ⟨by decide, by decide,
    (VerifyAdjacent_never_height_not_monotonic strictTypes (sampleHeader maxInt64 100)
      (sampleHeader minInt64 200) sampleVals 1000 ⟨300⟩ 10 minInt64 maxInt64 (by decide)
      (Or.inr strictTypes_rejects_non_positive)).1⟩⟩

/-- C30: `DefaultTrustLevel` is 1/3 and is a valid trust level,
`ValidateTrustLevel(DefaultTrustLevel)` returns nil, and every fraction `n/d` of `uint64`
values with `d > 0` and `3*n < d` is rejected. -/
theorem DefaultTrustLevel_valid_and_least :
    DefaultTrustLevel = ⟨1, 3⟩ ∧
    ValidateTrustLevel DefaultTrustLevel = none ∧
    ∀ n d : Nat, isUint64 n → isUint64 d → 0 < d → 3 * n < d →
      ValidateTrustLevel ⟨n, d⟩ = some (.ErrInvalidTrustLevel ⟨n, d⟩) := by
  refine ⟨rfl, by decide, ?_⟩
  intro n d _ hd _ hlt
  unfold ValidateTrustLevel
  have hcond : (decide (mulUint64 n 3 < d) || decide (n > d) || d == 0) = true := by
    simp only [Bool.or_eq_true, decide_eq_true_eq, beq_iff_eq]
    left; left
    rw [mulUint64_three_of_lt n d hd hlt]
    exact hlt
  exact if_pos hcond

/-- Instance of C30: the level 1/4 is rejected. -/
theorem DefaultTrustLevel_valid_and_least_witness :
    ValidateTrustLevel ⟨1, 4⟩ = some (.ErrInvalidTrustLevel ⟨1, 4⟩) :=
  DefaultTrustLevel_valid_and_least.2.2 1 4 (by decide) (by decide) (by decide) (by decide)

end Light

namespace Ed25519

/-- C21: `BatchVerifier.Add` returns `ErrNotEd25519Key` for a key that is not an Ed25519
`PubKey`, `ErrInvalidKeyLen{Got: len(key), Want: 32}` for an Ed25519 key whose length is
not 32, and `ErrInvalidSignature` for a signature whose length is not 64, checked in
that order, and in each of these cases the batch is left unchanged; in every other case
`Add` returns nil and the batch is the one the library returns for the one entry
`(key, msg, signature)`: for a batch that is the list of its entries, the batch grows
by exactly that entry. -/
theorem BatchVerifier_Add_spec {β : Type} (V : Voi β) (b : BatchVerifier β)
    (msg signature : Bytes) :
    (∀ (keyType : String) (key : Bytes),
      BatchVerifier.Add V b (.other keyType key) msg signature
        = (some .ErrNotEd25519Key, b)) ∧
    (∀ key : Bytes, key.length ≠ 32 →
      BatchVerifier.Add V b (.ed25519 key) msg signature
        = (some (.ErrInvalidKeyLen key.length 32), b)) ∧
    (∀ key : Bytes, key.length = 32 → signature.length ≠ 64 →
      BatchVerifier.Add V b (.ed25519 key) msg signature
        = (some .ErrInvalidSignature, b)) ∧
    (∀ key : Bytes, key.length = 32 → signature.length = 64 →
      BatchVerifier.Add V b (.ed25519 key) msg signature
        = (none, { Batch := V.AddWithOptions b.Batch key msg signature })) ∧
    (∀ (batch : BatchVerifier (List (Bytes × Bytes × Bytes))) (key : Bytes),
      key.length = 32 → signature.length = 64 →
      (BatchVerifier.Add listVoi batch (.ed25519 key) msg signature).1 = none ∧
      (BatchVerifier.Add listVoi batch (.ed25519 key) msg signature).2.Batch
        = batch.Batch ++ [(key, msg, signature)]) := by
  have hok : ∀ {γ : Type} (W : Voi γ) (c : BatchVerifier γ) (key : Bytes),
      key.length = 32 → signature.length = 64 →
      BatchVerifier.Add W c (.ed25519 key) msg signature
        = (none, { Batch := W.AddWithOptions c.Batch key msg signature }) := by
    intro γ W c key hk hs
    unfold BatchVerifier.Add PubKeySize SignatureSize
    dsimp only
    rw [if_neg (not_not.mpr hk), if_neg (not_not.mpr hs)]
  refine ⟨fun _ _ => rfl, ?_, ?_, fun key hk hs => hok V b key hk hs, ?_⟩
  · intro key hk
    unfold BatchVerifier.Add PubKeySize
    dsimp only
    rw [if_pos hk]
    rfl
  · intro key hk hs
    unfold BatchVerifier.Add PubKeySize SignatureSize
    dsimp only
    rw [if_neg (not_not.mpr hk), if_pos hs]
  · intro batch key hk hs
    rw [hok listVoi batch key hk hs]
    exact ⟨rfl, rfl⟩

/-- Instance of C21: a key of 31 bytes with a signature of 3 bytes gives
`ErrInvalidKeyLen{31, 32}`, the sample key with a signature of 3 bytes gives
`ErrInvalidSignature`, and the sample key with the sample signature is added to the
empty batch. -/
theorem BatchVerifier_Add_spec_witness :
    BatchVerifier.Add listVoi (NewBatchVerifier listVoi) (.ed25519 (List.range 31)) [1]
        [1, 2, 3]
      = (some (.ErrInvalidKeyLen 31 32), NewBatchVerifier listVoi) ∧
    BatchVerifier.Add listVoi (NewBatchVerifier listVoi) (.ed25519 samplePubKey) [1]
        [1, 2, 3]
      = (some .ErrInvalidSignature, NewBatchVerifier listVoi) ∧
    (BatchVerifier.Add listVoi (NewBatchVerifier listVoi) (.ed25519 samplePubKey) [1]
        sampleSignature).2.Batch = [] ++ [(samplePubKey, [1], sampleSignature)] :=
  ⟨(BatchVerifier_Add_spec listVoi (NewBatchVerifier listVoi) [1] [1, 2, 3]).2.1
      (List.range 31) (by decide),
   (BatchVerifier_Add_spec listVoi (NewBatchVerifier listVoi) [1] [1, 2, 3]).2.2.1
      samplePubKey (by decide) (by decide),
   ((BatchVerifier_Add_spec listVoi (NewBatchVerifier listVoi) [1] sampleSignature).2.2.2.2
      (NewBatchVerifier listVoi) samplePubKey (by decide) (by decide)).2⟩

/-- C27: `PubKey.VerifySignature` returns false for every signature whose length is not
exactly 64 bytes (`SignatureSize`), whatever the public key, the message and the
underlying verifier are. -/
theorem VerifySignature_wrong_length {β : Type} (V : Voi β) (pubKey msg sig : Bytes)
    (hlen : sig.length ≠ 64) :
    PubKey.VerifySignature V pubKey msg sig = false ∧ SignatureSize = 64 := by
  unfold PubKey.VerifySignature SignatureSize
  rw [if_pos hlen]
  exact ⟨rfl, rfl⟩

/-- Instance of C27: a signature of 63 bytes is refused although the verifier of
`listVoi` accepts everything. -/
theorem VerifySignature_wrong_length_witness :
    listVoi.VerifyWithOptions samplePubKey [1] (List.replicate 63 9) = true ∧
    PubKey.VerifySignature listVoi samplePubKey [1] (List.replicate 63 9) = false :=
  ⟨rfl, (VerifySignature_wrong_length listVoi samplePubKey [1] (List.replicate 63 9)
    (by decide)).1⟩

end Ed25519

namespace KVStore

/-! ## The claims on the key/value application -/

theorem isValidTx_of_key_sep_value (key value : Bytes) (sep : Nat)
    (hsep : sep = 58 ∨ sep = 61) (hkey : key ≠ []) (hvalue : value ≠ [])
    (hk1 : 58 ∉ key) (hk2 : 61 ∉ key) (hv1 : 58 ∉ value) (hv2 : 61 ∉ value) :
    isValidTx (key ++ sep :: value) = true := by
  have hhead : ∀ c, c ∉ key → (key ++ sep :: value).head? ≠ some c := by
    intro c hc
    cases key with
    | nil => exact absurd rfl hkey
    | cons a rest =>
      simp only [List.cons_append, List.head?_cons, ne_eq, Option.some.injEq]
      intro h
      exact hc (by simp [h])
  have hlast : ∀ c, c ∉ value → (key ++ sep :: value).getLast? ≠ some c := by
    intro c hc
    rcases List.eq_nil_or_concat value with hnil | ⟨front, b, hcat⟩
    · exact absurd hnil hvalue
    · have hrw : key ++ sep :: value = (key ++ sep :: front) ++ [b] := by
        rw [hcat]; simp
      rw [hrw, List.getLast?_concat]
      intro h
      apply hc
      rw [hcat, ← Option.some.inj h]
      simp
  have c58k : key.count 58 = 0 := List.count_eq_zero_of_not_mem hk1
  have c61k : key.count 61 = 0 := List.count_eq_zero_of_not_mem hk2
  have c58v : value.count 58 = 0 := List.count_eq_zero_of_not_mem hv1
  have c61v : value.count 61 = 0 := List.count_eq_zero_of_not_mem hv2
  unfold isValidTx
  rcases hsep with h | h
  · subst h
    have h1 : (key ++ 58 :: value).count 58 = 1 := by
      simp [List.count_append, List.count_cons, c58k, c58v]
    have h2 : (key ++ 58 :: value).count 61 = 0 := by
      simp [List.count_append, List.count_cons, c61k, c61v]
    rw [if_pos ⟨h1, h2⟩, if_pos ⟨hhead 58 hk1, hlast 58 hv1⟩]
  · subst h
    have h1 : (key ++ 61 :: value).count 61 = 1 := by
      simp [List.count_append, List.count_cons, c61k, c61v]
    have h2 : (key ++ 61 :: value).count 58 = 0 := by
      simp [List.count_append, List.count_cons, c58k, c58v]
    have hnot : ¬ ((key ++ 61 :: value).count 58 = 1 ∧ (key ++ 61 :: value).count 61 = 0) := by
      rw [h1]; simp
    rw [if_neg hnot, if_pos ⟨h1, h2⟩, if_pos ⟨hhead 61 hk2, hlast 61 hv2⟩]

theorem isValidTx_of_no_separator (tx : Bytes) (h1 : 58 ∉ tx) (h2 : 61 ∉ tx) :
    isValidTx tx = false := by
  unfold isValidTx
  rw [List.count_eq_zero_of_not_mem h1, List.count_eq_zero_of_not_mem h2]
  simp

theorem isValidTx_of_leading_separator (sep : Nat) (value : Bytes)
    (hsep : sep = 58 ∨ sep = 61) : isValidTx (sep :: value) = false := by
  unfold isValidTx
  rcases hsep with h | h
  · subst h
    by_cases c : (58 :: value).count 58 = 1 ∧ (58 :: value).count 61 = 0
    · rw [if_pos c]
      simp
    · rw [if_neg c]
      have : ¬ ((58 :: value).count 61 = 1 ∧ (58 :: value).count 58 = 0) := by
        simp [List.count_cons]
      rw [if_neg this]
  · subst h
    have c : ¬ ((61 :: value).count 58 = 1 ∧ (61 :: value).count 61 = 0) := by
      simp [List.count_cons]
    rw [if_neg c]
    by_cases c2 : (61 :: value).count 61 = 1 ∧ (61 :: value).count 58 = 0
    · rw [if_pos c2]
      simp
    · rw [if_neg c2]

theorem isValidTx_of_trailing_separator (sep : Nat) (key : Bytes)
    (hsep : sep = 58 ∨ sep = 61) : isValidTx (key ++ [sep]) = false := by
  have hlast : (key ++ [sep]).getLast? = some sep := List.getLast?_concat _
  unfold isValidTx
  rcases hsep with h | h
  · subst h
    by_cases c : (key ++ [58]).count 58 = 1 ∧ (key ++ [58]).count 61 = 0
    · rw [if_pos c, hlast]
      simp
    · rw [if_neg c]
      have : ¬ ((key ++ [58]).count 61 = 1 ∧ (key ++ [58]).count 58 = 0) := by
        simp [List.count_append]
      rw [if_neg this]
  · subst h
    have c : ¬ ((key ++ [61]).count 58 = 1 ∧ (key ++ [61]).count 61 = 0) := by
      simp [List.count_append]
    rw [if_neg c]
    by_cases c2 : (key ++ [61]).count 61 = 1 ∧ (key ++ [61]).count 58 = 0
    · rw [if_pos c2, hlast]
      simp
    · rw [if_neg c2]

theorem CheckTx_of_not_validator (S : GoStd) (tx : Bytes) (h : isValidatorTx tx = false) :
    CheckTx S tx = if isValidTx tx then { Code := CodeTypeOK }
      else { Code := CodeTypeInvalidTxFormat } := by
  unfold CheckTx
  rw [h]
  cases isValidTx tx <;> rfl

/-- C22: `CheckTx` returns code 0 for every transaction that contains exactly one
separator (`=` or `:`) with non-empty text on both sides and is not a validator-update
transaction (as `abc=def`, `abc:def`, `a=b`, `space:jam`), and returns the non-zero code
`CodeTypeInvalidTxFormat` for the empty transaction, a transaction with no separator
(`hello`), an empty key (`=hello`), an empty value (`hello=`), and a malformed
validator-update transaction (`val=hello`). -/
theorem CheckTx_spec (S : GoStd) :
    (∀ (key value : Bytes) (sep : Nat), (sep = 58 ∨ sep = 61) → key ≠ [] → value ≠ [] →
      58 ∉ key → 61 ∉ key → 58 ∉ value → 61 ∉ value →
      isValidatorTx (key ++ sep :: value) = false →
      (CheckTx S (key ++ sep :: value)).Code = 0) ∧
    ((CheckTx S (Merkle.bz "abc=def")).Code = 0 ∧
      (CheckTx S (Merkle.bz "abc:def")).Code = 0 ∧
      (CheckTx S (Merkle.bz "a=b")).Code = 0 ∧
      (CheckTx S (Merkle.bz "space:jam")).Code = 0) ∧
    CodeTypeInvalidTxFormat ≠ 0 ∧
    ((CheckTx S []).Code = CodeTypeInvalidTxFormat ∧
      (∀ tx : Bytes, 58 ∉ tx → 61 ∉ tx → (CheckTx S tx).Code = CodeTypeInvalidTxFormat) ∧
      (∀ (sep : Nat) (value : Bytes), (sep = 58 ∨ sep = 61) →
        (CheckTx S (sep :: value)).Code = CodeTypeInvalidTxFormat) ∧
      (∀ (sep : Nat) (key : Bytes), (sep = 58 ∨ sep = 61) →
        isValidatorTx (key ++ [sep]) = false →
        (CheckTx S (key ++ [sep])).Code = CodeTypeInvalidTxFormat)) ∧
    ((CheckTx S (Merkle.bz "")).Code = CodeTypeInvalidTxFormat ∧
      (CheckTx S (Merkle.bz "hello")).Code = CodeTypeInvalidTxFormat ∧
      (CheckTx S (Merkle.bz "=hello")).Code = CodeTypeInvalidTxFormat ∧
      (CheckTx S (Merkle.bz "hello=")).Code = CodeTypeInvalidTxFormat ∧
      (CheckTx S (Merkle.bz "val=hello")).Code = CodeTypeInvalidTxFormat) := by
  refine ⟨?_, ⟨rfl, rfl, rfl, rfl⟩, by decide, ⟨rfl, ?_, ?_, ?_⟩, ⟨rfl, rfl, rfl, rfl, rfl⟩⟩
  · intro key value sep hsep hkey hvalue hk1 hk2 hv1 hv2 hval
    rw [CheckTx_of_not_validator S _ hval,
      isValidTx_of_key_sep_value key value sep hsep hkey hvalue hk1 hk2 hv1 hv2]
    rfl
  · intro tx h1 h2
    have hval : isValidatorTx tx = false := by
      unfold isValidatorTx
      cases hp : ValidatorPrefix.isPrefixOf tx with
      | false => rfl
      | true =>
        have hpre := List.isPrefixOf_iff_prefix.mp hp
        have : 61 ∈ tx := hpre.subset (by decide)
        exact absurd this h2
    rw [CheckTx_of_not_validator S _ hval, isValidTx_of_no_separator tx h1 h2]
    rfl
  · intro sep value hsep
    have hval : isValidatorTx (sep :: value) = false := by
      rcases hsep with h | h <;> subst h <;> rfl
    rw [CheckTx_of_not_validator S _ hval, isValidTx_of_leading_separator sep value hsep]
    rfl
  · intro sep key hsep hval
    rw [CheckTx_of_not_validator S _ hval, isValidTx_of_trailing_separator sep key hsep]
    rfl

/-- Instance of C22: `hello=world` has the key `hello`, the separator `=` and the value
`world`, and is admitted; `hello` has no separator and is refused. -/
theorem CheckTx_spec_witness :
    (CheckTx sampleStd (Merkle.bz "hello" ++ 61 :: Merkle.bz "world")).Code = 0 ∧
    (CheckTx sampleStd (Merkle.bz "hello")).Code = CodeTypeInvalidTxFormat :=
  ⟨(CheckTx_spec sampleStd).1 (Merkle.bz "hello") (Merkle.bz "world") 61 (Or.inr rfl)
      (by decide) (by decide) (by decide) (by decide) (by decide) (by decide) (by decide),
   (CheckTx_spec sampleStd).2.2.2.1.2.1 (Merkle.bz "hello") (by decide) (by decide)⟩

/-- C23: `PrepareProposal` returns the transactions of the request with every malformed
one (one that `CheckTx` refuses, such as the empty transaction) dropped and the
remaining ones in their original relative order: for
`[key=value, key:val, empty, kee=value]` it returns exactly three transactions, and for
a list of well-formed transactions it returns as many transactions as it was given. -/
theorem PrepareProposal_spec (S : GoStd) :
    (∀ txs : List Bytes,
      List.Sublist (PrepareProposal S txs) txs ∧
      (∀ tx, tx ∈ PrepareProposal S txs ↔ tx ∈ txs ∧ (CheckTx S tx).Code = 0) ∧
      PrepareProposal S txs = txs.filter (fun tx => decide ((CheckTx S tx).Code = 0))) ∧
    (PrepareProposal S sampleTxs
        = [Merkle.bz "key=value", Merkle.bz "key:val", Merkle.bz "kee=value"] ∧
      (PrepareProposal S sampleTxs).length = 3) ∧
    (∀ txs : List Bytes, (∀ tx ∈ txs, (CheckTx S tx).Code = 0) →
      PrepareProposal S txs = txs ∧ (PrepareProposal S txs).length = txs.length) := by
  have hfilter : ∀ txs : List Bytes, PrepareProposal S txs
      = txs.filter (fun tx => decide ((CheckTx S tx).Code = 0)) := by
    intro txs
    unfold PrepareProposal CodeTypeOK
    congr 1
  refine ⟨fun txs => ⟨?_, ?_, hfilter txs⟩, ⟨rfl, rfl⟩, ?_⟩
  · rw [hfilter]
    exact List.filter_sublist _
  · intro tx
    rw [hfilter]
    simp [List.mem_filter]
  · intro txs hall
    have : PrepareProposal S txs = txs := by
      rw [hfilter]
      exact List.filter_eq_self.mpr (fun tx htx => by simp [hall tx htx])
    exact ⟨this, by rw [this]⟩

/-- Instance of C23: the three well-formed transactions of the test are all returned. -/
theorem PrepareProposal_spec_witness :
    PrepareProposal sampleStd
        [Merkle.bz "key=value", Merkle.bz "key:val", Merkle.bz "kee=value"]
      = [Merkle.bz "key=value", Merkle.bz "key:val", Merkle.bz "kee=value"] ∧
    (PrepareProposal sampleStd
        [Merkle.bz "key=value", Merkle.bz "key:val", Merkle.bz "kee=value"]).length
      = [Merkle.bz "key=value", Merkle.bz "key:val", Merkle.bz "kee=value"].length :=
  (PrepareProposal_spec sampleStd).2.2 _ (by decide)

end KVStore

namespace Genesis

/-! ## The claim on the genesis document -/

theorem completeValidators_isOk_iff (E : GenesisAPI) (params : ConsensusParams)
    (vals : List GenesisValidator) :
    (∃ done, completeValidators E params vals = .ok done) ↔
      ∀ v ∈ vals, v.Power ≠ 0 ∧
        (v.Address = [] ∨ E.Address v.PubKeyType v.PubKeyValue = v.Address) ∧
        v.PubKeyType ∈ params.PubKeyTypes := by
  induction vals with
  | nil =>
    constructor
    · intro _ v hv
      exact absurd hv (List.not_mem_nil v)
    · intro _
      exact ⟨[], rfl⟩
  | cons v rest ih =>
    unfold completeValidators
    by_cases hp : v.Power = 0
    · rw [if_pos hp]
      constructor
      · rintro ⟨done, h⟩
        cases h
      · intro h
        exact absurd hp (h v (List.mem_cons_self v rest)).1
    · rw [if_neg hp]
      by_cases ha : v.Address ≠ [] ∧ E.Address v.PubKeyType v.PubKeyValue ≠ v.Address
      · rw [if_pos ha]
        constructor
        · rintro ⟨done, h⟩
          cases h
        · intro h
          rcases (h v (List.mem_cons_self v rest)).2.1 with h1 | h1
          · exact absurd h1 ha.1
          · exact absurd h1 ha.2
      · rw [if_neg ha]
        have ha2 : v.Address = [] ∨ E.Address v.PubKeyType v.PubKeyValue = v.Address := by
          by_cases h1 : v.Address = []
          · exact Or.inl h1
          · by_cases h2 : E.Address v.PubKeyType v.PubKeyValue = v.Address
            · exact Or.inr h2
            · exact absurd ⟨h1, h2⟩ ha
        by_cases ht : v.PubKeyType ∉ params.PubKeyTypes
        · rw [if_pos ht]
          constructor
          · rintro ⟨done, h⟩
            cases h
          · intro h
            exact absurd (h v (List.mem_cons_self v rest)).2.2 ht
        · rw [if_neg ht]
          have ht2 : v.PubKeyType ∈ params.PubKeyTypes := not_not.mp ht
          cases hr : completeValidators E params rest with
          | error e =>
            constructor
            · rintro ⟨done, h⟩
              cases h
            · intro h
              have : ∃ done, completeValidators E params rest = .ok done :=
                ih.mpr (fun w hw => h w (List.mem_cons_of_mem v hw))
              rcases this with ⟨done, hd⟩
              rw [hr] at hd
              cases hd
          | ok done =>
            constructor
            · intro _ w hw
              rcases List.mem_cons.mp hw with h1 | h1
              · subst h1
                exact ⟨hp, ha2, ht2⟩
              · exact (ih.mp ⟨done, hr⟩) w h1
            · intro _
              exact ⟨_, rfl⟩

theorem ValidateAndComplete_empty_chain_id (E : GenesisAPI) (genDoc : GenesisDoc)
    (h : genDoc.ChainID = "") :
    GenesisDoc.ValidateAndComplete E genDoc = .error .ErrEmptyChainID := by
  unfold GenesisDoc.ValidateAndComplete
  rw [if_pos h]

theorem ValidateAndComplete_long_chain_id (E : GenesisAPI) (genDoc : GenesisDoc)
    (h : 50 < genDoc.ChainID.length) :
    GenesisDoc.ValidateAndComplete E genDoc = .error (.ErrChainIDTooLong 50) := by
  unfold GenesisDoc.ValidateAndComplete
  have hne : genDoc.ChainID ≠ "" := by
    intro he
    rw [he] at h
    exact absurd h (by decide)
  rw [if_neg hne, if_pos (show genDoc.ChainID.length > MaxChainIDLen from h)]
  rfl

theorem ValidateAndComplete_isOk_iff (E : GenesisAPI) (j : GenesisJSON)
    (h1 : 1 ≤ j.toGenesisDoc.ChainID.length) (h2 : j.toGenesisDoc.ChainID.length ≤ 50) :
    (∃ doc, GenesisDoc.ValidateAndComplete E j.toGenesisDoc = .ok doc
        ∧ doc.ChainID = j.toGenesisDoc.ChainID) ↔ OtherwiseValid E j := by
  have hne : j.toGenesisDoc.ChainID ≠ "" := by
    intro he
    rw [he] at h1
    exact absurd h1 (by decide)
  have hlen : ¬ j.toGenesisDoc.ChainID.length > MaxChainIDLen := by
    unfold MaxChainIDLen
    omega
  unfold GenesisDoc.ValidateAndComplete OtherwiseValid
  rw [if_neg hne, if_neg hlen]
  have hh : j.toGenesisDoc.InitialHeight = j.initial_height.getD 0 := rfl
  have hpar : j.toGenesisDoc.ConsensusParams = j.consensus_params := rfl
  have hvals : j.toGenesisDoc.Validators = j.validators.getD [] := rfl
  rw [hh, hpar, hvals]
  by_cases hneg : j.initial_height.getD 0 < 0
  · rw [if_pos hneg]
    constructor
    · rintro ⟨doc, h, _⟩
      cases h
    · rintro ⟨h, _⟩
      omega
  · rw [if_neg hneg]
    cases hp : completeParams E j.consensus_params with
    | error e =>
      constructor
      · rintro ⟨doc, h, _⟩
        cases h
      · rintro ⟨_, params, h, _⟩
        cases h
    | ok params =>
      dsimp only
      cases hv : completeValidators E params (j.validators.getD []) with
      | error e =>
        constructor
        · rintro ⟨doc, h, _⟩
          cases h
        · rintro ⟨_, params2, hp2, hall⟩
          cases hp2
          rcases (completeValidators_isOk_iff E params _).mpr hall with ⟨done, hd⟩
          rw [hv] at hd
          cases hd
      | ok vals =>
        constructor
        · intro _
          exact ⟨by omega, params, rfl, (completeValidators_isOk_iff E params _).mp ⟨vals, hv⟩⟩
        · intro _
          exact ⟨_, rfl, rfl⟩

/-- C24: `GenesisDocFromJSON` refuses every genesis document whose chain id is missing
or empty or is longer than 50 characters (a chain id of 51 characters is refused), and
accepts a document whose chain id has between 1 and 50 characters exactly when the
checks that do not concern the chain id pass, so it accepts an otherwise valid one. -/
theorem GenesisDocFromJSON_chain_id (E : GenesisAPI) (jsonBlob : Bytes) (j : GenesisJSON)
    (hj : E.Unmarshal jsonBlob = some j) :
    ((j.chain_id = none ∨ j.chain_id = some "") →
      GenesisDocFromJSON E jsonBlob = .error .ErrEmptyChainID) ∧
    (∀ id : String, j.chain_id = some id → 50 < id.length →
      GenesisDocFromJSON E jsonBlob = .error (.ErrChainIDTooLong 50)) ∧
    (∀ id : String, j.chain_id = some id → id.length = 51 →
      ∃ e, GenesisDocFromJSON E jsonBlob = .error e) ∧
    (∀ id : String, j.chain_id = some id → 1 ≤ id.length → id.length ≤ 50 →
      ((∃ doc, GenesisDocFromJSON E jsonBlob = .ok doc ∧ doc.ChainID = id)
        ↔ OtherwiseValid E j)) := by
  have hrun : GenesisDocFromJSON E jsonBlob
      = GenesisDoc.ValidateAndComplete E j.toGenesisDoc := by
    unfold GenesisDocFromJSON
    rw [hj]
  have hid : ∀ id : String, j.chain_id = some id → j.toGenesisDoc.ChainID = id := by
    intro id h
    unfold GenesisJSON.toGenesisDoc
    rw [h]
    rfl
  refine ⟨?_, ?_, ?_, ?_⟩
  · intro h
    rw [hrun]
    apply ValidateAndComplete_empty_chain_id
    rcases h with h | h
    · unfold GenesisJSON.toGenesisDoc
      rw [h]
      rfl
    · exact hid _ h
  · intro id h hlen
    rw [hrun]
    apply ValidateAndComplete_long_chain_id
    rw [hid id h]
    exact hlen
  · intro id h hlen
    rw [hrun]
    refine ⟨_, ValidateAndComplete_long_chain_id E _ ?_⟩
    rw [hid id h]
    omega
  · intro id h h1 h2
    rw [hrun]
    have := ValidateAndComplete_isOk_iff E j (by rw [hid id h]; exact h1)
      (by rw [hid id h]; exact h2)
    rw [hid id h] at this
    exact this

/-- Instance of C24: the good document of `TestBasicGenesisDoc`, whose chain id
`test-chain-QDKdJr` has 17 characters, is accepted; the document of `TestGenesisBad`
with a chain id of 51 characters and the one with no chain id are refused. -/
theorem GenesisDocFromJSON_chain_id_witness :
    (∃ doc, GenesisDocFromJSON sampleAPI [1] = .ok doc
      ∧ doc.ChainID = "test-chain-QDKdJr") ∧
    GenesisDocFromJSON sampleAPI [2] = .error (.ErrChainIDTooLong 50) ∧
    GenesisDocFromJSON sampleAPI [3] = .error .ErrEmptyChainID :=
  ⟨((GenesisDocFromJSON_chain_id sampleAPI [1] _ rfl).2.2.2 "test-chain-QDKdJr" rfl
      (by decide) (by decide)).mpr
    ⟨by decide, sampleParams, rfl, by
      intro v hv
      have : v = sampleValidator := by simpa using hv
      subst this
      exact ⟨by decide, Or.inl rfl, by decide⟩⟩,
   (GenesisDocFromJSON_chain_id sampleAPI [2] _ rfl).2.1
      "Lorem ipsum dolor sit amet, consectetuer adipiscing" rfl (by decide),
   (GenesisDocFromJSON_chain_id sampleAPI [3] _ rfl).1 (Or.inl rfl)⟩

end Genesis
